import Mathlib

/-!
# easylive: the RTMP chunk codec, handshake and acknowledgement accounting

A shallow embedding of `conn/base.go` and `conn/conn.go`.

Conventions of the embedding.

* A byte is a `Nat` below 256; a byte slice is a `List Nat`.
* Go's `uint32` and `uint8` arithmetic is written with an explicit reduction
  modulo `2^32` or `2^8` wherever the source value can leave the range.
* Go's `int` is taken to be 64 bits wide (amd64, arm64), so `uint32(x)` of an
  `int` is `x % 2^32`.
* The buffered writer is the list of bytes written so far; writes to it do not
  fail.  The buffered reader is the list of bytes not yet consumed; a read of
  `n` bytes fails when fewer than `n` bytes are left.
* A run-time panic (integer division by zero, slice bounds out of range) is an
  explicit error value.
-/

namespace EasyLive

/-! ## Constants of package `consts` -/

/-- Modelled from the spec: `consts.FlvTimestampMax`, the 24-bit maximum
`0xFFFFFF` that the spec names as the timestamp escape and the length limit.
The package `consts` is not among the sources. -/
def FlvTimestampMax : Nat := 0xFFFFFF

/-- Modelled from the spec: message type id 1, SetChunkSize. -/
def MsgTypeIDSetChunkSize : Nat := 1

/-- Modelled from the spec: message type id 3, Acknowledgement. -/
def MsgTypeIDAck : Nat := 3

/-- Modelled from the spec: message type id 8, Audio. -/
def MsgTypeIDAudioMsg : Nat := 8

/-- Modelled from the spec: message type id 9, Video. -/
def MsgTypeIDVideoMsg : Nat := 9

/-- Modelled from the spec: message type id 15, DataAMF3. -/
def MsgTypeIDDataMsgAMF3 : Nat := 15

/-- Modelled from the spec: message type id 18, DataAMF0. -/
def MsgTypeIDDataMsgAMF0 : Nat := 18

/-! ## Machine integers -/

/-- Conversion to `uint32`. -/
def u32 (n : Nat) : Nat := n % 2 ^ 32

/-- Conversion to `uint8`. -/
def u8 (n : Nat) : Nat := n % 2 ^ 8

/-- Subtraction of two `uint32` values, wrapping around. -/
def sub32 (a b : Nat) : Nat := (u32 a + 2 ^ 32 - u32 b) % 2 ^ 32

/-! ## ByteIO -/

/-- Modelled from the spec: `WriteUintBE(v, n)` of ByteIO, the `n` low bytes
of `v`, most significant first.  Its source file is not among the sources. -/
def WriteUintBE (v n : Nat) : List Nat :=
  (List.range n).map (fun i => (v >>> ((n - i - 1) * 8)) % 256)

/-- Modelled from the spec: `WriteUintLE(v, n)` of ByteIO, the `n` low bytes
of `v`, least significant first.  Its source file is not among the sources. -/
def WriteUintLE (v n : Nat) : List Nat :=
  (List.range n).map (fun i => (v >>> (i * 8)) % 256)

/-- Big-endian value of a byte slice (`pio.U24BE`, `pio.U32BE`). -/
def UBE (b : List Nat) : Nat := b.foldl (fun acc x => acc * 256 + x) 0

/-- Little-endian value of a byte slice (`pio.U32LE`). -/
def ULE (b : List Nat) : Nat := b.foldr (fun x acc => x + 256 * acc) 0

/-- The function `pio.U24BE` on a 3-byte slice. -/
def U24BE (b : List Nat) : Nat := UBE (b.take 3)

/-- The function `pio.U32BE` on a 4-byte slice. -/
def U32BE (b : List Nat) : Nat := UBE (b.take 4)

/-- The function `pio.U32LE` on a 4-byte slice. -/
def U32LE (b : List Nat) : Nat := ULE (b.take 4)

/-- The method `readData(n)`: `io.ReadFull` of `n` bytes from the reader.
`none` is the read error; otherwise the bytes read and the bytes left. -/
def readData (n : Nat) (input : List Nat) : Option (List Nat × List Nat) :=
  if n ≤ input.length then some (input.take n, input.drop n) else none

/-! ## ChunkStream -/

/-- The reassembly context of one chunk stream.  The fields are the ones
`base.go` and `conn.go` read and write; `Format` is a `uint8`, the other
numbers are `uint32`. -/
structure ChunkStream where
  Format : Nat := 0
  CSID : Nat := 0
  Timestamp : Nat := 0
  Length : Nat := 0
  TypeID : Nat := 0
  StreamID : Nat := 0
  timeDelta : Nat := 0
  useExtendTimeStamp : Bool := false
  finish : Bool := false
  index : Nat := 0
  remain : Nat := 0
  Data : List Nat := []
deriving DecidableEq, Repr

/-- Modelled from the spec: `initData`, which starts a new message: "allocate
payload buffer of size `length`; `index=0`, `remain=length`"; `finish` is
true only "after the last fragment", so a message that starts is not finished.
The file that declares `ChunkStream` is not among the sources. -/
def ChunkStream.initData (cs : ChunkStream) : ChunkStream :=
  { cs with finish := false, index := 0, remain := cs.Length,
            Data := List.replicate cs.Length 0 }

/-! ## Encoder: `writeHeader` and `writeChunk` -/

/-- The chunk basic header part of `writeHeader` (the `switch` on `cs.CSID`). -/
def basicHeader (cs : ChunkStream) : List Nat :=
  let h := u8 (cs.Format <<< 6)
  if cs.CSID < 64 then
    WriteUintBE (h ||| u8 cs.CSID) 1
  else if sub32 cs.CSID 64 < 256 then
    WriteUintBE (h ||| 0) 1 ++ WriteUintLE (sub32 cs.CSID 64) 1
  else if sub32 cs.CSID 64 < 65536 then
    WriteUintBE (h ||| 1) 1 ++ WriteUintLE (sub32 cs.CSID 64) 2
  else
    []

/-- The extended timestamp part of `writeHeader` (label `END`), for the value
`ts` the function holds when it gets there. -/
def extendedTimestamp (cs : ChunkStream) (ts : Nat) : List Nat :=
  if ts ≥ FlvTimestampMax then WriteUintBE cs.Timestamp 4 else []

/-- The chunk message header part of `writeHeader`: the bytes written after
the basic header, and whether the function returns the length error. -/
def messageHeader (cs : ChunkStream) : List Nat × Bool :=
  if cs.Format = 3 then
    (extendedTimestamp cs cs.Timestamp, false)
  else
    let ts := if cs.Timestamp > FlvTimestampMax then FlvTimestampMax else cs.Timestamp
    let out := WriteUintBE ts 3
    if cs.Format = 2 then
      (out ++ extendedTimestamp cs ts, false)
    else if cs.Length > FlvTimestampMax then
      (out, true)
    else
      let out := out ++ WriteUintBE cs.Length 3 ++ WriteUintBE cs.TypeID 1
      if cs.Format = 1 then
        (out ++ extendedTimestamp cs ts, false)
      else
        (out ++ WriteUintLE cs.StreamID 4 ++ extendedTimestamp cs ts, false)

/-- The method `writeHeader`: the bytes it writes, and whether it returns an
error (`length=...`). -/
def writeHeader (cs : ChunkStream) : List Nat × Bool :=
  (basicHeader cs ++ (messageHeader cs).1, (messageHeader cs).2)

/-- One chunk as `writeChunk` writes it: the bytes of `writeHeader` and the
bytes of the payload `Write`. -/
structure Chunk where
  header : List Nat
  payload : List Nat
deriving DecidableEq, Repr

/-- How a call of `writeChunk` ends. -/
inductive WriteEnd where
  | ok
  | lengthError
  | divideByZero
  | sliceOutOfRange
deriving DecidableEq, Repr

/-- What a call of `writeChunk` leaves behind: the chunk stream as mutated,
the chunks written in full, the header bytes of an iteration that did not
get to its payload, and how the call ended. -/
structure WriteOut where
  cs : ChunkStream
  chunks : List Chunk
  rest : List Nat
  status : WriteEnd
deriving DecidableEq, Repr

/-- The bytes of a chunk on the wire. -/
def Chunk.bytes (c : Chunk) : List Nat := c.header ++ c.payload

/-- The bytes a call of `writeChunk` has put on the wire. -/
def WriteOut.wire (w : WriteOut) : List Nat :=
  (w.chunks.map Chunk.bytes).flatten ++ w.rest

/-- The loop of `writeChunk`, `for i := uint32(0); i <= numChunks; i++`.
`fuel` is the number of values of `i` still to visit, `numChunks + 1 - i`;
`chunkSize` is `uint32(chunkSize)`.  The slice `cs.Data[start:end]` is taken
with capacity `len(cs.Data)`. -/
def writeChunkLoop (chunkSize : Nat) :
    Nat → Nat → Nat → ChunkStream → WriteOut
  | 0, _, _, cs => ⟨cs, [], [], WriteEnd.ok⟩
  | fuel + 1, i, totalLen, cs =>
    if totalLen = cs.Length then
      ⟨cs, [], [], WriteEnd.ok⟩
    else
      let cs := { cs with Format := if i = 0 then 0 else 3 }
      let hdr := writeHeader cs
      if hdr.2 then
        ⟨cs, [], hdr.1, WriteEnd.lengthError⟩
      else
        let start := u32 (i * chunkSize)
        let inc := if sub32 cs.Data.length start ≤ chunkSize
                   then sub32 cs.Data.length start else chunkSize
        let stop := u32 (start + inc)
        if start ≤ stop ∧ stop ≤ cs.Data.length then
          let buf := (cs.Data.drop start).take (stop - start)
          let w := writeChunkLoop chunkSize fuel (i + 1) (u32 (totalLen + inc)) cs
          { w with chunks := ⟨hdr.1, buf⟩ :: w.chunks }
        else
          ⟨cs, [], hdr.1, WriteEnd.sliceOutOfRange⟩

/-- The CSID that `writeChunk` gives a message of this type id. -/
def policyCSID (cs : ChunkStream) : Nat :=
  if cs.TypeID = MsgTypeIDAudioMsg then 4
  else if cs.TypeID = MsgTypeIDVideoMsg ∨ cs.TypeID = MsgTypeIDDataMsgAMF0 ∨
      cs.TypeID = MsgTypeIDDataMsgAMF3 then 6
  else cs.CSID

/-- The method `writeChunk(cs, chunkSize)`. -/
def writeChunk (cs : ChunkStream) (chunkSize : Nat) : WriteOut :=
  let cs := { cs with CSID := policyCSID cs }
  if u32 chunkSize = 0 then
    ⟨cs, [], [], WriteEnd.divideByZero⟩
  else
    let numChunks := cs.Length / u32 chunkSize
    writeChunkLoop (u32 chunkSize) (numChunks + 1) 0 0 cs

/-! ## The connection -/

/-- The connection state `RTMPConn`: the bytes the reader still holds, the
bytes written to the writer, the chunk stream table and the counters.
`writeMaxChunkSize` and `readMaxChunkSize` are Go `int`s that hold 128 or a
value converted from a `uint32`, so they are not negative. -/
structure RTMPConn where
  input : List Nat := []
  output : List Nat := []
  csidMap : List (Nat × ChunkStream) := []
  writeMaxChunkSize : Nat := 0
  readMaxChunkSize : Nat := 0
  remoteWindowAckSize : Nat := 0
  received : Nat := 0
  ackReceived : Nat := 0
deriving DecidableEq, Repr

/-- The constant `remoteWindowAckSize` of `conn.go`. -/
def remoteWindowAckSize : Nat := 5000000

/-- The constructor `NewRTMPConn`, over a transport that will deliver `input`. -/
def NewRTMPConn (input : List Nat) : RTMPConn :=
  { input := input, output := [], csidMap := [],
    writeMaxChunkSize := 128, readMaxChunkSize := 128,
    remoteWindowAckSize := remoteWindowAckSize,
    received := 0, ackReceived := 0 }

/-- A connection fresh from `NewRTMPConn` whose `readMaxChunkSize` has been
set to `n` (the default is 128). -/
def freshDecoder (input : List Nat) (n : Nat) : RTMPConn :=
  { NewRTMPConn input with readMaxChunkSize := n }

/-- The assignment `c.csidMap[csid] = cs`. -/
def csidMapSet (m : List (Nat × ChunkStream)) (csid : Nat) (cs : ChunkStream) :
    List (Nat × ChunkStream) :=
  (csid, cs) :: m.filter (fun p => p.1 != csid)

/-! ## Decoder: `ReadChunk` -/

/-- Modelled from the spec: `getRealCSID`, step 2 of the decode path:
"`csidLow == 0` → read 1 more byte `b`, CSID = `b + 64`; `csidLow == 1` → read
2 more bytes (little-endian) `w`, CSID = `w + 64`; else CSID = `csidLow`".
Its source file is not among the sources. -/
def getRealCSID (csid : Nat) (input : List Nat) : Option (Nat × List Nat) :=
  if csid = 0 then
    match readData 1 input with
    | none => none
    | some (b, input) => some (ULE b + 64, input)
  else if csid = 1 then
    match readData 2 input with
    | none => none
    | some (w, input) => some (ULE w + 64, input)
  else
    some (csid, input)

/-- The basic header part of `ReadChunk`: the format, the chunk stream id and
the bytes left. -/
def readBasicHeader (input : List Nat) : Option (Nat × Nat × List Nat) :=
  match readData 1 input with
  | none => none
  | some (data, input) =>
    let header := data.getD 0 0
    let format := u8 (header >>> 6)
    let csid := u32 header &&& 0x3f
    match getRealCSID csid input with
    | none => none
    | some (csid, input) => some (format, csid, input)

/-- The `switch format` of `ReadChunk`: the message header is read into `cs`. -/
def readMessageHeader (format : Nat) (cs : ChunkStream) (input : List Nat) :
    Option (ChunkStream × List Nat) :=
  match format with
  | 0 =>
    match readData 11 input with
    | none => none
    | some (mh, input) =>
      let cs := { cs with Format := format,
                          Timestamp := U24BE (mh.take 3),
                          Length := U24BE ((mh.drop 3).take 3),
                          TypeID := mh.getD 6 0,
                          StreamID := U32LE ((mh.drop 7).take 4) }
      if cs.Timestamp = 0xffffff then
        match readData 4 input with
        | none => none
        | some (data, input) =>
          some (({ cs with Timestamp := U32BE data,
                           useExtendTimeStamp := true }).initData, input)
      else
        some (({ cs with useExtendTimeStamp := false }).initData, input)
  | 1 =>
    match readData 7 input with
    | none => none
    | some (mh, input) =>
      let timestamp := U24BE (mh.take 3)
      let cs := { cs with Format := format,
                          Length := U24BE ((mh.drop 3).take 3),
                          TypeID := mh.getD 6 0 }
      if timestamp = 0xffffff then
        match readData 4 input with
        | none => none
        | some (data, input) =>
          let cs := { cs with Timestamp := U32BE data, useExtendTimeStamp := true }
          some (({ cs with timeDelta := timestamp,
                           Timestamp := u32 (cs.Timestamp + timestamp) }).initData, input)
      else
        let cs := { cs with useExtendTimeStamp := false }
        some (({ cs with timeDelta := timestamp,
                         Timestamp := u32 (cs.Timestamp + timestamp) }).initData, input)
  | 2 =>
    match readData 3 input with
    | none => none
    | some (mh, input) =>
      let timestamp := U24BE (mh.take 3)
      let cs := { cs with Format := format }
      if timestamp = 0xffffff then
        match readData 4 input with
        | none => none
        | some (data, input) =>
          let cs := { cs with Timestamp := U32BE data, useExtendTimeStamp := true }
          some (({ cs with timeDelta := timestamp,
                           Timestamp := u32 (cs.Timestamp + timestamp) }).initData, input)
      else
        let cs := { cs with useExtendTimeStamp := false }
        some (({ cs with timeDelta := timestamp,
                         Timestamp := u32 (cs.Timestamp + timestamp) }).initData, input)
  | 3 =>
    if cs.remain = 0 then
      if cs.Format = 0 then
        if cs.useExtendTimeStamp then
          match readData 4 input with
          | none => none
          | some (data, input) => some (({ cs with Timestamp := U32BE data }).initData, input)
        else
          some (cs.initData, input)
      else if cs.Format = 1 ∨ cs.Format = 2 then
        if cs.useExtendTimeStamp then
          match readData 4 input with
          | none => none
          | some (data, input) =>
            some (({ cs with Timestamp := u32 (cs.Timestamp + U32BE data) }).initData, input)
        else
          some (({ cs with Timestamp := u32 (cs.Timestamp + cs.timeDelta) }).initData, input)
      else
        some (cs.initData, input)
    else
      some (cs, input)
  | _ => none

/-- The payload part of `ReadChunk`, from `size := int(cs.remain)` on.  The
slice `cs.Data[cs.index : cs.index+uint32(size)]` is taken with capacity
`len(cs.Data)`; `none` is the slice panic or the read error. -/
def readPayload (readMaxChunkSize : Nat) (cs : ChunkStream) (input : List Nat) :
    Option (ChunkStream × List Nat) :=
  let size := if cs.remain > readMaxChunkSize then readMaxChunkSize else cs.remain
  let stop := u32 (cs.index + u32 size)
  if cs.index ≤ stop ∧ stop ≤ cs.Data.length then
    match readData (stop - cs.index) input with
    | none => none
    | some (buf, input) =>
      let remain := sub32 cs.remain (u32 size)
      some ({ cs with Data := cs.Data.take cs.index ++ buf ++ cs.Data.drop stop,
                      index := u32 (cs.index + u32 size),
                      remain := remain,
                      finish := if remain = 0 then true else cs.finish }, input)
  else
    none

/-- The method `ReadChunk`: the chunk stream it returns and the connection
after the call, or `none` when it returns an error (or panics). -/
def ReadChunk (c : RTMPConn) : Option (ChunkStream × RTMPConn) :=
  match readBasicHeader c.input with
  | none => none
  | some (format, csid, input) =>
    let cs := match c.csidMap.lookup csid with
              | some cs => cs
              | none => { CSID := csid }
    match readMessageHeader format cs input with
    | none => none
    | some (cs, input) =>
      match readPayload c.readMaxChunkSize cs input with
      | none => none
      | some (cs, input) =>
        some (cs, { c with input := input, csidMap := csidMapSet c.csidMap csid cs })

/-- Successive calls of `ReadChunk`, `k` of them, as long as none returns an
error: the chunk streams returned, in order, and the connection at the end. -/
def ReadChunks : Nat → RTMPConn → Option (List ChunkStream × RTMPConn)
  | 0, c => some ([], c)
  | k + 1, c =>
    match ReadChunk c with
    | none => none
    | some (cs, c) =>
      match ReadChunks k c with
      | none => none
      | some (css, c) => some (cs :: css, c)

/-! ## Acknowledgement accounting -/

/-- Modelled from the spec: `NewAck(size)`, the Acknowledgement message
"typeId 3, CSID 2, streamId 0" whose "payload is 4-byte big-endian" `size`.
Its source file is not among the sources. -/
def NewAck (size : Nat) : ChunkStream :=
  { Format := 0, CSID := 2, TypeID := MsgTypeIDAck, StreamID := 0, Length := 4,
    Data := WriteUintBE size 4 }

/-- The method `Ack(cs)`: the connection after the call, and whether the call
panicked (in `writeChunk`) instead of returning. -/
def Ack (c : RTMPConn) (cs : ChunkStream) : RTMPConn × Bool :=
  let c := { c with received := u32 (c.received + cs.Length),
                    ackReceived := u32 (c.ackReceived + cs.Length) }
  let c := if c.received ≥ 0xf0000000 then { c with received := 0 } else c
  if c.ackReceived ≥ c.remoteWindowAckSize then
    let w := writeChunk (NewAck c.ackReceived) c.writeMaxChunkSize
    let c := { c with output := c.output ++ w.wire }
    if w.status = WriteEnd.divideByZero ∨ w.status = WriteEnd.sliceOutOfRange then
      (c, true)
    else
      ({ c with ackReceived := 0 }, false)
  else
    (c, false)

/-- Successive calls of `Ack`, one for each completed message, as long as no
call panics. -/
def AckAll : RTMPConn → List ChunkStream → RTMPConn × Bool
  | c, [] => (c, false)
  | c, cs :: rest =>
    let r := Ack c cs
    if r.2 then r else AckAll r.1 rest

/-! ## Outbound messages -/

/-- The method `Write(cs)`: the connection after the call and what
`writeChunk` did.  `binary.BigEndian.Uint32` panics on fewer than 4 bytes. -/
def Write (c : RTMPConn) (cs : ChunkStream) : Option (RTMPConn × WriteOut) :=
  if cs.TypeID = MsgTypeIDSetChunkSize then
    if cs.Data.length < 4 then none
    else
      let c := { c with writeMaxChunkSize := U32BE cs.Data }
      let w := writeChunk cs c.writeMaxChunkSize
      some ({ c with output := c.output ++ w.wire }, w)
  else
    let w := writeChunk cs c.writeMaxChunkSize
    some ({ c with output := c.output ++ w.wire }, w)

/-! ## Command framing -/

/-- A value as the AMF0 decoder of the library `protocol/amf` yields it in an
`interface{}`: a `string`, a `float64` (kept as its 64 bits; no arithmetic is
done on it), an `amf.Object` (a map from names to values, kept as an
association list), or a value of any other dynamic type (null, boolean,
array, ...), kept as a tag. -/
inductive AMFValue where
  | str (s : String)
  | num (bits : Nat)
  | obj (o : List (String × AMFValue))
  | other (tag : Nat)

/-- The struct `Command` that `handleCommandMsgAMF0` fills.  Its declaration
is not among the sources; the fields and their types are the ones the
assignments of `handleCommandMsgAMF0` fix.  A nil `amf.Object` is `none`, a nil
slice is the empty list. -/
structure Command where
  CommandName : String := ""
  CommandTransId : Nat := 0
  CommandObj : Option (List (String × AMFValue)) := none
  CommandParams : List AMFValue := []

/-- The loop of `DecodeBatch`, over the bytes the reader still holds.
`decode` is `d.Decode(r, newamf.AMF0)` of the AMF library: the value and the
bytes left, or `none` for its error.  `fuel` bounds the number of calls; `none`
stands for a loop that is still running when it is used up. -/
def DecodeBatchLoop (decode : List Nat → Option (AMFValue × List Nat)) :
    Nat → List Nat → Option (List AMFValue)
  | 0, _ => none
  | fuel + 1, r =>
    match decode r with
    | none => some []
    | some (v, r) =>
      match DecodeBatchLoop decode fuel r with
      | none => none
      | some ret => some (v :: ret)

/-- The function `DecodeBatch` on `bytes.NewReader(b)`: the values decoded
before the first error.  A decoder that consumes at least one byte with every
value makes at most `len(b)` successful calls, so `len(b) + 1` calls reach the
error. -/
def DecodeBatch (decode : List Nat → Option (AMFValue × List Nat)) (b : List Nat) :
    Option (List AMFValue) :=
  DecodeBatchLoop decode (b.length + 1) b

/-- The method `handleCommandMsgAMF0`: the command it returns (its error is
always nil), or `none` when it panics on `vs[0]`, `vs[1]`, `vs[2]` or on a
type assertion (or when `DecodeBatch` does not return). -/
def handleCommandMsgAMF0 (decode : List Nat → Option (AMFValue × List Nat)) (b : List Nat) :
    Option Command :=
  match DecodeBatch decode b with
  | none => none
  | some vs =>
    match vs[0]? with
    | some (AMFValue.str name) =>
      match vs[1]? with
      | some (AMFValue.num transId) =>
        match vs[2]? with
        | none => none
        | some v2 =>
          let obj := match v2 with
                     | AMFValue.obj o => some o
                     | _ => none
          some { CommandName := name, CommandTransId := transId, CommandObj := obj,
                 CommandParams := if vs.length > 3 then vs.drop 3 else [] }
      | _ => none
    | _ => none

/-! ## Handshake -/

/-- The digest handshake functions `hsParseC1`, `hsCreateS01` and `hsCreateS2`
(HMAC-SHA256 over fixed keys, random filling).  Their source file is not among
the sources, so `HandshakeServer` takes them as a parameter: `hsParseC1 C1` is
the digest when C1 validates, `hsCreateS01 S0S1 serverTime serverVersion` and
`hsCreateS2 S2 digest` are the buffers as the calls leave them. -/
structure HsFuncs where
  hsParseC1 : List Nat → Option (List Nat)
  hsCreateS01 : List Nat → Nat → Nat → List Nat
  hsCreateS2 : List Nat → List Nat → List Nat

/-- A buffer of `n` bytes holding `b`: a call that fills a slice in place
leaves its length as it was. -/
def fit (n : Nat) (b : List Nat) : List Nat :=
  b.take n ++ List.replicate (n - b.length) 0

/-- How a call of `HandshakeServer` ends. -/
inductive HsEnd where
  | ok
  | readError
  | versionInvalid
  | c1Invalid
deriving DecidableEq, Repr

/-- The method `HandshakeServer`.  The array `random` starts zeroed; `C2` is
the part of it that the last read fills, so it is still zero when the simple
branch copies it into `S2`. -/
def HandshakeServer (hs : HsFuncs) (c : RTMPConn) : RTMPConn × HsEnd :=
  let C2 := List.replicate 1536 0
  let S0S1S2 := List.replicate (1536 * 2 + 1) 0
  match readData (1536 + 1) c.input with
  | none => (c, HsEnd.readError)
  | some (C0C1, input) =>
    let c := { c with input := input }
    let C0 := C0C1.take 1
    let C1 := C0C1.drop 1
    if C0.getD 0 0 ≠ 3 then (c, HsEnd.versionInvalid)
    else
      let S0S1S2 := S0S1S2.set 0 3
      let clientTime := U32BE (C1.take 4)
      let serverTime := clientTime
      let serverVersion := 0x04050001
      let clientVersion := U32BE ((C1.drop 4).take 4)
      let filled : Option (List Nat) :=
        if clientVersion ≠ 0 then
          match hs.hsParseC1 C1 with
          | none => none
          | some digest =>
            let S0S1 := fit (1536 + 1) (hs.hsCreateS01 (S0S1S2.take (1536 + 1)) serverTime serverVersion)
            let S2 := fit 1536 (hs.hsCreateS2 (S0S1S2.drop (1536 + 1)) digest)
            some (S0S1 ++ S2)
        else
          some (S0S1S2.take 1 ++ C1 ++ C2)
      match filled with
      | none => (c, HsEnd.c1Invalid)
      | some S0S1S2 =>
        let c := { c with output := c.output ++ S0S1S2 }
        match readData 1536 c.input with
        | none => (c, HsEnd.readError)
        | some (_, input) => ({ c with input := input }, HsEnd.ok)

/-! ## Lemmas on ByteIO -/

theorem WriteUintBE_one (v : Nat) : WriteUintBE v 1 = [v % 256] := by
  simp [WriteUintBE, List.range_succ]

theorem WriteUintBE_three (v : Nat) :
    WriteUintBE v 3 = [v / 65536 % 256, v / 256 % 256, v % 256] := by
  simp [WriteUintBE, List.range_succ, Nat.shiftRight_eq_div_pow]

theorem WriteUintBE_four (v : Nat) :
    WriteUintBE v 4 = [v / 16777216 % 256, v / 65536 % 256, v / 256 % 256, v % 256] := by
  simp [WriteUintBE, List.range_succ, Nat.shiftRight_eq_div_pow]

theorem WriteUintLE_one (v : Nat) : WriteUintLE v 1 = [v % 256] := by
  simp [WriteUintLE, List.range_succ]

theorem WriteUintLE_two (v : Nat) : WriteUintLE v 2 = [v % 256, v / 256 % 256] := by
  simp [WriteUintLE, List.range_succ, Nat.shiftRight_eq_div_pow]

theorem WriteUintLE_four (v : Nat) :
    WriteUintLE v 4 = [v % 256, v / 256 % 256, v / 65536 % 256, v / 16777216 % 256] := by
  simp [WriteUintLE, List.range_succ, Nat.shiftRight_eq_div_pow]

theorem sub32_of_le (a b : Nat) (hb : b ≤ a) (ha : a < 2 ^ 32) : sub32 a b = a - b := by
  unfold sub32 u32
  rw [Nat.mod_eq_of_lt ha, Nat.mod_eq_of_lt (by omega : b < 2 ^ 32)]
  omega

/-- The first byte of the basic header, for a format in 0..3 and a 6-bit low part. -/
theorem basicByte_eq (f c : Nat) (hf : f < 4) (hc : c < 64) :
    (u8 (f <<< 6) ||| u8 c) % 256 = (f <<< 6) ||| c := by
  revert c
  revert f
  unfold u8
  decide

/-! ## The encoder's header -/

/-- C7: for a format in 0..3, `writeHeader` starts its output with one byte
`(f<<6)|csid` when `csid < 64`, with the two bytes `(f<<6)|0`, `csid-64` when
`64 <= csid < 320`, and with the three bytes `(f<<6)|1`, then `csid-64` in
little-endian order, when `320 <= csid < 65600`; the message header follows. -/
theorem writeHeader_basic_header_by_csid (cs : ChunkStream) (hf : cs.Format ≤ 3) :
    (cs.CSID < 64 →
      (writeHeader cs).1 = [(cs.Format <<< 6) ||| cs.CSID] ++ (messageHeader cs).1) ∧
    (64 ≤ cs.CSID → cs.CSID < 320 →
      (writeHeader cs).1 =
        [(cs.Format <<< 6) ||| 0, cs.CSID - 64] ++ (messageHeader cs).1) ∧
    (320 ≤ cs.CSID → cs.CSID < 65600 →
      (writeHeader cs).1 =
        [(cs.Format <<< 6) ||| 1, (cs.CSID - 64) % 256, (cs.CSID - 64) / 256]
          ++ (messageHeader cs).1) := by
  have hf4 : cs.Format < 4 := by omega
  refine ⟨?_, ?_, ?_⟩
  · intro h
    have hb := basicByte_eq cs.Format cs.CSID hf4 h
    simp [writeHeader, basicHeader, h, WriteUintBE_one, hb]
  · intro h1 h2
    have hs : sub32 cs.CSID 64 = cs.CSID - 64 := sub32_of_le _ _ h1 (by omega)
    have hb := basicByte_eq cs.Format 0 hf4 (by omega)
    have hlt : ¬ cs.CSID < 64 := by omega
    have h256 : cs.CSID - 64 < 256 := by omega
    simp only [u8, Nat.zero_mod] at hb
    simp [writeHeader, basicHeader, hlt, hs, h256, WriteUintBE_one, WriteUintLE_one, u8,
      Nat.mod_eq_of_lt h256]
    simpa using hb
  · intro h1 h2
    have hs : sub32 cs.CSID 64 = cs.CSID - 64 := sub32_of_le _ _ (by omega) (by omega)
    have hb := basicByte_eq cs.Format 1 hf4 (by omega)
    have hlt : ¬ cs.CSID < 64 := by omega
    have h256 : ¬ cs.CSID - 64 < 256 := by omega
    have h65536 : cs.CSID - 64 < 65536 := by omega
    have hdiv : (cs.CSID - 64) / 256 < 256 := by omega
    simp only [u8] at hb
    simp [writeHeader, basicHeader, hlt, hs, h256, h65536, WriteUintBE_one, WriteUintLE_two,
      u8, Nat.mod_eq_of_lt hdiv]
    simpa using hb

/-- Witness of C7 on the three ranges: csid 3, csid 100 and csid 1000 with
format 3. -/
theorem writeHeader_basic_header_by_csid_witness :
    (writeHeader { Format := 3, CSID := 3 }).1 = [195] ∧
    (writeHeader { Format := 3, CSID := 100 }).1 = [192, 36] ∧
    (writeHeader { Format := 3, CSID := 1000 }).1 = [193, 168, 3] := by
  refine ⟨?_, ?_, ?_⟩
  · have h := (writeHeader_basic_header_by_csid { Format := 3, CSID := 3 } (by decide)).1
      (by decide)
    rw [h]; decide
  · have h := (writeHeader_basic_header_by_csid { Format := 3, CSID := 100 } (by decide)).2.1
      (by decide) (by decide)
    rw [h]; decide
  · have h := (writeHeader_basic_header_by_csid { Format := 3, CSID := 1000 } (by decide)).2.2
      (by decide) (by decide)
    rw [h]; decide

/-- C4: for a chunk stream with `Format = 0`, `Length <= 0xFFFFFF` and a
one-byte `TypeID`, `writeHeader` returns no error and writes, after the basic
header, `min(Timestamp, 0xFFFFFF)` as 3 bytes big-endian, `Length` as 3 bytes
big-endian, `TypeID` as 1 byte, `StreamID` as 4 bytes little-endian, and then
`Timestamp` as 4 bytes big-endian exactly when `Timestamp >= 0xFFFFFF`. -/
theorem writeHeader_fmt0_layout (cs : ChunkStream) (hfmt : cs.Format = 0)
    (hlen : cs.Length ≤ 0xFFFFFF) (hty : cs.TypeID < 256)
    (hts : cs.Timestamp < 2 ^ 32) (hsid : cs.StreamID < 2 ^ 32) :
    writeHeader cs =
      (basicHeader cs ++
        [min cs.Timestamp 0xFFFFFF / 65536, min cs.Timestamp 0xFFFFFF / 256 % 256,
          min cs.Timestamp 0xFFFFFF % 256] ++
        [cs.Length / 65536, cs.Length / 256 % 256, cs.Length % 256] ++
        [cs.TypeID] ++
        [cs.StreamID % 256, cs.StreamID / 256 % 256, cs.StreamID / 65536 % 256,
          cs.StreamID / 16777216] ++
        (if cs.Timestamp ≥ 0xFFFFFF then
          [cs.Timestamp / 16777216, cs.Timestamp / 65536 % 256, cs.Timestamp / 256 % 256,
            cs.Timestamp % 256]
         else []),
       false) := by
  have h3 : ¬ cs.Format = 3 := by omega
  have h2 : ¬ cs.Format = 2 := by omega
  have h1 : ¬ cs.Format = 1 := by omega
  have hl : ¬ cs.Length > FlvTimestampMax := by unfold FlvTimestampMax; omega
  have hl2 : ¬ 16777215 < cs.Length := by omega
  have hL : cs.Length / 65536 % 256 = cs.Length / 65536 := by omega
  have hT : cs.TypeID % 256 = cs.TypeID := by omega
  have hS : cs.StreamID / 16777216 % 256 = cs.StreamID / 16777216 := by omega
  have hX : cs.Timestamp / 16777216 % 256 = cs.Timestamp / 16777216 := by omega
  by_cases hgt : cs.Timestamp > FlvTimestampMax
  · have hmin : min cs.Timestamp 0xFFFFFF = 0xFFFFFF := by
      unfold FlvTimestampMax at hgt; omega
    have hge : cs.Timestamp ≥ 0xFFFFFF := by unfold FlvTimestampMax at hgt; omega
    simp [writeHeader, messageHeader, extendedTimestamp, h3, h2, h1, hl, hgt, hmin, hge,
      WriteUintBE_three, WriteUintBE_four, WriteUintBE_one, WriteUintLE_four, hL, hT, hS, hX]
    simp [FlvTimestampMax]
  · have hle : cs.Timestamp ≤ 0xFFFFFF := by unfold FlvTimestampMax at hgt; omega
    have hmin : min cs.Timestamp 0xFFFFFF = cs.Timestamp := by omega
    have hM : cs.Timestamp / 65536 % 256 = cs.Timestamp / 65536 := by omega
    by_cases heq : cs.Timestamp = 0xFFFFFF
    · simp [writeHeader, messageHeader, extendedTimestamp, h3, h2, h1, hl, hmin, heq,
        WriteUintBE_three, WriteUintBE_four, WriteUintBE_one, WriteUintLE_four, hL, hT, hS,
        FlvTimestampMax, hl2]
    · have hlt : ¬ cs.Timestamp ≥ 0xFFFFFF := by omega
      have hlt2 : ¬ FlvTimestampMax ≤ cs.Timestamp := by unfold FlvTimestampMax; omega
      simp [writeHeader, messageHeader, extendedTimestamp, h3, h2, h1, hl, hgt, hmin, hlt, hlt2,
        WriteUintBE_three, WriteUintBE_four, WriteUintBE_one, WriteUintLE_four, hL, hT, hS, hM]

/-- Witness of C4: csid 3, timestamp 1000, length 5, typeId 20, streamId 0
gives `03 00 03 E8 00 00 05 14 00 00 00 00`. -/
theorem writeHeader_fmt0_layout_witness :
    writeHeader { Format := 0, CSID := 3, Timestamp := 1000, Length := 5, TypeID := 20,
                  StreamID := 0 } =
      ([0x03, 0x00, 0x03, 0xE8, 0x00, 0x00, 0x05, 0x14, 0x00, 0x00, 0x00, 0x00], false) := by
  rw [writeHeader_fmt0_layout _ rfl (by decide) (by decide) (by decide) (by decide)]
  decide

/-! ## The encoder's loop -/


theorem messageHeader_ok (cs : ChunkStream) (h : cs.Length ≤ 0xFFFFFF) :
    (messageHeader cs).2 = false := by
  have hl : ¬ cs.Length > FlvTimestampMax := by unfold FlvTimestampMax; omega
  unfold messageHeader
  split_ifs <;> rfl

theorem writeChunkLoop_done (n fuel i : Nat) (cs : ChunkStream) :
    writeChunkLoop n fuel i cs.Length cs = ⟨cs, [], [], WriteEnd.ok⟩ := by
  cases fuel with
  | zero => rfl
  | succ k => simp [writeChunkLoop]

/-- One iteration of the loop of `writeChunk` that has payload left to write. -/
theorem writeChunkLoop_step (n fuel i : Nat) (cs : ChunkStream)
    (hlen : cs.Data.length = cs.Length) (hmax : cs.Length ≤ 0xFFFFFF)
    (hlo : i * n < cs.Length) :
    writeChunkLoop n (fuel + 1) i (i * n) cs =
      { writeChunkLoop n fuel (i + 1) (min (i * n + n) cs.Length)
          { cs with Format := if i = 0 then 0 else 3 } with
        chunks := ⟨(writeHeader { cs with Format := if i = 0 then 0 else 3 }).1,
                   (cs.Data.drop (i * n)).take n⟩ ::
          (writeChunkLoop n fuel (i + 1) (min (i * n + n) cs.Length)
            { cs with Format := if i = 0 then 0 else 3 }).chunks } := by
  generalize hs : i * n = s at *
  have hne : ¬ s = cs.Length := by omega
  have hu : u32 s = s := by unfold u32; omega
  have hsub : sub32 cs.Length s = cs.Length - s := sub32_of_le _ _ (by omega) (by omega)
  have hok : (messageHeader { cs with Format := if i = 0 then 0 else 3 }).2 = false :=
    messageHeader_ok _ hmax
  rw [writeChunkLoop]
  simp only [hne, if_false, writeHeader, hok, hlen, hu, hsub, hs]
  by_cases hc : cs.Length - s ≤ n
  · have h1 : u32 (s + (cs.Length - s)) = cs.Length := by unfold u32; omega
    have h2 : min (s + n) cs.Length = cs.Length := by omega
    have h3 : List.take (cs.Length - s) (List.drop s cs.Data) = List.take n (List.drop s cs.Data) := by
      rw [List.take_of_length_le (by simp [hlen]), List.take_of_length_le (by simp [hlen]; omega)]
    simp [hc, h1, h2, h3]
    omega
  · have h1 : u32 (s + n) = s + n := by unfold u32; omega
    have h2 : min (s + n) cs.Length = s + n := by omega
    simp [hc, h1, h2]
    omega

theorem writeChunkLoop_spec (n : Nat) (hn : 0 < n) :
    ∀ (k i fuel : Nat) (cs : ChunkStream), cs.Data.length = cs.Length →
      cs.Length ≤ 0xFFFFFF → (i + k) * n < cs.Length → cs.Length ≤ (i + k + 1) * n →
      k + 1 ≤ fuel →
      ∃ f, writeChunkLoop n fuel i (i * n) cs =
        ⟨{ cs with Format := f },
         (List.range' i (k + 1)).map (fun j =>
            ⟨(writeHeader { cs with Format := if j = 0 then 0 else 3 }).1,
             (cs.Data.drop (j * n)).take n⟩),
         [], WriteEnd.ok⟩ := by
  intro k
  induction k with
  | zero =>
    intro i fuel cs hlen hmax hlo hhi hfuel
    obtain ⟨fuel, rfl⟩ : ∃ m, fuel = m + 1 := ⟨fuel - 1, by omega⟩
    simp only [Nat.add_zero] at hlo hhi
    have hhi2 : cs.Length ≤ i * n + n := by rw [Nat.add_mul] at hhi; simpa using hhi
    refine ⟨if i = 0 then 0 else 3, ?_⟩
    rw [writeChunkLoop_step n fuel i cs hlen hmax hlo]
    have h2 : min (i * n + n) cs.Length = cs.Length := by omega
    rw [h2]
    have := writeChunkLoop_done n fuel (i + 1) { cs with Format := if i = 0 then 0 else 3 }
    simp only at this
    rw [this]
    simp
  | succ k ih =>
    intro i fuel cs hlen hmax hlo hhi hfuel
    obtain ⟨fuel, rfl⟩ : ∃ m, fuel = m + 1 := ⟨fuel - 1, by omega⟩
    have e1 : (i + (k + 1)) * n = i * n + n + k * n := by ring
    have e2 : (i + (k + 1) + 1) * n = i * n + n + k * n + n := by ring
    have e3 : (i + 1 + k) * n = i * n + n + k * n := by ring
    have e4 : (i + 1 + k + 1) * n = i * n + n + k * n + n := by ring
    have e5 : (i + 1) * n = i * n + n := by ring
    have hlo1 : i * n < cs.Length := by omega
    rw [writeChunkLoop_step n fuel i cs hlen hmax hlo1]
    have h2 : min (i * n + n) cs.Length = (i + 1) * n := by omega
    rw [h2]
    obtain ⟨f, hf⟩ := ih (i + 1) fuel { cs with Format := if i = 0 then 0 else 3 } hlen hmax
      (by simp only; omega) (by simp only; omega) (by omega)
    refine ⟨f, ?_⟩
    rw [hf]
    simp [List.range'_succ]

theorem flatten_take_drop (n : Nat) (data : List Nat) :
    ∀ c, ((List.range c).map (fun j => (data.drop (j * n)).take n)).flatten =
      data.take (c * n) := by
  intro c
  induction c with
  | zero => simp
  | succ c ih =>
    rw [List.range_succ, List.map_append, List.flatten_append, ih]
    simp [Nat.succ_mul, List.take_add]

theorem basicHeader_small (cs : ChunkStream) (h : cs.CSID < 64) :
    basicHeader cs = [(u8 (cs.Format <<< 6) ||| cs.CSID) % 256] := by
  unfold basicHeader
  rw [if_pos h, WriteUintBE_one]
  have : u8 cs.CSID = cs.CSID := by unfold u8; omega
  rw [this]

theorem basicHeader_mid (cs : ChunkStream) (h1 : 64 ≤ cs.CSID) (h2 : cs.CSID < 320) :
    basicHeader cs = [(u8 (cs.Format <<< 6) ||| 0) % 256, cs.CSID - 64] := by
  have hs : sub32 cs.CSID 64 = cs.CSID - 64 := sub32_of_le _ _ h1 (by omega)
  unfold basicHeader
  rw [if_neg (by omega), hs, if_pos (by omega), WriteUintBE_one, WriteUintLE_one,
    Nat.mod_eq_of_lt (by omega : cs.CSID - 64 < 256)]
  rfl

theorem basicHeader_big (cs : ChunkStream) (h1 : 320 ≤ cs.CSID) (h2 : cs.CSID < 65600) :
    basicHeader cs =
      [(u8 (cs.Format <<< 6) ||| 1) % 256, (cs.CSID - 64) % 256, (cs.CSID - 64) / 256] := by
  have hs : sub32 cs.CSID 64 = cs.CSID - 64 := sub32_of_le _ _ (by omega) (by omega)
  unfold basicHeader
  rw [if_neg (by omega), hs, if_neg (by omega), if_pos (by omega), WriteUintBE_one,
    WriteUintLE_two, Nat.mod_eq_of_lt (by omega : (cs.CSID - 64) / 256 < 256)]
  rfl

theorem basicHeader_head (cs : ChunkStream) (hf : cs.Format < 4) (hc : cs.CSID < 65600) :
    ∃ b tl, basicHeader cs = b :: tl ∧ b >>> 6 = cs.Format := by
  have key : ∀ f, f < 4 → ∀ c, c < 64 → ((u8 (f <<< 6) ||| c) % 256) >>> 6 = f := by
    unfold u8; decide
  by_cases h1 : cs.CSID < 64
  · exact ⟨_, _, basicHeader_small cs h1, key _ hf _ h1⟩
  · by_cases h2 : cs.CSID < 320
    · exact ⟨_, _, basicHeader_mid cs (by omega) h2, key _ hf 0 (by omega)⟩
    · exact ⟨_, _, basicHeader_big cs (by omega) hc, key _ hf 1 (by omega)⟩


/-! ## Fragmentation -/

/-- The chunks of a well-formed message, for a chunk size that is already a
nonzero `uint32`. -/
theorem writeChunk_chunks (cs : ChunkStream) (n : Nat)
    (hlen : cs.Data.length = cs.Length) (h1 : 1 ≤ cs.Length) (hmax : cs.Length ≤ 0xFFFFFF)
    (hn : 1 ≤ n) (hn32 : n < 2 ^ 32) :
    ∃ f, writeChunk cs n =
      ⟨{ cs with CSID := policyCSID cs, Format := f },
       (List.range ((cs.Length - 1) / n + 1)).map (fun j =>
          ⟨(writeHeader { cs with CSID := policyCSID cs,
                                  Format := if j = 0 then 0 else 3 }).1,
           (cs.Data.drop (j * n)).take n⟩),
       [], WriteEnd.ok⟩ := by
  have hu : u32 n = n := by unfold u32; omega
  have hdm := Nat.div_add_mod (cs.Length - 1) n
  have hml := Nat.mod_lt (cs.Length - 1) (by omega : n > 0)
  have hfuel : (cs.Length - 1) / n ≤ cs.Length / n := Nat.div_le_div_right (by omega)
  have e1 : (0 + (cs.Length - 1) / n) * n = n * ((cs.Length - 1) / n) := by ring
  have e2 : (0 + (cs.Length - 1) / n + 1) * n = n * ((cs.Length - 1) / n) + n := by ring
  obtain ⟨f, hf⟩ := writeChunkLoop_spec n (by omega) ((cs.Length - 1) / n) 0
    (cs.Length / n + 1) { cs with CSID := policyCSID cs } hlen hmax
    (by simp only; omega) (by simp only; omega) (by omega)
  refine ⟨f, ?_⟩
  unfold writeChunk
  simp only [hu, if_neg (by omega : ¬ n = 0)]
  rw [Nat.zero_mul] at hf
  rw [hf, List.range_eq_range']

/-- C3, amended: for a message with `Length = len(Data) = L`,
`1 <= L <= 0xFFFFFF`, and a chunk size `1 <= n < 2^32`, `writeChunk` returns
no error and emits exactly `ceil(L/n)` chunks; chunk `j` has the header
`writeHeader` writes for format 0 when `j = 0` and for format 3 otherwise (the
two top bits of its first byte are that format when the CSID is encodable),
and carries the payload `Data[j*n .. j*n+n)`; every chunk but the last carries
`n` payload bytes, the last one `L - (ceil(L/n) - 1) * n`; the payloads in
order concatenate to `Data`. -/
theorem writeChunk_fragmentation (cs : ChunkStream) (n : Nat)
    (hlen : cs.Data.length = cs.Length) (h1 : 1 ≤ cs.Length) (hmax : cs.Length ≤ 0xFFFFFF)
    (hn : 1 ≤ n) (hn32 : n < 2 ^ 32) :
    (writeChunk cs n).status = WriteEnd.ok ∧
    (writeChunk cs n).rest = [] ∧
    (writeChunk cs n).chunks.length = (cs.Length + n - 1) / n ∧
    (writeChunk cs n).chunks =
      (List.range ((cs.Length + n - 1) / n)).map (fun j =>
        ⟨(writeHeader { cs with CSID := policyCSID cs,
                                Format := if j = 0 then 0 else 3 }).1,
         (cs.Data.drop (j * n)).take n⟩) ∧
    (policyCSID cs < 65600 → ∀ j, ∃ b tl,
      (writeHeader { cs with CSID := policyCSID cs,
                             Format := if j = 0 then 0 else 3 }).1 = b :: tl ∧
      b >>> 6 = if j = 0 then 0 else 3) ∧
    (∀ j, j + 1 < (cs.Length + n - 1) / n → ((cs.Data.drop (j * n)).take n).length = n) ∧
    ((cs.Data.drop (((cs.Length + n - 1) / n - 1) * n)).take n).length =
      cs.Length - ((cs.Length + n - 1) / n - 1) * n ∧
    ((writeChunk cs n).chunks.map Chunk.payload).flatten = cs.Data := by
  obtain ⟨f, hf⟩ := writeChunk_chunks cs n hlen h1 hmax hn hn32
  have hc : (cs.Length + n - 1) / n = (cs.Length - 1) / n + 1 := by
    have : cs.Length + n - 1 = cs.Length - 1 + n := by omega
    rw [this, Nat.add_div_right _ (by omega : 0 < n)]
  have hdm := Nat.div_add_mod (cs.Length - 1) n
  have hml := Nat.mod_lt (cs.Length - 1) (by omega : n > 0)
  rw [hf, hc]
  refine ⟨rfl, rfl, by simp, rfl, ?_, ?_, ?_, ?_⟩
  · intro hcs j
    generalize hcsj :
      ({ cs with CSID := policyCSID cs, Format := if j = 0 then 0 else 3 } : ChunkStream) = csj
    have hF : csj.Format = if j = 0 then 0 else 3 := by rw [← hcsj]
    have hC : csj.CSID = policyCSID cs := by rw [← hcsj]
    obtain ⟨b, tl, hb, hbits⟩ := basicHeader_head csj (by rw [hF]; split_ifs <;> omega)
      (by rw [hC]; exact hcs)
    refine ⟨b, tl ++ (messageHeader csj).1, ?_, by rw [hbits, hF]⟩
    simp only [writeHeader, hb, List.cons_append]
  · intro j hj
    have hjn : (j + 1) * n ≤ (cs.Length - 1) / n * n := Nat.mul_le_mul_right n (by omega)
    have e : (j + 1) * n = j * n + n := by ring
    have e2 : (cs.Length - 1) / n * n = n * ((cs.Length - 1) / n) := by ring
    simp only [List.length_take, List.length_drop, hlen]
    omega
  · have e2 : (cs.Length - 1) / n * n = n * ((cs.Length - 1) / n) := by ring
    simp only [List.length_take, List.length_drop, hlen, Nat.add_sub_cancel]
    omega
  · simp only [List.map_map]
    have := flatten_take_drop n cs.Data ((cs.Length - 1) / n + 1)
    have e3 : ((cs.Length - 1) / n + 1) * n = n * ((cs.Length - 1) / n) + n := by ring
    rw [List.take_of_length_le (by rw [hlen, e3]; omega)] at this
    simpa only [Function.comp_def] using this

set_option maxRecDepth 20000 in
/-- Witness of C3: `L = 300`, `n = 128` gives three chunks with payloads of
128, 128 and 44 bytes, the first with format 0 and the others with format 3. -/
theorem writeChunk_fragmentation_witness :
    (writeChunk { CSID := 6, TypeID := 9, StreamID := 1, Length := 300,
                  Data := List.replicate 300 0xAA } 128).chunks.length = 3 ∧
    ((writeChunk { CSID := 6, TypeID := 9, StreamID := 1, Length := 300,
                   Data := List.replicate 300 0xAA } 128).chunks.map
        (fun c => (c.header, c.payload.length))) =
      [([6, 0, 0, 0, 0, 1, 44, 9, 1, 0, 0, 0], 128), ([198], 128), ([198], 44)] := by
  have h := writeChunk_fragmentation
    { CSID := 6, TypeID := 9, StreamID := 1, Length := 300, Data := List.replicate 300 0xAA }
    128 (List.length_replicate 300 0xAA) (by decide) (by decide) (by decide) (by decide)
  refine ⟨h.2.2.1, ?_⟩
  rw [h.2.2.2.1]
  decide

/-- Counterexample to C3 as stated: the chunk size `2^32 + 1` is truncated to
the `uint32` 1, so a 2-byte message goes out in two chunks of one byte, not in
`ceil(2 / (2^32 + 1)) = 1` chunk of two bytes. -/
theorem writeChunk_fragmentation_counterexample :
    ¬ ((writeChunk { CSID := 3, TypeID := 20, Length := 2, Data := [1, 2] }
          (2 ^ 32 + 1)).chunks.length = (2 + (2 ^ 32 + 1) - 1) / (2 ^ 32 + 1)) := by
  decide


/-! ## CSID policy -/

/-- Whatever the loop of `writeChunk` does, it changes only `Format`, and every
chunk it writes has the header of the chunk stream at format 0 or 3. -/
theorem writeChunkLoop_headers (n : Nat) :
    ∀ (fuel i t : Nat) (cs : ChunkStream),
      (∃ f, (writeChunkLoop n fuel i t cs).cs = { cs with Format := f }) ∧
      ∀ ch ∈ (writeChunkLoop n fuel i t cs).chunks, ∃ f, (f = 0 ∨ f = 3) ∧
        ch.header = (writeHeader { cs with Format := f }).1 := by
  intro fuel
  induction fuel with
  | zero => intro i t cs; exact ⟨⟨cs.Format, rfl⟩, by simp [writeChunkLoop]⟩
  | succ fuel ih =>
    intro i t cs
    have hg' : (if i = 0 then 0 else 3 : Nat) = 0 ∨ (if i = 0 then 0 else 3 : Nat) = 3 := by
      split_ifs <;> simp
    rw [writeChunkLoop]
    generalize (if i = 0 then 0 else 3 : Nat) = g at hg' ⊢
    by_cases h1 : t = cs.Length
    · rw [if_pos h1]
      exact ⟨⟨cs.Format, rfl⟩, by simp⟩
    · rw [if_neg h1]
      by_cases h2 : (writeHeader { cs with Format := g }).2 = true
      · simp only [h2, if_true]
        exact ⟨⟨_, rfl⟩, by simp⟩
      · have h2' : (writeHeader { cs with Format := g }).2 = false := by simpa using h2
        simp only [h2', Bool.false_eq_true, if_false]
        generalize (if sub32 cs.Data.length (u32 (i * n)) ≤ n
          then sub32 cs.Data.length (u32 (i * n)) else n) = inc
        split_ifs with h3
        · obtain ⟨⟨f, hf⟩, hch⟩ := ih (i + 1) (u32 (t + inc)) { cs with Format := g }
          refine ⟨⟨f, ?_⟩, ?_⟩
          · simp only [hf]
          · intro ch hmem
            simp only [List.mem_cons] at hmem
            rcases hmem with rfl | hmem
            · exact ⟨g, hg', rfl⟩
            · exact hch ch hmem
        · exact ⟨⟨_, rfl⟩, by simp⟩

/-- C8: after `writeChunk(cs, n)` the CSID of `cs` is 4 when `TypeID` is 8,
6 when `TypeID` is 9, 18 or 15, and the caller's CSID otherwise; and every
chunk written starts with the basic header of that CSID (at format 0 or 3),
followed by the message header. -/
theorem writeChunk_csid_policy (cs : ChunkStream) (n : Nat) :
    (writeChunk cs n).cs.CSID =
      (if cs.TypeID = 8 then 4
       else if cs.TypeID = 9 ∨ cs.TypeID = 18 ∨ cs.TypeID = 15 then 6
       else cs.CSID) ∧
    ∀ ch ∈ (writeChunk cs n).chunks, ∃ f, (f = 0 ∨ f = 3) ∧
      ch.header =
        basicHeader { Format := f, CSID := (writeChunk cs n).cs.CSID } ++
          (messageHeader { cs with CSID := (writeChunk cs n).cs.CSID, Format := f }).1 := by
  have hpol : policyCSID cs = (if cs.TypeID = 8 then 4
       else if cs.TypeID = 9 ∨ cs.TypeID = 18 ∨ cs.TypeID = 15 then 6
       else cs.CSID) := rfl
  have hcsid : (writeChunk cs n).cs.CSID = policyCSID cs := by
    unfold writeChunk
    split_ifs with h0
    · rfl
    · obtain ⟨⟨f, hf⟩, -⟩ := writeChunkLoop_headers (u32 n)
        (cs.Length / u32 n + 1) 0 0 { cs with CSID := policyCSID cs }
      simp only at hf ⊢
      rw [hf]
  refine ⟨hcsid.trans hpol, ?_⟩
  intro ch hmem
  rw [hcsid]
  unfold writeChunk at hmem
  split_ifs at hmem with h0
  · simp at hmem
  · obtain ⟨f, hf, hh⟩ := (writeChunkLoop_headers (u32 n)
        (cs.Length / u32 n + 1) 0 0 { cs with CSID := policyCSID cs }).2 ch hmem
    exact ⟨f, hf, hh⟩

/-- Witness of C8: an audio message offered on CSID 3 goes out on CSID 4, a
video message on CSID 6, a command keeps its CSID 3; the first byte of every
chunk carries it. -/
theorem writeChunk_csid_policy_witness :
    (writeChunk { CSID := 3, TypeID := 8, Length := 2, Data := [1, 2] } 1).cs.CSID = 4 ∧
    (writeChunk { CSID := 3, TypeID := 9, Length := 2, Data := [1, 2] } 1).cs.CSID = 6 ∧
    (writeChunk { CSID := 3, TypeID := 20, Length := 2, Data := [1, 2] } 1).cs.CSID = 3 ∧
    (writeChunk { CSID := 3, TypeID := 8, Length := 2, Data := [1, 2] } 1).chunks.map
      (fun c => c.header.head?) = [some 4, some (192 + 4)] := by
  refine ⟨?_, ?_, ?_, by decide⟩
  · rw [(writeChunk_csid_policy { CSID := 3, TypeID := 8, Length := 2, Data := [1, 2] } 1).1]
    decide
  · rw [(writeChunk_csid_policy { CSID := 3, TypeID := 9, Length := 2, Data := [1, 2] } 1).1]
    decide
  · rw [(writeChunk_csid_policy { CSID := 3, TypeID := 20, Length := 2, Data := [1, 2] } 1).1]
    decide


/-! ## Decoder lemmas -/

theorem readData_append (xs ys : List Nat) :
    readData xs.length (xs ++ ys) = some (xs, ys) := by
  simp [readData]

theorem readData_append_of_length (k : Nat) (xs ys : List Nat) (h : xs.length = k) :
    readData k (xs ++ ys) = some (xs, ys) := by
  subst h; exact readData_append xs ys

/-- The decoder's basic header step inverts the encoder's, for a format in
0..3 and a CSID in 2..65599. -/
theorem readBasicHeader_basicHeader (cs : ChunkStream) (hf : cs.Format < 4)
    (h2 : 2 ≤ cs.CSID) (hc : cs.CSID < 65600) (rest : List Nat) :
    readBasicHeader (basicHeader cs ++ rest) = some (cs.Format, cs.CSID, rest) := by
  have key : ∀ f, f < 4 → ∀ c, c < 64 →
      u8 (((u8 (f <<< 6) ||| c) % 256) >>> 6) = f ∧
      u32 ((u8 (f <<< 6) ||| c) % 256) &&& 0x3f = c := by
    unfold u8 u32; decide
  by_cases h1 : cs.CSID < 64
  · obtain ⟨k1, k2⟩ := key _ hf _ h1
    rw [basicHeader_small cs h1]
    simp only [readBasicHeader, readData_append_of_length 1 [_] rest rfl, List.getD_cons_zero,
      k1, k2, getRealCSID, if_neg (by omega : ¬ cs.CSID = 0), if_neg (by omega : ¬ cs.CSID = 1)]
  · by_cases h3 : cs.CSID < 320
    · obtain ⟨k1, k2⟩ := key _ hf 0 (by omega)
      rw [basicHeader_mid cs (by omega) h3]
      have e : [(u8 (cs.Format <<< 6) ||| 0) % 256, cs.CSID - 64] ++ rest =
        [(u8 (cs.Format <<< 6) ||| 0) % 256] ++ ([cs.CSID - 64] ++ rest) := rfl
      rw [e]
      simp only [readBasicHeader, readData_append_of_length 1 [_] _ rfl, List.getD_cons_zero,
        k1, k2, getRealCSID, if_true]
      simp [ULE]
      omega
    · obtain ⟨k1, k2⟩ := key _ hf 1 (by omega)
      rw [basicHeader_big cs (by omega) hc]
      have e : [(u8 (cs.Format <<< 6) ||| 1) % 256, (cs.CSID - 64) % 256, (cs.CSID - 64) / 256]
          ++ rest =
        [(u8 (cs.Format <<< 6) ||| 1) % 256] ++
          ([(cs.CSID - 64) % 256, (cs.CSID - 64) / 256] ++ rest) := rfl
      rw [e]
      simp only [readBasicHeader, readData_append_of_length 1 [_] _ rfl, List.getD_cons_zero,
        k1, k2, getRealCSID, if_neg (by decide : ¬ (1 : Nat) = 0), if_true,
        readData_append_of_length 2 [_, _] _ rfl]
      simp [ULE]
      omega

theorem messageHeader_fmt0 (msg : ChunkStream) (hfmt : msg.Format = 0)
    (hlen : msg.Length ≤ 0xFFFFFF) :
    (messageHeader msg).1 =
      WriteUintBE (min msg.Timestamp 0xFFFFFF) 3 ++ (WriteUintBE msg.Length 3 ++
        (WriteUintBE msg.TypeID 1 ++ (WriteUintLE msg.StreamID 4 ++
          (if msg.Timestamp ≥ 0xFFFFFF then WriteUintBE msg.Timestamp 4 else [])))) := by
  have h3 : ¬ msg.Format = 3 := by omega
  have h2 : ¬ msg.Format = 2 := by omega
  have h1 : ¬ msg.Format = 1 := by omega
  have hl : ¬ msg.Length > FlvTimestampMax := by unfold FlvTimestampMax; omega
  unfold messageHeader extendedTimestamp
  simp only [h3, h2, h1, hl, if_false, List.append_assoc]
  by_cases hgt : msg.Timestamp > FlvTimestampMax
  · have hmin : min msg.Timestamp 0xFFFFFF = 0xFFFFFF := by
      unfold FlvTimestampMax at hgt; omega
    have hge : msg.Timestamp ≥ 0xFFFFFF := by unfold FlvTimestampMax at hgt; omega
    simp only [hgt, if_true, hmin, hge]
    simp [FlvTimestampMax]
  · have hmin : min msg.Timestamp 0xFFFFFF = msg.Timestamp := by
      unfold FlvTimestampMax at hgt; omega
    simp only [hgt, if_false, hmin]
    rfl

theorem UBE_three (a b c : Nat) : UBE [a, b, c] = a * 65536 + b * 256 + c := by
  simp [UBE]; ring

theorem UBE_four (a b c d : Nat) :
    UBE [a, b, c, d] = a * 16777216 + b * 65536 + c * 256 + d := by
  simp [UBE]; ring

theorem ULE_four (a b c d : Nat) :
    ULE [a, b, c, d] = a + b * 256 + c * 65536 + d * 16777216 := by
  simp [ULE]; ring

/-- The decoder's format 0 header step on eleven bytes without the escape
value in the timestamp field. -/
theorem readMessageHeader_fmt0_plain (cs0 : ChunkStream) (a b c d e f g h i j k : Nat)
    (rest : List Nat) (hne : a * 65536 + b * 256 + c ≠ 16777215) :
    readMessageHeader 0 cs0 (a :: b :: c :: d :: e :: f :: g :: h :: i :: j :: k :: rest) =
      some (({ cs0 with Format := 0, Timestamp := a * 65536 + b * 256 + c,
                        Length := d * 65536 + e * 256 + f, TypeID := g,
                        StreamID := h + i * 256 + j * 65536 + k * 16777216,
                        useExtendTimeStamp := false }).initData, rest) := by
  have rd11 : readData 11 (a :: b :: c :: d :: e :: f :: g :: h :: i :: j :: k :: rest) =
      some ([a, b, c, d, e, f, g, h, i, j, k], rest) :=
    readData_append_of_length 11 [a, b, c, d, e, f, g, h, i, j, k] rest rfl
  simp only [readMessageHeader, rd11]
  simp only [List.take, List.drop, List.getD_cons_succ, List.getD_cons_zero, U24BE, U32BE,
    U32LE, UBE_three, UBE_four, ULE_four, hne, if_false]

/-- The decoder's format 0 header step on eleven bytes with the escape value in
the timestamp field, followed by the four bytes of the extended timestamp. -/
theorem readMessageHeader_fmt0_extended (cs0 : ChunkStream)
    (a b c d e f g h i j k w x y z : Nat)
    (rest : List Nat) (heq : a * 65536 + b * 256 + c = 16777215) :
    readMessageHeader 0 cs0
        (a :: b :: c :: d :: e :: f :: g :: h :: i :: j :: k :: w :: x :: y :: z :: rest) =
      some (({ cs0 with Format := 0, Timestamp := w * 16777216 + x * 65536 + y * 256 + z,
                        Length := d * 65536 + e * 256 + f, TypeID := g,
                        StreamID := h + i * 256 + j * 65536 + k * 16777216,
                        useExtendTimeStamp := true }).initData, rest) := by
  have rd11 : readData 11
      (a :: b :: c :: d :: e :: f :: g :: h :: i :: j :: k :: w :: x :: y :: z :: rest) =
      some ([a, b, c, d, e, f, g, h, i, j, k], w :: x :: y :: z :: rest) :=
    readData_append_of_length 11 [a, b, c, d, e, f, g, h, i, j, k] _ rfl
  have rd4 : readData 4 (w :: x :: y :: z :: rest) = some ([w, x, y, z], rest) :=
    readData_append_of_length 4 [w, x, y, z] rest rfl
  simp only [readMessageHeader, rd11]
  simp only [List.take, List.drop, List.getD_cons_succ, List.getD_cons_zero, U24BE, U32BE,
    U32LE, UBE_three, UBE_four, ULE_four, heq, if_true, rd4]

/-- The decoder's format 0 header step on the bytes the encoder writes for a
format 0 header. -/
theorem readMessageHeader_fmt0 (msg cs0 : ChunkStream) (rest : List Nat)
    (hfmt : msg.Format = 0) (hlen : msg.Length ≤ 0xFFFFFF) (hts : msg.Timestamp < 2 ^ 32) :
    readMessageHeader 0 cs0 ((messageHeader msg).1 ++ rest) =
      some (({ cs0 with Format := 0, Timestamp := msg.Timestamp, Length := msg.Length,
                        TypeID := msg.TypeID % 256, StreamID := msg.StreamID % 2 ^ 32,
                        useExtendTimeStamp := decide (msg.Timestamp ≥ 0xFFFFFF) }).initData,
            rest) := by
  rw [messageHeader_fmt0 msg hfmt hlen]
  have eL : msg.Length / 65536 % 256 * 65536 + msg.Length / 256 % 256 * 256 + msg.Length % 256
      = msg.Length := by omega
  have eS : msg.StreamID % 256 + msg.StreamID / 256 % 256 * 256 +
      msg.StreamID / 65536 % 256 * 65536 + msg.StreamID / 16777216 % 256 * 16777216
      = msg.StreamID % 2 ^ 32 := by omega
  generalize hm : min msg.Timestamp 0xFFFFFF = m
  by_cases hge : msg.Timestamp ≥ 0xFFFFFF
  · have eT : msg.Timestamp / 16777216 % 256 * 16777216 + msg.Timestamp / 65536 % 256 * 65536 +
        msg.Timestamp / 256 % 256 * 256 + msg.Timestamp % 256 = msg.Timestamp := by omega
    have heq : m / 65536 % 256 * 65536 + m / 256 % 256 * 256 + m % 256 = 16777215 := by omega
    rw [if_pos hge]
    simp only [WriteUintBE_three, WriteUintBE_one, WriteUintLE_four, WriteUintBE_four,
      List.cons_append, List.nil_append]
    rw [readMessageHeader_fmt0_extended cs0 _ _ _ _ _ _ _ _ _ _ _ _ _ _ _ rest heq, eL, eS, eT]
    simp only [hge, decide_True]
  · have eT3 : m / 65536 % 256 * 65536 + m / 256 % 256 * 256 + m % 256 = msg.Timestamp := by
      omega
    have hne : m / 65536 % 256 * 65536 + m / 256 % 256 * 256 + m % 256 ≠ 16777215 := by omega
    rw [if_neg hge]
    simp only [WriteUintBE_three, WriteUintBE_one, WriteUintLE_four, WriteUintBE_four,
      List.cons_append, List.nil_append]
    rw [readMessageHeader_fmt0_plain cs0 _ _ _ _ _ _ _ _ _ _ _ rest hne, eL, eS, eT3]
    simp only [hge, decide_False]

/-- The payload step of the decoder on a chunk stream that satisfies
`index + remain = len(Data)`. -/
theorem readPayload_spec (rmcs : Nat) (cs : ChunkStream) (p rest : List Nat)
    (hinv : cs.index + cs.remain = cs.Data.length) (h32 : cs.Data.length < 2 ^ 32)
    (hp : p.length = min cs.remain rmcs) :
    readPayload rmcs cs (p ++ rest) =
      some ({ cs with Data := cs.Data.take cs.index ++ p ++ cs.Data.drop (cs.index + p.length),
                      index := cs.index + p.length,
                      remain := cs.remain - p.length,
                      finish := if cs.remain - p.length = 0 then true else cs.finish }, rest) := by
  have hsize : (if cs.remain > rmcs then rmcs else cs.remain) = p.length := by
    rw [hp]; split_ifs <;> omega
  have hu : u32 p.length = p.length := by unfold u32; omega
  have hu2 : u32 (cs.index + p.length) = cs.index + p.length := by unfold u32; omega
  have hsub : sub32 cs.remain p.length = cs.remain - p.length :=
    sub32_of_le _ _ (by omega) (by omega)
  unfold readPayload
  simp only [hsize, hu, hu2, hsub]
  rw [if_pos (by omega), Nat.add_sub_cancel_left, readData_append]

theorem writeChunk_u32 (cs : ChunkStream) (n : Nat) : writeChunk cs (u32 n) = writeChunk cs n := by
  have : u32 (u32 n) = u32 n := by unfold u32; omega
  unfold writeChunk
  rw [this]

theorem policyCSID_range (msg : ChunkStream) (hc2 : 2 ≤ msg.CSID) (hc : msg.CSID ≤ 65599) :
    2 ≤ policyCSID msg ∧ policyCSID msg < 65600 := by
  unfold policyCSID
  split_ifs <;> omega

/-- A message that fits one chunk goes out as the format 0 header followed by
the whole payload. -/
theorem writeChunk_single (msg : ChunkStream) (n : Nat)
    (hlen : msg.Data.length = msg.Length) (h1 : 1 ≤ msg.Length) (hmax : msg.Length ≤ 0xFFFFFF)
    (hn32 : msg.Length ≤ n % 2 ^ 32) :
    (writeChunk msg n).status = WriteEnd.ok ∧
    (writeChunk msg n).wire =
      (writeHeader { msg with CSID := policyCSID msg, Format := 0 }).1 ++ msg.Data := by
  have hn' : u32 n < 2 ^ 32 := by unfold u32; omega
  have hLn : msg.Length ≤ u32 n := hn32
  obtain ⟨f, hf⟩ := writeChunk_chunks msg (u32 n) hlen h1 hmax (by omega) hn'
  have hdiv : (msg.Length - 1) / u32 n = 0 := Nat.div_eq_of_lt (by omega)
  rw [writeChunk_u32, hdiv] at hf
  rw [hf]
  refine ⟨rfl, ?_⟩
  have hr : List.range (0 + 1) = [0] := rfl
  simp only [WriteOut.wire, Chunk.bytes, hr, List.map_cons, List.map_nil,
    List.flatten_cons, List.flatten_nil, List.append_nil, Nat.zero_mul, List.drop_zero,
    if_true]
  rw [List.take_of_length_le (by omega)]

/-- The first chunk of a message, read on a connection that has not seen the
chunk stream yet. -/
theorem ReadChunk_first (msg : ChunkStream) (c : RTMPConn) (p rest : List Nat)
    (hmax : msg.Length ≤ 0xFFFFFF) (hts : msg.Timestamp < 2 ^ 32)
    (hc2 : 2 ≤ msg.CSID) (hc : msg.CSID < 65600) (hfmt : msg.Format = 0)
    (hnew : c.csidMap.lookup msg.CSID = none)
    (hin : c.input = (writeHeader msg).1 ++ (p ++ rest))
    (hp : p.length = min msg.Length c.readMaxChunkSize) :
    ReadChunk c =
      some ({ Format := 0, CSID := msg.CSID, Timestamp := msg.Timestamp, Length := msg.Length,
              TypeID := msg.TypeID % 256, StreamID := msg.StreamID % 2 ^ 32, timeDelta := 0,
              useExtendTimeStamp := decide (msg.Timestamp ≥ 0xFFFFFF),
              finish := decide (msg.Length - p.length = 0),
              index := p.length, remain := msg.Length - p.length,
              Data := p ++ List.replicate (msg.Length - p.length) 0 },
            { c with
              input := rest,
              csidMap := csidMapSet c.csidMap msg.CSID
                { Format := 0, CSID := msg.CSID, Timestamp := msg.Timestamp,
                  Length := msg.Length,
                  TypeID := msg.TypeID % 256, StreamID := msg.StreamID % 2 ^ 32, timeDelta := 0,
                  useExtendTimeStamp := decide (msg.Timestamp ≥ 0xFFFFFF),
                  finish := decide (msg.Length - p.length = 0),
                  index := p.length, remain := msg.Length - p.length,
                  Data := p ++ List.replicate (msg.Length - p.length) 0 } }) := by
  have hb := readBasicHeader_basicHeader msg (by omega) hc2 hc
    ((messageHeader msg).1 ++ (p ++ rest))
  have hm := readMessageHeader_fmt0 msg { CSID := msg.CSID } (p ++ rest) hfmt hmax hts
  have hpl := readPayload_spec c.readMaxChunkSize
    ({ ({ CSID := msg.CSID } : ChunkStream) with
        Format := 0, Timestamp := msg.Timestamp, Length := msg.Length,
        TypeID := msg.TypeID % 256, StreamID := msg.StreamID % 2 ^ 32,
        useExtendTimeStamp := decide (msg.Timestamp ≥ 0xFFFFFF) }).initData p rest
    (by simp [ChunkStream.initData]) (by simp [ChunkStream.initData]; omega)
    (by simpa [ChunkStream.initData] using hp)
  unfold ReadChunk
  rw [hin, writeHeader, List.append_assoc, hb, hfmt]
  simp only [hnew, hm, hpl]
  have hd : List.drop p.length (List.replicate msg.Length 0) =
      List.replicate (msg.Length - p.length) 0 := by simp
  simp [ChunkStream.initData, hd]


/-! ## Single-chunk round trip -/

/-- C5, amended: for a message with `Length = len(Data) = L`,
`1 <= L <= 0xFFFFFF`, `TypeID` in 0..255, `CSID` in 2..65599, any 32-bit
`StreamID` and `Timestamp`, and a chunk size `n >= L` whose `uint32`
truncation is still `>= L` (every `n` with `L <= n < 2^32`), `writeChunk`
returns no error and one `ReadChunk` call on a fresh decoder with
`readMaxChunkSize = n` consumes all the bytes written and returns
`finish = true`, `remain = 0`, the CSID after the type id policy and the same
`TypeID`, `StreamID`, `Timestamp`, `Length` and `Data`. -/
theorem single_chunk_round_trip (msg : ChunkStream) (n : Nat)
    (hlen : msg.Data.length = msg.Length) (h1 : 1 ≤ msg.Length) (hmax : msg.Length ≤ 0xFFFFFF)
    (hty : msg.TypeID < 256) (hc2 : 2 ≤ msg.CSID) (hc : msg.CSID ≤ 65599)
    (hsid : msg.StreamID < 2 ^ 32) (hts : msg.Timestamp < 2 ^ 32)
    (hn : msg.Length ≤ n) (hn32 : msg.Length ≤ n % 2 ^ 32) :
    (writeChunk msg n).status = WriteEnd.ok ∧
    ∃ cs c,
      ReadChunk (freshDecoder (writeChunk msg n).wire n) =
        some (cs, c) ∧
      c.input = [] ∧ cs.finish = true ∧ cs.remain = 0 ∧
      cs.CSID = (if msg.TypeID = 8 then 4
                 else if msg.TypeID = 9 ∨ msg.TypeID = 18 ∨ msg.TypeID = 15 then 6
                 else msg.CSID) ∧
      cs.TypeID = msg.TypeID ∧ cs.StreamID = msg.StreamID ∧
      cs.Timestamp = msg.Timestamp ∧ cs.Length = msg.Length ∧ cs.Data = msg.Data := by
  obtain ⟨hok, hwire⟩ := writeChunk_single msg n hlen h1 hmax hn32
  obtain ⟨hp2, hp⟩ := policyCSID_range msg hc2 hc
  have hpol : policyCSID msg = (if msg.TypeID = 8 then 4
      else if msg.TypeID = 9 ∨ msg.TypeID = 18 ∨ msg.TypeID = 15 then 6 else msg.CSID) := rfl
  have hr := ReadChunk_first { msg with CSID := policyCSID msg, Format := 0 }
    (freshDecoder (writeChunk msg n).wire n) msg.Data []
    hmax hts hp2 hp rfl rfl (by rw [List.append_nil, ← hwire]; rfl)
    (by show msg.Data.length = min msg.Length n; omega)
  refine ⟨hok, _, _, hr, rfl, ?_, ?_, hpol, ?_, ?_, rfl, rfl, ?_⟩
  · simp [hlen]
  · simp [hlen]
  · exact Nat.mod_eq_of_lt hty
  · exact Nat.mod_eq_of_lt hsid
  · simp [hlen]

/-- Witness of C5: the 5-byte command of scenario S2, and the 1-byte audio
message with timestamp `0x01000000` of scenario S4, at chunk size 128. -/
theorem single_chunk_round_trip_witness :
    (∃ cs c,
      ReadChunk (freshDecoder (writeChunk { CSID := 3, TypeID := 20, StreamID := 0, Timestamp := 1000, Length := 5, Data := [1, 2, 3, 4, 5] } 128).wire 128) =
        some (cs, c) ∧
      c.input = [] ∧ cs.finish = true ∧ cs.CSID = 3 ∧ cs.TypeID = 20 ∧
      cs.Timestamp = 1000 ∧ cs.Data = [1, 2, 3, 4, 5]) ∧
    (∃ cs c,
      ReadChunk (freshDecoder (writeChunk { CSID := 4, TypeID := 8, StreamID := 1, Timestamp := 0x01000000, Length := 1, Data := [7] } 128).wire 128) =
        some (cs, c) ∧
      c.input = [] ∧ cs.finish = true ∧ cs.CSID = 4 ∧ cs.TypeID = 8 ∧
      cs.Timestamp = 0x01000000 ∧ cs.Data = [7]) := by
  constructor
  · obtain ⟨-, cs, c, h, h1, h2, -, h4, h5, -, h7, -, h9⟩ := single_chunk_round_trip
      { CSID := 3, TypeID := 20, StreamID := 0, Timestamp := 1000, Length := 5, Data := [1, 2, 3, 4, 5] }
      128 rfl (by decide) (by decide) (by decide) (by decide) (by decide) (by decide)
      (by decide) (by decide) (by decide)
    exact ⟨cs, c, h, h1, h2, h4, h5, h7, h9⟩
  · obtain ⟨-, cs, c, h, h1, h2, -, h4, h5, -, h7, -, h9⟩ := single_chunk_round_trip
      { CSID := 4, TypeID := 8, StreamID := 1, Timestamp := 0x01000000, Length := 1, Data := [7] }
      128 rfl (by decide) (by decide) (by decide) (by decide) (by decide) (by decide)
      (by decide) (by decide) (by decide)
    exact ⟨cs, c, h, h1, h2, h4, h5, h7, h9⟩

/-- Counterexample to C5 as stated: with the chunk size `2^32`, which is
`>= L` for the 1-byte message, `writeChunk` divides by `uint32(2^32) = 0`: it
panics and puts no byte on the wire, so `ReadChunk` has nothing to read. -/
theorem single_chunk_round_trip_counterexample :
    (writeChunk { CSID := 3, TypeID := 20, Length := 1, Data := [7] } (2 ^ 32)).status =
      WriteEnd.divideByZero ∧
    (writeChunk { CSID := 3, TypeID := 20, Length := 1, Data := [7] } (2 ^ 32)).wire = [] ∧
    ReadChunk (freshDecoder (writeChunk { CSID := 3, TypeID := 20, Length := 1, Data := [7] } (2 ^ 32)).wire (2 ^ 32)) = none := by
  decide


/-! ## Extended timestamp -/

/-- A message longer than `0xFFFFFF` bytes: `writeHeader` returns its error in
the first iteration, after the basic header and the 3-byte timestamp, and no
chunk is written. -/
theorem writeChunk_too_long (cs : ChunkStream) (n : Nat) (hlong : cs.Length > 0xFFFFFF)
    (hn : u32 n ≠ 0) :
    writeChunk cs n =
      ⟨{ cs with CSID := policyCSID cs, Format := 0 }, [],
       (writeHeader { cs with CSID := policyCSID cs, Format := 0 }).1,
       WriteEnd.lengthError⟩ := by
  have hl : cs.Length > FlvTimestampMax := hlong
  have he : (writeHeader { cs with CSID := policyCSID cs, Format := 0 }).2 = true := by
    simp [writeHeader, messageHeader, hl]
  have h0 : ¬ (0 = cs.Length) := by omega
  unfold writeChunk
  rw [if_neg hn]
  simp only [writeChunkLoop, h0, if_false, if_true, he]

/-- C6, amended: for a message with `Timestamp = T >= 0xFFFFFF`,
`Length = len(Data) = L` with `1 <= L <= 0xFFFFFF`, a CSID in 2..65599 and a
chunk size `1 <= n < 2^32`, the first chunk `writeChunk` emits has `FF FF FF` in
its 3-byte timestamp field and `T` big-endian in its 4-byte extended field, and
`ReadChunk` on that chunk (fresh decoder, `readMaxChunkSize = n`) returns a
chunk stream with `Timestamp = T` and `useExtendTimeStamp = true`. -/
theorem extended_timestamp_round_trip (msg : ChunkStream) (n : Nat)
    (hlen : msg.Data.length = msg.Length) (h1 : 1 ≤ msg.Length) (hmax : msg.Length ≤ 0xFFFFFF)
    (hT : 0xFFFFFF ≤ msg.Timestamp) (hts : msg.Timestamp < 2 ^ 32)
    (hc2 : 2 ≤ msg.CSID) (hc : msg.CSID ≤ 65599) (hn : 1 ≤ n) (hn32 : n < 2 ^ 32) :
    ∃ ch rest, (writeChunk msg n).chunks = ch :: rest ∧
      ch.header =
        basicHeader { Format := 0, CSID := policyCSID msg } ++
          [0xFF, 0xFF, 0xFF] ++
          [msg.Length / 65536 % 256, msg.Length / 256 % 256, msg.Length % 256] ++
          [msg.TypeID % 256] ++
          [msg.StreamID % 256, msg.StreamID / 256 % 256, msg.StreamID / 65536 % 256,
            msg.StreamID / 16777216 % 256] ++
          [msg.Timestamp / 16777216 % 256, msg.Timestamp / 65536 % 256,
            msg.Timestamp / 256 % 256, msg.Timestamp % 256] ∧
      ∃ cs c, ReadChunk (freshDecoder ch.bytes n) = some (cs, c) ∧
        cs.Timestamp = msg.Timestamp ∧ cs.useExtendTimeStamp = true := by
  obtain ⟨f, hf⟩ := writeChunk_chunks msg n hlen h1 hmax hn hn32
  obtain ⟨hp2, hp⟩ := policyCSID_range msg hc2 hc
  rw [hf]
  simp only [List.range_succ_eq_map, List.map_cons, if_true, Nat.zero_mul, List.drop_zero]
  refine ⟨_, _, rfl, ?_, ?_⟩
  · have hm := messageHeader_fmt0 { msg with CSID := policyCSID msg, Format := 0 } rfl hmax
    have hmin : min msg.Timestamp 0xFFFFFF = 0xFFFFFF := by omega
    have h255 : WriteUintBE 0xFFFFFF 3 = [255, 255, 255] := by decide
    simp only [hmin, h255, WriteUintBE_three, WriteUintBE_one, WriteUintLE_four,
      WriteUintBE_four] at hm
    rw [if_pos hT] at hm
    simp only [writeHeader, hm]
    simp [basicHeader]
  · have hr := ReadChunk_first { msg with CSID := policyCSID msg, Format := 0 }
      (freshDecoder ((writeHeader { msg with CSID := policyCSID msg, Format := 0 }).1 ++
        (msg.Data.take n ++ [])) n) (msg.Data.take n) []
      hmax hts hp2 hp rfl rfl rfl
      (by show (msg.Data.take n).length = min msg.Length n
          rw [List.length_take, hlen]; omega)
    rw [List.append_nil] at hr
    refine ⟨_, _, hr, rfl, ?_⟩
    simpa using hT

/-- Witness of C6: the audio message of scenario S4 (timestamp `0x01000000`). -/
theorem extended_timestamp_round_trip_witness :
    ∃ ch rest, (writeChunk { CSID := 4, TypeID := 8, StreamID := 1, Timestamp := 0x01000000, Length := 1, Data := [7] } 128).chunks = ch :: rest ∧
      ch.header = [4, 0xFF, 0xFF, 0xFF, 0, 0, 1, 8, 1, 0, 0, 0, 0x01, 0, 0, 0] ∧
      ∃ cs c, ReadChunk (freshDecoder ch.bytes 128) = some (cs, c) ∧
        cs.Timestamp = 0x01000000 ∧ cs.useExtendTimeStamp = true := by
  obtain ⟨ch, rest, h1, h2, h3⟩ := extended_timestamp_round_trip
    { CSID := 4, TypeID := 8, StreamID := 1, Timestamp := 0x01000000, Length := 1, Data := [7] }
    128 rfl (by decide) (by decide) (by decide) (by decide) (by decide) (by decide)
    (by decide) (by decide)
  refine ⟨ch, rest, h1, ?_, h3⟩
  rw [h2]
  decide

/-- Counterexample to C6 as stated ("any L >= 1 and any chunk size n >= 1"):
a message of `0x1000000` bytes makes `writeHeader` return its length error,
and the chunk size `2^32` makes `writeChunk` divide by zero; in both cases
`writeChunk` emits no chunk at all. -/
theorem extended_timestamp_round_trip_counterexample :
    ((writeChunk { CSID := 3, TypeID := 20, Timestamp := 0xFFFFFF, Length := 0x1000000, Data := List.replicate 0x1000000 0 } 128).chunks = [] ∧
     (writeChunk { CSID := 3, TypeID := 20, Timestamp := 0xFFFFFF, Length := 0x1000000, Data := List.replicate 0x1000000 0 } 128).status = WriteEnd.lengthError) ∧
    ((writeChunk { CSID := 3, TypeID := 20, Timestamp := 0xFFFFFF, Length := 1, Data := [7] } (2 ^ 32)).chunks = [] ∧
     (writeChunk { CSID := 3, TypeID := 20, Timestamp := 0xFFFFFF, Length := 1, Data := [7] } (2 ^ 32)).status = WriteEnd.divideByZero) := by
  refine ⟨?_, by decide⟩
  rw [writeChunk_too_long _ 128 (by decide) (by decide)]
  exact ⟨rfl, rfl⟩


/-! ## Reassembly across chunks -/

theorem lookup_csidMapSet (m : List (Nat × ChunkStream)) (k : Nat) (v : ChunkStream) :
    (csidMapSet m k v).lookup k = some v := by
  simp [csidMapSet, List.lookup]

theorem messageHeader_fmt3_plain (cs : ChunkStream) (hfmt : cs.Format = 3)
    (hts : cs.Timestamp < 0xFFFFFF) : (messageHeader cs).1 = [] := by
  have h : ¬ cs.Timestamp ≥ FlvTimestampMax := by unfold FlvTimestampMax; omega
  simp [messageHeader, extendedTimestamp, hfmt, h]

/-- A format 3 chunk without extended timestamp, read while the message on its
chunk stream is in progress. -/
theorem ReadChunk_continue (c : RTMPConn) (cs : ChunkStream) (csid : Nat) (p rest : List Nat)
    (hc2 : 2 ≤ csid) (hc : csid < 65600)
    (hlook : c.csidMap.lookup csid = some cs) (hrem : cs.remain ≠ 0)
    (hinv : cs.index + cs.remain = cs.Data.length) (h32 : cs.Data.length < 2 ^ 32)
    (hin : c.input = basicHeader { Format := 3, CSID := csid } ++ (p ++ rest))
    (hp : p.length = min cs.remain c.readMaxChunkSize) :
    ReadChunk c =
      some ({ cs with Data := cs.Data.take cs.index ++ p ++ cs.Data.drop (cs.index + p.length),
                      index := cs.index + p.length,
                      remain := cs.remain - p.length,
                      finish := if cs.remain - p.length = 0 then true else cs.finish },
            { c with
              input := rest,
              csidMap := csidMapSet c.csidMap csid
                { cs with
                    Data := cs.Data.take cs.index ++ p ++ cs.Data.drop (cs.index + p.length),
                    index := cs.index + p.length,
                    remain := cs.remain - p.length,
                    finish := if cs.remain - p.length = 0 then true else cs.finish } }) := by
  have hb := readBasicHeader_basicHeader { Format := 3, CSID := csid }
    (by show 3 < 4; decide) hc2 hc
    (p ++ rest)
  have hpl := readPayload_spec c.readMaxChunkSize cs p rest hinv h32 hp
  unfold ReadChunk
  rw [hin, hb]
  simp only [hlook, readMessageHeader, hrem, if_false, hpl]

/-- The format 3 chunks `j .. j+k` of a message without extended timestamp, read
one after the other by a decoder that holds the first `j * n` payload bytes:
only the last call completes the message, with the whole payload. -/
theorem ReadChunks_continue (data : List Nat) (n csid : Nat) (hn : 1 ≤ n)
    (hc2 : 2 ≤ csid) (hc : csid < 65600) (h32 : data.length < 2 ^ 32) :
    ∀ (k j : Nat) (c : RTMPConn) (cs : ChunkStream),
      c.readMaxChunkSize = n →
      c.csidMap.lookup csid = some cs →
      cs.index = j * n → cs.index + cs.remain = data.length →
      cs.Data.length = data.length →
      cs.Data.take cs.index = data.take cs.index →
      (j + k) * n < data.length → data.length ≤ (j + k + 1) * n →
      c.input = ((List.range' j (k + 1)).map (fun i =>
          basicHeader { Format := 3, CSID := csid } ++ (data.drop (i * n)).take n)).flatten →
      ∃ css c', ReadChunks (k + 1) c = some (css, c') ∧ c'.input = [] ∧
        css.length = k + 1 ∧ (∀ x ∈ css.dropLast, x.remain ≠ 0) ∧
        css.getLast? =
          some { cs with Data := data, index := data.length, remain := 0, finish := true } := by
  intro k
  induction k with
  | zero =>
    intro j c cs hr hlook hidx hinv hdl htake hlo hhi hin
    simp only [Nat.add_zero] at hlo hhi
    have e1 : (j + 1) * n = j * n + n := by ring
    have hp : ((data.drop (j * n)).take n).length = min cs.remain c.readMaxChunkSize := by
      rw [List.length_take, List.length_drop, hr]; omega
    have hpl : ((data.drop (j * n)).take n).length = cs.remain := by
      rw [List.length_take, List.length_drop]; omega
    have hpe : (data.drop (j * n)).take n = data.drop (j * n) :=
      List.take_of_length_le (by rw [List.length_drop]; omega)
    have hin' : c.input = basicHeader { Format := 3, CSID := csid } ++
        ((data.drop (j * n)).take n ++ []) := by
      rw [hin]; simp
    have hstep := ReadChunk_continue c cs csid _ [] hc2 hc hlook (by omega)
      (by rw [hinv, hdl]) (by rw [hdl]; exact h32) hin' hp
    have hd : cs.Data.drop (cs.index + cs.remain) = [] :=
      List.drop_of_length_le (by omega)
    rw [hpl, Nat.sub_self, if_pos rfl, hd, htake, hpe, hidx, List.append_nil,
      List.take_append_drop, ← hidx, hinv] at hstep
    obtain ⟨cs', c', hR, hcs', hc'⟩ : ∃ cs' c', ReadChunk c = some (cs', c') ∧
        cs' = { cs with Data := data, index := data.length, remain := 0, finish := true } ∧
        c'.input = [] := ⟨_, _, hstep, rfl, rfl⟩
    refine ⟨[cs'], c', by simp only [ReadChunks, hR], hc', rfl, by simp, ?_⟩
    rw [List.getLast?_singleton, hcs']
  | succ k ih =>
    intro j c cs hr hlook hidx hinv hdl htake hlo hhi hin
    have e1 : (j + (k + 1)) * n = j * n + n + k * n := by ring
    have e2 : (j + (k + 1) + 1) * n = j * n + n + k * n + n := by ring
    have e3 : (j + 1 + k) * n = j * n + n + k * n := by ring
    have e4 : (j + 1 + k + 1) * n = j * n + n + k * n + n := by ring
    have e5 : (j + 1) * n = j * n + n := by ring
    have hpl : ((data.drop (j * n)).take n).length = n := by
      rw [List.length_take, List.length_drop]; omega
    have hp : ((data.drop (j * n)).take n).length = min cs.remain c.readMaxChunkSize := by
      rw [hpl, hr]; omega
    have hin' : c.input = basicHeader { Format := 3, CSID := csid } ++
        ((data.drop (j * n)).take n ++
          ((List.range' (j + 1) (k + 1)).map (fun i =>
            basicHeader { Format := 3, CSID := csid } ++ (data.drop (i * n)).take n)).flatten) := by
      rw [hin, List.range'_succ]; simp
    have hstep := ReadChunk_continue c cs csid _ _ hc2 hc hlook (by omega)
      (by rw [hinv, hdl]) (by rw [hdl]; exact h32) hin' hp
    rw [hpl] at hstep
    have htake' : (cs.Data.take cs.index ++ (data.drop (j * n)).take n ++
        cs.Data.drop (cs.index + n)).take (cs.index + n) = data.take (cs.index + n) := by
      have hl1 : (cs.Data.take cs.index).length = cs.index := by
        rw [List.length_take]; omega
      rw [List.take_append_of_le_length (by rw [List.length_append, hl1, hpl]),
        List.take_of_length_le (by rw [List.length_append, hl1, hpl]), htake, hidx,
        List.take_add]
    obtain ⟨css, c', hrc, hin2, hlen2, hdrop2, hlast2⟩ := ih (j + 1)
      { c with
        input := ((List.range' (j + 1) (k + 1)).map (fun i =>
            basicHeader { Format := 3, CSID := csid } ++ (data.drop (i * n)).take n)).flatten,
        csidMap := csidMapSet c.csidMap csid
          { cs with Data := cs.Data.take cs.index ++ (data.drop (j * n)).take n ++
                      cs.Data.drop (cs.index + n),
                    index := cs.index + n, remain := cs.remain - n,
                    finish := if cs.remain - n = 0 then true else cs.finish } }
      { cs with Data := cs.Data.take cs.index ++ (data.drop (j * n)).take n ++
                  cs.Data.drop (cs.index + n),
                index := cs.index + n, remain := cs.remain - n,
                finish := if cs.remain - n = 0 then true else cs.finish }
      hr (lookup_csidMapSet _ _ _) (by simp only; omega) (by simp only; omega)
      (by simp [hpl]; omega) htake' (by omega) (by omega) rfl
    have hne : css ≠ [] := by intro h; rw [h] at hlen2; simp at hlen2
    obtain ⟨cs1, c1, hR, hcs1, hc1⟩ : ∃ cs1 c1, ReadChunk c = some (cs1, c1) ∧
        cs1.remain = cs.remain - n ∧
        c1 = { c with
          input := ((List.range' (j + 1) (k + 1)).map (fun i =>
              basicHeader { Format := 3, CSID := csid } ++ (data.drop (i * n)).take n)).flatten,
          csidMap := csidMapSet c.csidMap csid
            { cs with Data := cs.Data.take cs.index ++ (data.drop (j * n)).take n ++
                        cs.Data.drop (cs.index + n),
                      index := cs.index + n, remain := cs.remain - n,
                      finish := if cs.remain - n = 0 then true else cs.finish } } :=
      ⟨_, _, hstep, rfl, rfl⟩
    rw [← hc1] at hrc
    refine ⟨cs1 :: css, c', ?_, hin2, by simp [hlen2], ?_, ?_⟩
    · rw [ReadChunks, hR]
      simp only [hrc]
    · intro x hx
      rw [List.dropLast_cons_of_ne_nil hne, List.mem_cons] at hx
      rcases hx with rfl | hx
      · rw [hcs1]; omega
      · exact hdrop2 x hx
    · rw [List.getLast?_cons, hlast2]
      rfl

/-- The wire image of a well-formed message without extended timestamp: the
format 0 header and the first `n` payload bytes, then one format 3 basic
header and up to `n` payload bytes for every further chunk. -/
theorem writeChunk_wire_plain (msg : ChunkStream) (n : Nat)
    (hlen : msg.Data.length = msg.Length) (h1 : 1 ≤ msg.Length) (hmax : msg.Length ≤ 0xFFFFFF)
    (hts : msg.Timestamp < 0xFFFFFF) (hn : 1 ≤ n) (hn32 : n < 2 ^ 32) :
    (writeChunk msg n).status = WriteEnd.ok ∧
    (writeChunk msg n).wire =
      (writeHeader { msg with CSID := policyCSID msg, Format := 0 }).1 ++
        (msg.Data.take n ++
          ((List.range' 1 ((msg.Length - 1) / n)).map (fun i =>
            basicHeader { Format := 3, CSID := policyCSID msg } ++
              (msg.Data.drop (i * n)).take n)).flatten) := by
  obtain ⟨f, hf⟩ := writeChunk_chunks msg n hlen h1 hmax hn hn32
  rw [hf]
  refine ⟨rfl, ?_⟩
  simp only [WriteOut.wire, List.append_nil, List.range_eq_range', List.range'_succ,
    List.map_cons, if_true, Nat.zero_mul, List.drop_zero, List.flatten_cons, Chunk.bytes,
    List.append_assoc, List.map_map, Nat.zero_add]
  congr 2
  congr 1
  apply List.map_congr_left
  intro i hi
  have hi1 : 1 ≤ i := (List.mem_range'_1.mp hi).1
  have hne : ¬ i = 0 := by omega
  have hm := messageHeader_fmt3_plain
    { msg with CSID := policyCSID msg, Format := 3 } rfl hts
  simp only [Function.comp_apply, hne, if_false, writeHeader, Chunk.bytes, hm, List.append_nil]
  rfl

/-- The reassembly round trip of C1 for timestamps below `0xFFFFFF`: for a
message with `Length = len(Data) = L`, `1 <= L <= 0xFFFFFF`, `TypeID` in
0..255, `CSID` in 2..65599, a 32-bit `StreamID`, `Timestamp < 0xFFFFFF` and a
chunk size `1 <= n <= L`, the bytes `writeChunk` emits are consumed completely
and without error by `ceil(L/n)` successive `ReadChunk` calls on a fresh decoder
with `readMaxChunkSize = n`; `remain` reaches 0 on the last call only, and the
chunk stream it returns has the CSID after the policy and the message's
`TypeID`, `StreamID`, `Timestamp` and `Data`. -/
theorem reassembly_round_trip_plain_timestamp (msg : ChunkStream) (n : Nat)
    (hlen : msg.Data.length = msg.Length) (h1 : 1 ≤ msg.Length) (hmax : msg.Length ≤ 0xFFFFFF)
    (hty : msg.TypeID < 256) (hc2 : 2 ≤ msg.CSID) (hc : msg.CSID ≤ 65599)
    (hsid : msg.StreamID < 2 ^ 32) (hts : msg.Timestamp < 0xFFFFFF)
    (hn1 : 1 ≤ n) (hn : n ≤ msg.Length) :
    (writeChunk msg n).status = WriteEnd.ok ∧
    ∃ css c last,
      ReadChunks ((msg.Length + n - 1) / n) (freshDecoder (writeChunk msg n).wire n) =
        some (css, c) ∧
      c.input = [] ∧ css.length = (msg.Length + n - 1) / n ∧
      (∀ x ∈ css.dropLast, x.remain ≠ 0) ∧
      css.getLast? = some last ∧ last.remain = 0 ∧ last.finish = true ∧
      last.CSID = (if msg.TypeID = 8 then 4
                   else if msg.TypeID = 9 ∨ msg.TypeID = 18 ∨ msg.TypeID = 15 then 6
                   else msg.CSID) ∧
      last.TypeID = msg.TypeID ∧ last.StreamID = msg.StreamID ∧
      last.Timestamp = msg.Timestamp ∧ last.Length = msg.Length ∧ last.Data = msg.Data := by
  obtain ⟨hok, hwire⟩ := writeChunk_wire_plain msg n hlen h1 hmax hts hn1 (by omega)
  obtain ⟨hp2, hp⟩ := policyCSID_range msg hc2 hc
  have hpol : policyCSID msg = (if msg.TypeID = 8 then 4
      else if msg.TypeID = 9 ∨ msg.TypeID = 18 ∨ msg.TypeID = 15 then 6 else msg.CSID) := rfl
  have hcnt : (msg.Length + n - 1) / n = (msg.Length - 1) / n + 1 := by
    have : msg.Length + n - 1 = msg.Length - 1 + n := by omega
    rw [this, Nat.add_div_right _ (by omega : 0 < n)]
  have hdm := Nat.div_add_mod (msg.Length - 1) n
  have hml := Nat.mod_lt (msg.Length - 1) (by omega : n > 0)
  have hpl : (msg.Data.take n).length = n := by rw [List.length_take, hlen]; omega
  have hfirst := ReadChunk_first { msg with CSID := policyCSID msg, Format := 0 }
    (freshDecoder (writeChunk msg n).wire n) (msg.Data.take n) _
    hmax (by show msg.Timestamp < 2 ^ 32; omega) hp2 hp rfl rfl (by rw [hwire]; rfl)
    (by show (msg.Data.take n).length = min msg.Length n; omega)
  rw [hpl, Nat.mod_eq_of_lt hty, Nat.mod_eq_of_lt hsid] at hfirst
  refine ⟨hok, ?_⟩
  rw [hcnt]
  rcases Nat.eq_zero_or_pos ((msg.Length - 1) / n) with hk | hk
  · -- one chunk: `n = L`
    have hnL : n = msg.Length := by
      rw [hk] at hdm; omega
    rw [hk] at hfirst ⊢
    obtain ⟨cs1, c1, hR, hcs1, hc1⟩ : ∃ cs1 c1,
        ReadChunk (freshDecoder (writeChunk msg n).wire n) = some (cs1, c1) ∧
        cs1 = { Format := 0, CSID := policyCSID msg, Timestamp := msg.Timestamp,
                Length := msg.Length, TypeID := msg.TypeID, StreamID := msg.StreamID,
                timeDelta := 0, useExtendTimeStamp := decide (msg.Timestamp ≥ 0xFFFFFF),
                finish := decide (msg.Length - n = 0), index := n, remain := msg.Length - n,
                Data := msg.Data.take n ++ List.replicate (msg.Length - n) 0 } ∧
        c1.input = [] := ⟨_, _, hfirst, rfl, rfl⟩
    refine ⟨[cs1], c1, cs1, ?_, hc1, rfl, by simp, rfl, ?_⟩
    · rw [ReadChunks, hR]; rfl
    · rw [hcs1]
      refine ⟨by simp only; omega, by simp only [hnL, Nat.sub_self, decide_True], hpol,
        rfl, rfl, rfl, rfl, ?_⟩
      simp only [hnL, Nat.sub_self, List.replicate_zero, List.append_nil]
      exact List.take_of_length_le (by omega)
  · -- several chunks
    obtain ⟨k, hkk⟩ : ∃ k, (msg.Length - 1) / n = k + 1 := ⟨_, (Nat.succ_pred_eq_of_pos hk).symm⟩
    rw [hkk] at hfirst hdm ⊢
    have e1 : (1 + k) * n = n * (k + 1) := by ring
    have e2 : (1 + k + 1) * n = n * (k + 1) + n := by ring
    have hnk : n ≤ n * (k + 1) := Nat.le_mul_of_pos_right n (by omega)
    obtain ⟨cs1, c1, hR, hcs1, hc1⟩ : ∃ cs1 c1,
        ReadChunk (freshDecoder (writeChunk msg n).wire n) = some (cs1, c1) ∧
        cs1 = { Format := 0, CSID := policyCSID msg, Timestamp := msg.Timestamp,
                Length := msg.Length, TypeID := msg.TypeID, StreamID := msg.StreamID,
                timeDelta := 0, useExtendTimeStamp := decide (msg.Timestamp ≥ 0xFFFFFF),
                finish := decide (msg.Length - n = 0), index := n, remain := msg.Length - n,
                Data := msg.Data.take n ++ List.replicate (msg.Length - n) 0 } ∧
        c1 = { freshDecoder (writeChunk msg n).wire n with
                input := ((List.range' 1 (k + 1)).map (fun i =>
                  basicHeader { Format := 3, CSID := policyCSID msg } ++
                    (msg.Data.drop (i * n)).take n)).flatten,
                csidMap := csidMapSet (freshDecoder (writeChunk msg n).wire n).csidMap
                  (policyCSID msg) cs1 } := ⟨_, _, hfirst, rfl, rfl⟩
    obtain ⟨css, c', hrc, hin2, hlen2, hdrop2, hlast2⟩ :=
      ReadChunks_continue msg.Data n (policyCSID msg) hn1 hp2 hp (by omega) k 1 c1 cs1
        (by rw [hc1]; rfl) (by rw [hc1]; exact lookup_csidMapSet _ _ _)
        (by rw [hcs1]; simp) (by rw [hcs1]; simp only; omega)
        (by rw [hcs1]; simp [hpl]; omega)
        (by rw [hcs1]; simp only
            rw [List.take_append_of_le_length (by omega), List.take_take, Nat.min_self])
        (by omega) (by omega) (by rw [hc1])
    have hne : css ≠ [] := by intro h; rw [h] at hlen2; simp at hlen2
    refine ⟨cs1 :: css, c',
      { cs1 with Data := msg.Data, index := msg.Data.length, remain := 0, finish := true },
      ?_, hin2, by simp [hlen2], ?_, ?_, ?_⟩
    · rw [ReadChunks, hR]
      simp only [hrc]
    · intro x hx
      rw [List.dropLast_cons_of_ne_nil hne, List.mem_cons] at hx
      rcases hx with rfl | hx
      · rw [hcs1]; simp only; omega
      · exact hdrop2 x hx
    · rw [List.getLast?_cons, hlast2]
      rfl
    · rw [hcs1]
      exact ⟨rfl, rfl, hpol, rfl, rfl, rfl, rfl, rfl⟩

/-- C1, the failing input: a 2-byte message with timestamp `0x01000000` at
chunk size 1.  `writeChunk` puts the 4-byte extended timestamp into the format
3 continuation chunk as well; `ReadChunk` does not read it when `remain > 0`,
so the second call stores its first byte `01` as payload, reports the message
complete with `Data = AA 01`, and leaves `00 00 00 BB` unread; the third call
fails on those bytes. -/
theorem reassembly_extended_timestamp_continuation :
    (writeChunk { CSID := 3, TypeID := 20, Timestamp := 0x01000000, Length := 2, Data := [0xAA, 0xBB] } 1).status = WriteEnd.ok ∧
    (writeChunk { CSID := 3, TypeID := 20, Timestamp := 0x01000000, Length := 2, Data := [0xAA, 0xBB] } 1).wire =
      [0x03, 0xFF, 0xFF, 0xFF, 0, 0, 2, 20, 0, 0, 0, 0, 0x01, 0, 0, 0, 0xAA,
       0xC3, 0x01, 0, 0, 0, 0xBB] ∧
    (ReadChunk (freshDecoder (writeChunk { CSID := 3, TypeID := 20, Timestamp := 0x01000000, Length := 2, Data := [0xAA, 0xBB] } 1).wire 1)).map
        (fun r => (r.1.remain, r.1.Data, r.2.input)) =
      some (1, [0xAA, 0], [0xC3, 0x01, 0, 0, 0, 0xBB]) ∧
    ((ReadChunk (freshDecoder (writeChunk { CSID := 3, TypeID := 20, Timestamp := 0x01000000, Length := 2, Data := [0xAA, 0xBB] } 1).wire 1)).bind
        (fun r => ReadChunk r.2)).map
        (fun r => (r.1.remain, r.1.finish, r.1.Timestamp, r.1.Data, r.2.input)) =
      some (0, true, 0x01000000, [0xAA, 0x01], [0, 0, 0, 0xBB]) ∧
    (((ReadChunk (freshDecoder (writeChunk { CSID := 3, TypeID := 20, Timestamp := 0x01000000, Length := 2, Data := [0xAA, 0xBB] } 1).wire 1)).bind
        (fun r => ReadChunk r.2)).bind (fun r => ReadChunk r.2)) = none := by
  decide


/-! ## Handshake -/

/-- The simple handshake on any input: with `C0 = 3` and a zero client version
the server writes `03`, then C1, then 1536 zero bytes, whatever C2 is. -/
theorem HandshakeServer_simple (hs : HsFuncs) (c : RTMPConn) (C1 C2 rest : List Nat)
    (hC1 : C1.length = 1536) (hC2 : C2.length = 1536)
    (hver : U32BE ((C1.drop 4).take 4) = 0)
    (hin : c.input = 3 :: C1 ++ (C2 ++ rest)) :
    HandshakeServer hs c =
      ({ c with input := rest,
                output := c.output ++ (3 :: C1 ++ List.replicate 1536 0) }, HsEnd.ok) := by
  have r1 : readData (1536 + 1) (3 :: C1 ++ (C2 ++ rest)) = some (3 :: C1, C2 ++ rest) :=
    readData_append_of_length _ (3 :: C1) (C2 ++ rest) (by simp [hC1])
  have r2 : readData 1536 (C2 ++ rest) = some (C2, rest) :=
    readData_append_of_length _ C2 rest hC2
  have hS0 : ((List.replicate (1536 * 2 + 1) 0).set 0 3).take 1 = [3] := rfl
  unfold HandshakeServer
  have h1 : (List.take 1 (3 :: C1)).getD 0 0 = 3 := rfl
  have h2 : List.drop 1 (3 :: C1) = C1 := rfl
  simp only [hin, r1, h1, h2, hver, hS0, r2, ne_eq, not_true_eq_false, if_false]
  rfl

/-- C2, the failing input: C0 = 03, C1 = 1536 zero bytes, C2 = 1536 bytes `AB`.
`HandshakeServer` succeeds and writes 3073 bytes, S0 = 03 and S1 = C1, but S2
is 1536 zero bytes, not C2: `copy(S2, C2)` runs before C2 is read, while the C2
buffer is still zero. -/
theorem HandshakeServer_simple_S2_is_zero (hs : HsFuncs) :
    (HandshakeServer hs
      (NewRTMPConn (3 :: List.replicate 1536 0 ++ (List.replicate 1536 0xAB ++ [])))).2 =
        HsEnd.ok ∧
    (HandshakeServer hs
      (NewRTMPConn (3 :: List.replicate 1536 0 ++ (List.replicate 1536 0xAB ++ [])))).1.output =
        3 :: List.replicate 1536 0 ++ List.replicate 1536 0 ∧
    (HandshakeServer hs
      (NewRTMPConn (3 :: List.replicate 1536 0 ++ (List.replicate 1536 0xAB ++ [])))).1.input =
        [] ∧
    (List.replicate 1536 0 : List Nat) ≠ List.replicate 1536 0xAB := by
  rw [HandshakeServer_simple hs _ (List.replicate 1536 0) (List.replicate 1536 0xAB) []
      (List.length_replicate _ _) (List.length_replicate _ _) rfl rfl]
  exact ⟨rfl, rfl, rfl, by decide⟩


/-! ## Acknowledgement accounting -/

/-- A well-formed message goes out whole: no error, no dangling header, and
the payloads of the chunks concatenate to `Data`. -/
theorem writeChunk_payloads (cs : ChunkStream) (n : Nat)
    (hlen : cs.Data.length = cs.Length) (h1 : 1 ≤ cs.Length) (hmax : cs.Length ≤ 0xFFFFFF)
    (hn : n % 2 ^ 32 ≠ 0) :
    (writeChunk cs n).status = WriteEnd.ok ∧
    (writeChunk cs n).rest = [] ∧
    ((writeChunk cs n).chunks.map Chunk.payload).flatten = cs.Data := by
  have hn' : u32 n < 2 ^ 32 := by unfold u32; omega
  have hn1 : 1 ≤ u32 n := by unfold u32; omega
  obtain ⟨f, hf⟩ := writeChunk_chunks cs (u32 n) hlen h1 hmax hn1 hn'
  rw [writeChunk_u32] at hf
  have hdm := Nat.div_add_mod (cs.Length - 1) (u32 n)
  have hml := Nat.mod_lt (cs.Length - 1) (by omega : u32 n > 0)
  rw [hf]
  refine ⟨rfl, rfl, ?_⟩
  simp only [List.map_map]
  have := flatten_take_drop (u32 n) cs.Data ((cs.Length - 1) / u32 n + 1)
  have e3 : ((cs.Length - 1) / u32 n + 1) * u32 n = u32 n * ((cs.Length - 1) / u32 n) + u32 n := by
    ring
  rw [List.take_of_length_le (by rw [hlen, e3]; omega)] at this
  simpa only [Function.comp_def] using this

/-- C9, amended: `Ack` sets `received` to `(received + len) mod 2^32`, and to 0
when that value is `>= 0xF0000000`; it leaves `remoteWindowAckSize` unchanged;
with `a = (ackReceived + len) mod 2^32`, if `a < remoteWindowAckSize` nothing is
written and `ackReceived` becomes `a`; if `a >= remoteWindowAckSize` and
`writeMaxChunkSize` is not a multiple of `2^32`, exactly the Acknowledgement
message built from `a` is written (CSID 2, type id 3, stream id 0, the payload
`a` as 4 bytes big-endian; one chunk `02 000000 000004 03 00000000 a` when the
chunk size is at least 4) and `ackReceived` becomes 0. -/
theorem Ack_accounting (c : RTMPConn) (cs : ChunkStream) :
    (Ack c cs).1.received =
      (if (c.received + cs.Length) % 2 ^ 32 ≥ 0xF0000000 then 0
       else (c.received + cs.Length) % 2 ^ 32) ∧
    (Ack c cs).1.remoteWindowAckSize = c.remoteWindowAckSize ∧
    ((c.ackReceived + cs.Length) % 2 ^ 32 < c.remoteWindowAckSize →
      (Ack c cs).2 = false ∧ (Ack c cs).1.output = c.output ∧
      (Ack c cs).1.ackReceived = (c.ackReceived + cs.Length) % 2 ^ 32) ∧
    ((c.ackReceived + cs.Length) % 2 ^ 32 ≥ c.remoteWindowAckSize →
      c.writeMaxChunkSize % 2 ^ 32 ≠ 0 →
      (Ack c cs).2 = false ∧
      (Ack c cs).1.output = c.output ++
        (writeChunk (NewAck ((c.ackReceived + cs.Length) % 2 ^ 32)) c.writeMaxChunkSize).wire ∧
      (writeChunk (NewAck ((c.ackReceived + cs.Length) % 2 ^ 32)) c.writeMaxChunkSize).status =
        WriteEnd.ok ∧
      ((writeChunk (NewAck ((c.ackReceived + cs.Length) % 2 ^ 32))
          c.writeMaxChunkSize).chunks.map Chunk.payload).flatten =
        [(c.ackReceived + cs.Length) % 2 ^ 32 / 16777216 % 256,
         (c.ackReceived + cs.Length) % 2 ^ 32 / 65536 % 256,
         (c.ackReceived + cs.Length) % 2 ^ 32 / 256 % 256,
         (c.ackReceived + cs.Length) % 2 ^ 32 % 256] ∧
      (4 ≤ c.writeMaxChunkSize % 2 ^ 32 →
        (writeChunk (NewAck ((c.ackReceived + cs.Length) % 2 ^ 32)) c.writeMaxChunkSize).wire =
          [0x02, 0, 0, 0, 0, 0, 4, 0x03, 0, 0, 0, 0,
           (c.ackReceived + cs.Length) % 2 ^ 32 / 16777216 % 256,
           (c.ackReceived + cs.Length) % 2 ^ 32 / 65536 % 256,
           (c.ackReceived + cs.Length) % 2 ^ 32 / 256 % 256,
           (c.ackReceived + cs.Length) % 2 ^ 32 % 256]) ∧
      (Ack c cs).1.ackReceived = 0) := by
  generalize ha : (c.ackReceived + cs.Length) % 2 ^ 32 = a
  generalize hr : (c.received + cs.Length) % 2 ^ 32 = r
  have hA : u32 (c.ackReceived + cs.Length) = a := ha
  have hR : u32 (c.received + cs.Length) = r := hr
  refine ⟨?_, ?_, ?_, ?_⟩
  · unfold Ack
    simp only [hA, hR]
    split_ifs <;> rfl
  · unfold Ack
    simp only [hA, hR]
    split_ifs <;> rfl
  · intro hlt
    have hnot : ¬ a ≥ c.remoteWindowAckSize := by omega
    unfold Ack
    simp only [hA, hR]
    split_ifs <;> exact ⟨rfl, rfl, rfl⟩
  · intro hge hw
    have hlenA : (NewAck a).Data.length = (NewAck a).Length := by
      simp [NewAck, WriteUintBE_four]
    have hL : (NewAck a).Length = 4 := rfl
    obtain ⟨hok, hrest, hpay⟩ := writeChunk_payloads (NewAck a) c.writeMaxChunkSize hlenA
      (by rw [hL]; decide) (by rw [hL]; decide) hw
    have hData : (NewAck a).Data = [a / 16777216 % 256, a / 65536 % 256, a / 256 % 256,
        a % 256] := WriteUintBE_four a
    have hnp : ¬ ((writeChunk (NewAck a) c.writeMaxChunkSize).status = WriteEnd.divideByZero ∨
        (writeChunk (NewAck a) c.writeMaxChunkSize).status = WriteEnd.sliceOutOfRange) := by
      rw [hok]; decide
    refine ⟨?_, ?_, hok, by rw [hpay, hData], ?_, ?_⟩
    · unfold Ack
      simp only [hA, hR]
      split_ifs <;> rfl
    · unfold Ack
      simp only [hA, hR]
      split_ifs <;> rfl
    · intro h4
      have hs := (writeChunk_single (NewAck a) c.writeMaxChunkSize hlenA (by rw [hL]; decide)
        (by rw [hL]; decide) (by rw [hL]; exact h4)).2
      have hH : (writeHeader { NewAck a with CSID := policyCSID (NewAck a), Format := 0 }).1 =
          (writeHeader { Format := 0, CSID := 2, TypeID := 3, Length := 4 }).1 := rfl
      have hH2 : (writeHeader { Format := 0, CSID := 2, TypeID := 3, Length := 4 }).1 =
          [0x02, 0, 0, 0, 0, 0, 4, 0x03, 0, 0, 0, 0] := by decide
      rw [hs, hH, hH2, hData]
      rfl
    · unfold Ack
      simp only [hA, hR]
      split_ifs <;> rfl

/-- Witness of C9: window 100, 90 bytes counted, a 30-byte message: one
Acknowledgement of 120 is written and `ackReceived` returns to 0; with 50 bytes
counted nothing is written and `ackReceived` becomes 80. -/
theorem Ack_accounting_witness :
    (Ack { writeMaxChunkSize := 128, remoteWindowAckSize := 100, received := 90, ackReceived := 90 } { Length := 30 }).1.output =
      [0x02, 0, 0, 0, 0, 0, 4, 0x03, 0, 0, 0, 0, 0, 0, 0, 120] ∧
    (Ack { writeMaxChunkSize := 128, remoteWindowAckSize := 100, received := 90, ackReceived := 90 } { Length := 30 }).1.ackReceived = 0 ∧
    (Ack { writeMaxChunkSize := 128, remoteWindowAckSize := 100, received := 50, ackReceived := 50 } { Length := 30 }).1.output = [] ∧
    (Ack { writeMaxChunkSize := 128, remoteWindowAckSize := 100, received := 50, ackReceived := 50 } { Length := 30 }).1.ackReceived = 80 := by
  have h1 := (Ack_accounting { writeMaxChunkSize := 128, remoteWindowAckSize := 100, received := 90, ackReceived := 90 } { Length := 30 }).2.2.2
    (by decide) (by decide)
  have h2 := (Ack_accounting { writeMaxChunkSize := 128, remoteWindowAckSize := 100, received := 50, ackReceived := 50 } { Length := 30 }).2.2.1
    (by decide)
  refine ⟨?_, h1.2.2.2.2.2, h2.2.1, h2.2.2⟩
  rw [h1.2.1, h1.2.2.2.2.1 (by decide)]
  rfl

/-- Counterexample to C9 as stated ("for every connection state"): when
`writeMaxChunkSize` is 0 the call of `writeChunk` inside `Ack` divides by zero,
so `Ack` panics: no Acknowledgement is written and `ackReceived` is not reset. -/
theorem Ack_accounting_counterexample :
    (Ack { writeMaxChunkSize := 0, remoteWindowAckSize := 100, received := 90, ackReceived := 90 } { Length := 30 }).2 = true ∧
    (Ack { writeMaxChunkSize := 0, remoteWindowAckSize := 100, received := 90, ackReceived := 90 } { Length := 30 }).1.output = [] ∧
    ¬ (Ack { writeMaxChunkSize := 0, remoteWindowAckSize := 100, received := 90, ackReceived := 90 } { Length := 30 }).1.ackReceived = 0 := by
  decide

/-- The Acknowledgement for the value `a`, at a chunk size of at least 4, is
one chunk: the format 0 header of CSID 2, type id 3, length 4, stream id 0,
and `a` as 4 bytes big-endian. -/
theorem writeChunk_NewAck (a n : Nat) (h4 : 4 ≤ n % 2 ^ 32) :
    (writeChunk (NewAck a) n).status = WriteEnd.ok ∧
    (writeChunk (NewAck a) n).wire =
      [0x02, 0, 0, 0, 0, 0, 4, 0x03, 0, 0, 0, 0] ++ WriteUintBE a 4 := by
  have hlenA : (NewAck a).Data.length = (NewAck a).Length := by
    simp [NewAck, WriteUintBE_four]
  have hL : (NewAck a).Length = 4 := rfl
  obtain ⟨hok, hs⟩ := writeChunk_single (NewAck a) n hlenA (by rw [hL]; decide)
    (by rw [hL]; decide) (by rw [hL]; exact h4)
  have hH : (writeHeader { NewAck a with CSID := policyCSID (NewAck a), Format := 0 }).1 =
      (writeHeader { Format := 0, CSID := 2, TypeID := 3, Length := 4 }).1 := rfl
  have hH2 : (writeHeader { Format := 0, CSID := 2, TypeID := 3, Length := 4 }).1 =
      [0x02, 0, 0, 0, 0, 0, 4, 0x03, 0, 0, 0, 0] := by decide
  refine ⟨hok, ?_⟩
  rw [hs, hH, hH2]
  rfl

/-- An `Ack` call below the window: nothing is written, the length is added
to `ackReceived`. -/
theorem Ack_below_window (c : RTMPConn) (cs : ChunkStream)
    (hlt : c.ackReceived + cs.Length < c.remoteWindowAckSize)
    (hwin : c.remoteWindowAckSize < 2 ^ 32) :
    (Ack c cs).2 = false ∧ (Ack c cs).1.output = c.output ∧
    (Ack c cs).1.ackReceived = c.ackReceived + cs.Length ∧
    (Ack c cs).1.writeMaxChunkSize = c.writeMaxChunkSize ∧
    (Ack c cs).1.remoteWindowAckSize = c.remoteWindowAckSize := by
  have hA : u32 (c.ackReceived + cs.Length) = c.ackReceived + cs.Length := by
    unfold u32; omega
  generalize hr : u32 (c.received + cs.Length) = r
  have hnot : ¬ c.ackReceived + cs.Length ≥ c.remoteWindowAckSize := by omega
  unfold Ack
  simp only [hA, hr]
  split_ifs <;> exact ⟨rfl, rfl, rfl, rfl, rfl⟩

/-- An `Ack` call that reaches the window, at a chunk size of at least 4: one
Acknowledgement carrying `ackReceived + len` is written, and `ackReceived`
is reset. -/
theorem Ack_at_window (c : RTMPConn) (cs : ChunkStream)
    (hge : c.remoteWindowAckSize ≤ c.ackReceived + cs.Length)
    (h32 : c.ackReceived + cs.Length < 2 ^ 32)
    (hw : 4 ≤ c.writeMaxChunkSize % 2 ^ 32) :
    (Ack c cs).2 = false ∧
    (Ack c cs).1.output = c.output ++
      ([0x02, 0, 0, 0, 0, 0, 4, 0x03, 0, 0, 0, 0] ++ WriteUintBE (c.ackReceived + cs.Length) 4) ∧
    (Ack c cs).1.ackReceived = 0 ∧
    (Ack c cs).1.writeMaxChunkSize = c.writeMaxChunkSize ∧
    (Ack c cs).1.remoteWindowAckSize = c.remoteWindowAckSize := by
  have hA : u32 (c.ackReceived + cs.Length) = c.ackReceived + cs.Length := by
    unfold u32; omega
  generalize hr : u32 (c.received + cs.Length) = r
  obtain ⟨hok, hwire⟩ := writeChunk_NewAck (c.ackReceived + cs.Length) c.writeMaxChunkSize hw
  have hnp : ¬ ((writeChunk (NewAck (c.ackReceived + cs.Length)) c.writeMaxChunkSize).status =
        WriteEnd.divideByZero ∨
      (writeChunk (NewAck (c.ackReceived + cs.Length)) c.writeMaxChunkSize).status =
        WriteEnd.sliceOutOfRange) := by
    rw [hok]; decide
  have hge' : c.ackReceived + cs.Length ≥ c.remoteWindowAckSize := hge
  unfold Ack
  simp only [hA, hr]
  split_ifs <;> exact ⟨rfl, by rw [← hwire], rfl, rfl, rfl⟩

/-- A run of `Ack` calls that stays below the window writes nothing and adds
the lengths up in `ackReceived`. -/
theorem AckAll_below_window (msgs : List ChunkStream) :
    ∀ c : RTMPConn, c.remoteWindowAckSize < 2 ^ 32 →
      c.ackReceived + (msgs.map ChunkStream.Length).sum < c.remoteWindowAckSize →
      (AckAll c msgs).2 = false ∧ (AckAll c msgs).1.output = c.output ∧
      (AckAll c msgs).1.ackReceived = c.ackReceived + (msgs.map ChunkStream.Length).sum ∧
      (AckAll c msgs).1.writeMaxChunkSize = c.writeMaxChunkSize ∧
      (AckAll c msgs).1.remoteWindowAckSize = c.remoteWindowAckSize := by
  induction msgs with
  | nil =>
    intro c _ _
    exact ⟨rfl, rfl, rfl, rfl, rfl⟩
  | cons m ms ih =>
    intro c hwin hq
    rw [List.map_cons, List.sum_cons] at hq
    obtain ⟨h1, h2, h3, h4, h5⟩ := Ack_below_window c m (by omega) hwin
    obtain ⟨i1, i2, i3, i4, i5⟩ := ih (Ack c m).1 (by rw [h5]; exact hwin)
      (by rw [h3, h5]; omega)
    have hstep : AckAll c (m :: ms) = AckAll (Ack c m).1 ms := by
      rw [AckAll]
      simp only [h1, Bool.false_eq_true, if_false]
    rw [hstep, List.map_cons, List.sum_cons]
    refine ⟨i1, i2.trans h2, ?_, i4.trans h4, i5.trans h5⟩
    rw [i3, h3]; omega

/-- A sequence of `Ack` calls of which none panics can be cut anywhere. -/
theorem AckAll_append (xs ys : List ChunkStream) :
    ∀ c : RTMPConn, (AckAll c xs).2 = false →
      AckAll c (xs ++ ys) = AckAll (AckAll c xs).1 ys := by
  induction xs with
  | nil => intro c _; rfl
  | cons x xs ih =>
    intro c h
    rw [List.cons_append]
    rw [AckAll] at h ⊢
    by_cases hp : (Ack c x).2 = true
    · simp only [hp, if_true] at h
      exact absurd h (by decide)
    · simp only [hp, if_false] at h ⊢
      rw [AckAll]
      simp only [hp, if_false]
      exact ih _ h

/-- C10, amended: an Acknowledgement carries `ackReceived`, the bytes accounted
since the last Acknowledgement.  On a connection with a chunk size of at least
4 (128 on a fresh connection) and `ackReceived = a0` (0 on a fresh connection
and after every Acknowledgement), let the completed messages `msgs` stay below
the window (`a0 + sum of their lengths < remoteWindowAckSize`) and let the
next message `m` reach it, the total being below `2^32`.  Then the `Ack` calls
for `msgs` write nothing, and the call for `m` writes exactly one
Acknowledgement, whose 4-byte big-endian payload is `a0` plus the lengths of
`msgs` and `m`; it resets `ackReceived` to 0 and leaves the chunk size and the
window as they were, and the calls for any further messages go on from that
state.  So the first Acknowledgement of a fresh connection carries the
cumulative count, and every later one carries the bytes accounted since the
one before it. -/
theorem Ack_carries_bytes_since_last_ack (c : RTMPConn) (msgs : List ChunkStream)
    (m : ChunkStream)
    (hw : 4 ≤ c.writeMaxChunkSize % 2 ^ 32)
    (hwin : c.remoteWindowAckSize < 2 ^ 32)
    (hquiet : c.ackReceived + (msgs.map ChunkStream.Length).sum < c.remoteWindowAckSize)
    (htrig : c.remoteWindowAckSize ≤
      c.ackReceived + (msgs.map ChunkStream.Length).sum + m.Length)
    (h32 : c.ackReceived + (msgs.map ChunkStream.Length).sum + m.Length < 2 ^ 32) :
    (AckAll c msgs).2 = false ∧
    (AckAll c msgs).1.output = c.output ∧
    (AckAll c (msgs ++ [m])).2 = false ∧
    (AckAll c (msgs ++ [m])).1.output = c.output ++
      ([0x02, 0, 0, 0, 0, 0, 4, 0x03, 0, 0, 0, 0] ++
        WriteUintBE (c.ackReceived + (msgs.map ChunkStream.Length).sum + m.Length) 4) ∧
    (AckAll c (msgs ++ [m])).1.ackReceived = 0 ∧
    (AckAll c (msgs ++ [m])).1.writeMaxChunkSize = c.writeMaxChunkSize ∧
    (AckAll c (msgs ++ [m])).1.remoteWindowAckSize = c.remoteWindowAckSize ∧
    ∀ more, AckAll c (msgs ++ [m] ++ more) = AckAll (AckAll c (msgs ++ [m])).1 more := by
  obtain ⟨q1, q2, q3, q4, q5⟩ := AckAll_below_window msgs c hwin hquiet
  obtain ⟨t1, t2, t3, t4, t5⟩ := Ack_at_window (AckAll c msgs).1 m
    (by rw [q3, q5]; exact htrig) (by rw [q3]; exact h32) (by rw [q4]; exact hw)
  have hlast : AckAll c (msgs ++ [m]) = Ack (AckAll c msgs).1 m := by
    rw [AckAll_append msgs [m] c q1, AckAll]
    simp only [t1, Bool.false_eq_true, if_false]
    rw [AckAll]
    exact Prod.ext rfl t1.symm
  refine ⟨q1, q2, ?_, ?_, ?_, ?_, ?_, ?_⟩
  · rw [hlast]; exact t1
  · rw [hlast, t2, q2, q3]
  · rw [hlast]; exact t3
  · rw [hlast, t4, q4]
  · rw [hlast, t5, q5]
  · intro more
    exact AckAll_append (msgs ++ [m]) more c (by rw [hlast]; exact t1)

/-- Witness of C10, amended: window 100 and 30-byte messages on a fresh
connection.  The fourth message triggers an Acknowledgement carrying 120; from
the state after it, the next fourth message triggers one carrying 120 again. -/
theorem Ack_carries_bytes_since_last_ack_witness :
    (AckAll { NewRTMPConn [] with remoteWindowAckSize := 100 }
        (List.replicate 3 { Length := 30 } ++ [{ Length := 30 }])).1.output =
      [0x02, 0, 0, 0, 0, 0, 4, 0x03, 0, 0, 0, 0, 0, 0, 0, 120] ∧
    (AckAll (AckAll { NewRTMPConn [] with remoteWindowAckSize := 100 }
          (List.replicate 3 { Length := 30 } ++ [{ Length := 30 }])).1
        (List.replicate 3 { Length := 30 } ++ [{ Length := 30 }])).1.output =
      [0x02, 0, 0, 0, 0, 0, 4, 0x03, 0, 0, 0, 0, 0, 0, 0, 120,
       0x02, 0, 0, 0, 0, 0, 4, 0x03, 0, 0, 0, 0, 0, 0, 0, 120] := by
  constructor
  · have h := (Ack_carries_bytes_since_last_ack
      { NewRTMPConn [] with remoteWindowAckSize := 100 }
      (List.replicate 3 { Length := 30 }) { Length := 30 }
      (by decide) (by decide) (by decide) (by decide) (by decide)).2.2.2.1
    rw [h]
    decide
  · have h := (Ack_carries_bytes_since_last_ack
      (AckAll { NewRTMPConn [] with remoteWindowAckSize := 100 }
        (List.replicate 3 { Length := 30 } ++ [{ Length := 30 }])).1
      (List.replicate 3 { Length := 30 }) { Length := 30 }
      (by decide) (by decide) (by decide) (by decide) (by decide)).2.2.2.1
    rw [h]
    decide

/-- Counterexample to C10 as stated: window 100 and eight 30-byte messages on
a fresh connection (240 bytes in all, far below `0xF0000000`).  The fourth
message triggers an Acknowledgement carrying 120, which is the cumulative
count; the eighth triggers one that carries 120 again, while 240 bytes have
been received (`received = 240`): the value is `ackReceived`, which is reset
after every Acknowledgement. -/
theorem Ack_carries_bytes_since_last_ack_counterexample :
    (AckAll { NewRTMPConn [] with remoteWindowAckSize := 100 }
        (List.replicate 4 { Length := 30 })).1.output =
      [0x02, 0, 0, 0, 0, 0, 4, 0x03, 0, 0, 0, 0, 0, 0, 0, 120] ∧
    (AckAll { NewRTMPConn [] with remoteWindowAckSize := 100 }
        (List.replicate 4 { Length := 30 })).1.received = 120 ∧
    (AckAll { NewRTMPConn [] with remoteWindowAckSize := 100 }
        (List.replicate 8 { Length := 30 })).1.output =
      [0x02, 0, 0, 0, 0, 0, 4, 0x03, 0, 0, 0, 0, 0, 0, 0, 120,
       0x02, 0, 0, 0, 0, 0, 4, 0x03, 0, 0, 0, 0, 0, 0, 0, 120] ∧
    (AckAll { NewRTMPConn [] with remoteWindowAckSize := 100 }
        (List.replicate 8 { Length := 30 })).1.received = 240 ∧
    (AckAll { NewRTMPConn [] with remoteWindowAckSize := 100 }
        (List.replicate 8 { Length := 30 })).2 = false := by
  decide


/-! ## Length guard and empty messages -/

/-- A message without payload: the loop of `writeChunk` stops at once. -/
theorem writeChunk_empty (cs : ChunkStream) (n : Nat) (h0 : cs.Length = 0)
    (hn : n % 2 ^ 32 ≠ 0) :
    writeChunk cs n = ⟨{ cs with CSID := policyCSID cs }, [], [], WriteEnd.ok⟩ := by
  have hn' : ¬ u32 n = 0 := hn
  unfold writeChunk
  rw [if_neg hn']
  simp only [h0, Nat.zero_div, Nat.zero_add]
  rw [writeChunkLoop]
  simp [h0]

/-- C11, amended: for every chunk size `n` that is not a multiple of `2^32`
(every `1 <= n < 2^32`), `writeChunk` on a message with `Length > 0xFFFFFF`
returns the length error and writes no chunk and no payload byte, only the
basic header and the 3-byte timestamp that `writeHeader` has written before its
check; and on a message with `Length = len(Data)`, `1 <= Length <= 0xFFFFFF`, it
returns no error. -/
theorem writeChunk_length_guard (cs : ChunkStream) (n : Nat) (hn : n % 2 ^ 32 ≠ 0) :
    (cs.Length > 0xFFFFFF →
      (writeChunk cs n).status = WriteEnd.lengthError ∧
      (writeChunk cs n).chunks = [] ∧
      (writeChunk cs n).wire =
        basicHeader { Format := 0, CSID := policyCSID cs } ++
          [min cs.Timestamp 0xFFFFFF / 65536 % 256, min cs.Timestamp 0xFFFFFF / 256 % 256,
            min cs.Timestamp 0xFFFFFF % 256]) ∧
    (cs.Data.length = cs.Length → 1 ≤ cs.Length → cs.Length ≤ 0xFFFFFF →
      (writeChunk cs n).status = WriteEnd.ok) := by
  constructor
  · intro hlong
    rw [writeChunk_too_long cs n hlong hn]
    refine ⟨rfl, rfl, ?_⟩
    have hl : cs.Length > FlvTimestampMax := hlong
    have hm : (if cs.Timestamp > FlvTimestampMax then FlvTimestampMax else cs.Timestamp) =
        min cs.Timestamp 0xFFFFFF := by
      unfold FlvTimestampMax; split_ifs <;> omega
    simp only [WriteOut.wire, List.map_nil, List.flatten_nil, List.nil_append, writeHeader,
      messageHeader, hl, if_true, hm, WriteUintBE_three]
    simp
    rfl
  · intro hlen h1 hmax
    exact (writeChunk_payloads cs n hlen h1 hmax hn).1

/-- Witness of C11: a message that declares `0x1000000` bytes is refused at
chunk size 128 after `03 FF FF FF` (basic header and 3-byte timestamp of the
timestamp `0x1000000`); a 5-byte message is written without error. -/
theorem writeChunk_length_guard_witness :
    ((writeChunk { CSID := 3, TypeID := 20, Timestamp := 0x1000000, Length := 0x1000000, Data := List.replicate 0x1000000 0 } 128).status = WriteEnd.lengthError ∧
     (writeChunk { CSID := 3, TypeID := 20, Timestamp := 0x1000000, Length := 0x1000000, Data := List.replicate 0x1000000 0 } 128).chunks = [] ∧
     (writeChunk { CSID := 3, TypeID := 20, Timestamp := 0x1000000, Length := 0x1000000, Data := List.replicate 0x1000000 0 } 128).wire = [0x03, 0xFF, 0xFF, 0xFF]) ∧
    (writeChunk { CSID := 3, TypeID := 20, Timestamp := 1000, Length := 5, Data := [1, 2, 3, 4, 5] } 128).status = WriteEnd.ok := by
  constructor
  · have h := (writeChunk_length_guard { CSID := 3, TypeID := 20, Timestamp := 0x1000000, Length := 0x1000000, Data := List.replicate 0x1000000 0 } 128 (by decide)).1 (by decide)
    refine ⟨h.1, h.2.1, ?_⟩
    rw [h.2.2]
    decide
  · exact (writeChunk_length_guard { CSID := 3, TypeID := 20, Timestamp := 1000, Length := 5, Data := [1, 2, 3, 4, 5] } 128 (by decide)).2 rfl (by decide) (by decide)

/-- Counterexample to C11 as stated ("every chunk size n >= 1"): with the chunk
size `2^32` `writeChunk` divides by `uint32(2^32) = 0` and panics, so it
neither returns the length error for the oversized message nor returns without
error for the 5-byte message. -/
theorem writeChunk_length_guard_counterexample :
    (writeChunk { CSID := 3, TypeID := 20, Length := 0x1000000, Data := List.replicate 0x1000000 0 } (2 ^ 32)).status = WriteEnd.divideByZero ∧
    (writeChunk { CSID := 3, TypeID := 20, Length := 5, Data := [1, 2, 3, 4, 5] } (2 ^ 32)).status = WriteEnd.divideByZero := by
  constructor <;> rfl

/-- C20, amended: for a chunk stream with `Length = 0` and every chunk size
`n` that is not a multiple of `2^32` (every `1 <= n < 2^32`), `writeChunk`
returns no error and writes nothing, neither a chunk nor a header byte; the
chunk stream is left as it was but for the CSID, which is 4 for type id 8, 6
for type ids 9, 18 and 15, and unchanged otherwise. -/
theorem writeChunk_zero_length (cs : ChunkStream) (n : Nat) (h0 : cs.Length = 0)
    (hn : n % 2 ^ 32 ≠ 0) :
    (writeChunk cs n).status = WriteEnd.ok ∧
    (writeChunk cs n).wire = [] ∧
    (writeChunk cs n).chunks = [] ∧
    (writeChunk cs n).cs =
      { cs with CSID := if cs.TypeID = 8 then 4
                        else if cs.TypeID = 9 ∨ cs.TypeID = 18 ∨ cs.TypeID = 15 then 6
                        else cs.CSID } := by
  rw [writeChunk_empty cs n h0 hn]
  exact ⟨rfl, rfl, rfl, rfl⟩

/-- Witness of C20: an empty video message offered on CSID 3 at chunk size 128
writes nothing and leaves the chunk stream on CSID 6. -/
theorem writeChunk_zero_length_witness :
    (writeChunk { CSID := 3, TypeID := 9, Length := 0, Data := [] } 128).status = WriteEnd.ok ∧
    (writeChunk { CSID := 3, TypeID := 9, Length := 0, Data := [] } 128).wire = [] ∧
    (writeChunk { CSID := 3, TypeID := 9, Length := 0, Data := [] } 128).cs =
      { CSID := 6, TypeID := 9, Length := 0, Data := [] } := by
  have h := writeChunk_zero_length { CSID := 3, TypeID := 9, Length := 0, Data := [] } 128 rfl (by decide)
  refine ⟨h.1, h.2.1, ?_⟩
  rw [h.2.2.2]
  decide

/-- Counterexample to C20 as stated ("every chunk size n >= 1"): with the chunk
size `2^32` the division `cs.Length / uint32(chunkSize)` is `0 / 0`, and
`writeChunk` panics instead of returning. -/
theorem writeChunk_zero_length_counterexample :
    (writeChunk { CSID := 3, TypeID := 20, Length := 0, Data := [] } (2 ^ 32)).status =
      WriteEnd.divideByZero := by
  rfl

/-! ## Handshake version -/

/-- C12: for every client input whose first byte is not `0x03`, whatever
follows, `HandshakeServer` returns an error and writes no byte: the version
error when all of C0 and C1 (1537 bytes) has arrived, the read error
otherwise. -/
theorem HandshakeServer_bad_version (hs : HsFuncs) (c : RTMPConn) (C0 : Nat)
    (rest : List Nat) (hin : c.input = C0 :: rest) (hC0 : C0 ≠ 3) :
    (HandshakeServer hs c).2 ≠ HsEnd.ok ∧
    (HandshakeServer hs c).1.output = c.output ∧
    (1536 ≤ rest.length → (HandshakeServer hs c).2 = HsEnd.versionInvalid) ∧
    (rest.length < 1536 → (HandshakeServer hs c).2 = HsEnd.readError) := by
  by_cases hlen : 1536 ≤ rest.length
  · have r1 : readData (1536 + 1) (C0 :: rest) =
        some (C0 :: rest.take 1536, rest.drop 1536) := by
      have := readData_append_of_length (1536 + 1) (C0 :: rest.take 1536) (rest.drop 1536)
        (by rw [List.length_cons, List.length_take]; omega)
      rwa [List.cons_append, List.take_append_drop] at this
    have h1 : (List.take 1 (C0 :: rest.take 1536)).getD 0 0 = C0 := rfl
    have hres : HandshakeServer hs c = ({ c with input := rest.drop 1536 },
        HsEnd.versionInvalid) := by
      unfold HandshakeServer
      simp only [hin, r1, h1, ne_eq, hC0, not_false_eq_true, if_true]
    rw [hres]
    exact ⟨by simp, rfl, fun _ => rfl, fun h => absurd hlen (by omega)⟩
  · have r1 : readData (1536 + 1) (C0 :: rest) = none := by
      unfold readData
      rw [if_neg (by rw [List.length_cons]; omega)]
    have hres : HandshakeServer hs c = (c, HsEnd.readError) := by
      unfold HandshakeServer
      simp only [hin, r1]
    rw [hres]
    exact ⟨by simp, rfl, fun h => absurd h hlen, fun _ => rfl⟩

/-- Witness of C12: C0 = 06 followed by 1536 bytes `AB` and by C2. -/
theorem HandshakeServer_bad_version_witness :
    (HandshakeServer ⟨fun _ => none, fun b _ _ => b, fun b _ => b⟩ (NewRTMPConn (6 :: (List.replicate 1536 0xAB ++ List.replicate 1536 0)))).2 = HsEnd.versionInvalid ∧
    (HandshakeServer ⟨fun _ => none, fun b _ _ => b, fun b _ => b⟩ (NewRTMPConn (6 :: (List.replicate 1536 0xAB ++ List.replicate 1536 0)))).1.output = [] := by
  have h := HandshakeServer_bad_version ⟨fun _ => none, fun b _ _ => b, fun b _ => b⟩
    (NewRTMPConn (6 :: (List.replicate 1536 0xAB ++ List.replicate 1536 0))) 6 _ rfl (by decide)
  refine ⟨h.2.2.1 ?_, h.2.1⟩
  rw [List.length_append, List.length_replicate, List.length_replicate]
  decide

/-! ## Outbound SetChunkSize -/

/-- The payloads of the chunks of a well-formed message, for a chunk size that
is a nonzero `uint32`: the consecutive pieces of `n` bytes of `Data`. -/
theorem writeChunk_pieces (cs : ChunkStream) (n : Nat)
    (hlen : cs.Data.length = cs.Length) (h1 : 1 ≤ cs.Length) (hmax : cs.Length ≤ 0xFFFFFF)
    (hn : 1 ≤ n) (hn32 : n < 2 ^ 32) :
    (writeChunk cs n).status = WriteEnd.ok ∧
    (writeChunk cs n).chunks.map Chunk.payload =
      (List.range ((cs.Length + n - 1) / n)).map (fun j => (cs.Data.drop (j * n)).take n) := by
  obtain ⟨f, hf⟩ := writeChunk_chunks cs n hlen h1 hmax hn hn32
  have hc : (cs.Length + n - 1) / n = (cs.Length - 1) / n + 1 := by
    have : cs.Length + n - 1 = cs.Length - 1 + n := by omega
    rw [this, Nat.add_div_right _ (by omega : 0 < n)]
  rw [hf, hc]
  refine ⟨rfl, ?_⟩
  simp only [List.map_map]
  rfl

/-- C13: for a chunk stream with `TypeID = 1` whose payload starts with the 4
bytes `a b c d` of the value `N >= 1`, `Write` sets `writeMaxChunkSize` to `N`
and writes what `writeChunk` writes for that very message at chunk size `N`
(for a well-formed message: `ceil(L/N)` chunks that carry the consecutive
pieces of `N` bytes of `Data`); for a chunk stream with another `TypeID`,
`Write` leaves `writeMaxChunkSize` unchanged and writes what `writeChunk` writes
at the current `writeMaxChunkSize`. -/
theorem Write_set_chunk_size (c : RTMPConn) (cs : ChunkStream) :
    (∀ (a b c' d : Nat) (rest : List Nat), cs.TypeID = 1 →
      cs.Data = a :: b :: c' :: d :: rest →
      a < 256 → b < 256 → c' < 256 → d < 256 →
      1 ≤ a * 16777216 + b * 65536 + c' * 256 + d →
      ∃ c2 w, Write c cs = some (c2, w) ∧
        c2.writeMaxChunkSize = a * 16777216 + b * 65536 + c' * 256 + d ∧
        w = writeChunk cs (a * 16777216 + b * 65536 + c' * 256 + d) ∧
        c2.output = c.output ++ w.wire ∧
        (cs.Data.length = cs.Length → cs.Length ≤ 0xFFFFFF →
          w.status = WriteEnd.ok ∧
          w.chunks.map Chunk.payload =
            (List.range ((cs.Length + (a * 16777216 + b * 65536 + c' * 256 + d) - 1) /
                (a * 16777216 + b * 65536 + c' * 256 + d))).map
              (fun j => (cs.Data.drop (j * (a * 16777216 + b * 65536 + c' * 256 + d))).take
                (a * 16777216 + b * 65536 + c' * 256 + d)))) ∧
    (cs.TypeID ≠ 1 →
      ∃ c2 w, Write c cs = some (c2, w) ∧
        c2.writeMaxChunkSize = c.writeMaxChunkSize ∧
        w = writeChunk cs c.writeMaxChunkSize ∧
        c2.output = c.output ++ w.wire) := by
  constructor
  · intro a b c' d rest hty hdata ha hb hc hd hN
    generalize hNe : a * 16777216 + b * 65536 + c' * 256 + d = N at *
    have hU : U32BE cs.Data = N := by
      rw [hdata, ← hNe]
      simp only [U32BE, List.take, UBE_four]
    have hl : ¬ cs.Data.length < 4 := by rw [hdata]; simp
    have hty' : cs.TypeID = MsgTypeIDSetChunkSize := hty
    refine ⟨{ c with writeMaxChunkSize := N, output := c.output ++ (writeChunk cs N).wire },
      writeChunk cs N, ?_, rfl, rfl, rfl, ?_⟩
    · unfold Write
      rw [if_pos hty', if_neg hl]
      simp only [hU]
    · intro hlen hmax
      have h4 : 4 ≤ cs.Data.length := by rw [hdata]; simp
      exact writeChunk_pieces cs N hlen (by omega) hmax hN (by omega)
  · intro hty
    have hty' : ¬ cs.TypeID = MsgTypeIDSetChunkSize := hty
    refine ⟨{ c with output := c.output ++ (writeChunk cs c.writeMaxChunkSize).wire },
      writeChunk cs c.writeMaxChunkSize, ?_, rfl, rfl, rfl⟩
    unfold Write
    rw [if_neg hty']

/-- Witness of C13: on a fresh connection (chunk size 128), SetChunkSize(2) goes
out as two chunks of 2 payload bytes and leaves `writeMaxChunkSize = 2`; a
command leaves it at 128. -/
theorem Write_set_chunk_size_witness :
    (∃ c2 w, Write (NewRTMPConn []) { CSID := 2, TypeID := 1, Length := 4, Data := [0, 0, 0, 2] } = some (c2, w) ∧
      c2.writeMaxChunkSize = 2 ∧ w.status = WriteEnd.ok ∧
      w.chunks.map Chunk.payload = [[0, 0], [0, 2]]) ∧
    (∃ c2 w, Write (NewRTMPConn []) { CSID := 3, TypeID := 20, Length := 4, Data := [0, 0, 0, 2] } = some (c2, w) ∧
      c2.writeMaxChunkSize = 128 ∧ w = writeChunk { CSID := 3, TypeID := 20, Length := 4, Data := [0, 0, 0, 2] } 128) := by
  constructor
  · obtain ⟨c2, w, h1, h2, -, -, h5⟩ := (Write_set_chunk_size (NewRTMPConn [])
      { CSID := 2, TypeID := 1, Length := 4, Data := [0, 0, 0, 2] }).1 0 0 0 2 [] rfl rfl
      (by decide) (by decide) (by decide) (by decide) (by decide)
    obtain ⟨h6, h7⟩ := h5 rfl (by decide)
    exact ⟨c2, w, h1, h2, h6, by rw [h7]; decide⟩
  · obtain ⟨c2, w, h1, h2, h3, -⟩ := (Write_set_chunk_size (NewRTMPConn [])
      { CSID := 3, TypeID := 20, Length := 4, Data := [0, 0, 0, 2] }).2 (by decide)
    exact ⟨c2, w, h1, h2, h3⟩

/-! ## Format 1 headers -/

/-- The decoder's format 1 header step on seven bytes without the escape value
in the timestamp field: the field is the delta, added to the timestamp. -/
theorem readMessageHeader_fmt1_plain (cs0 : ChunkStream) (a b c d e f g : Nat)
    (rest : List Nat) (hne : a * 65536 + b * 256 + c ≠ 16777215) :
    readMessageHeader 1 cs0 (a :: b :: c :: d :: e :: f :: g :: rest) =
      some (({ cs0 with Format := 1, Length := d * 65536 + e * 256 + f, TypeID := g,
                        useExtendTimeStamp := false,
                        timeDelta := a * 65536 + b * 256 + c,
                        Timestamp := u32 (cs0.Timestamp + (a * 65536 + b * 256 + c)) }).initData,
            rest) := by
  have rd7 : readData 7 (a :: b :: c :: d :: e :: f :: g :: rest) =
      some ([a, b, c, d, e, f, g], rest) :=
    readData_append_of_length 7 [a, b, c, d, e, f, g] rest rfl
  simp only [readMessageHeader, rd7]
  simp only [List.take, List.drop, List.getD_cons_succ, List.getD_cons_zero, U24BE,
    UBE_three, hne, if_false]

/-- The decoder's format 1 header step on seven bytes with the escape value in
the timestamp field, followed by the four bytes `w x y z` of the extended
field: the delta kept is the escape value, and the timestamp is the extended
value plus the escape value; the timestamp before the chunk is dropped. -/
theorem readMessageHeader_fmt1_extended (cs0 : ChunkStream) (a b c d e f g w x y z : Nat)
    (rest : List Nat) (heq : a * 65536 + b * 256 + c = 16777215) :
    readMessageHeader 1 cs0 (a :: b :: c :: d :: e :: f :: g :: w :: x :: y :: z :: rest) =
      some (({ cs0 with Format := 1, Length := d * 65536 + e * 256 + f, TypeID := g,
                        useExtendTimeStamp := true,
                        timeDelta := a * 65536 + b * 256 + c,
                        Timestamp := u32 (w * 16777216 + x * 65536 + y * 256 + z +
                                          (a * 65536 + b * 256 + c)) }).initData,
            rest) := by
  have rd7 : readData 7 (a :: b :: c :: d :: e :: f :: g :: w :: x :: y :: z :: rest) =
      some ([a, b, c, d, e, f, g], w :: x :: y :: z :: rest) :=
    readData_append_of_length 7 [a, b, c, d, e, f, g] _ rfl
  have rd4 : readData 4 (w :: x :: y :: z :: rest) = some ([w, x, y, z], rest) :=
    readData_append_of_length 4 [w, x, y, z] rest rfl
  simp only [readMessageHeader, rd7]
  simp only [List.take, List.drop, List.getD_cons_succ, List.getD_cons_zero, U24BE, U32BE,
    UBE_three, UBE_four, heq, if_true, rd4]

/-- C15, the failing input: a fresh decoder reads a format 0 chunk with
timestamp 1000 on CSID 3, then the format 1 chunk
`43 FF FF FF 00 00 02 09 01 00 00 00 BB CC` on the same CSID, whose extended
field is `e = 0x01000000`.  After the second call `timeDelta` is `0xFFFFFF`,
not `e`, and `Timestamp` is `e + 0xFFFFFF = 0x01FFFFFF`, not
`1000 + e = 0x010003E8`; the flag, `Length`, `TypeID` and `StreamID` are as
described.  With the field `00 00 05` below the escape value the same call
gives `timeDelta = 5` and `Timestamp = 1005`. -/
theorem ReadChunk_fmt1_extended_delta :
    (ReadChunk (freshDecoder [0x03, 0, 3, 0xE8, 0, 0, 1, 8, 1, 0, 0, 0, 0xAA,
        0x43, 0xFF, 0xFF, 0xFF, 0, 0, 2, 9, 0x01, 0, 0, 0, 0xBB, 0xCC] 128)).map
        (fun r => (r.1.Timestamp, r.1.StreamID, r.1.finish, r.2.input)) =
      some (1000, 1, true, [0x43, 0xFF, 0xFF, 0xFF, 0, 0, 2, 9, 0x01, 0, 0, 0, 0xBB, 0xCC]) ∧
    ((ReadChunk (freshDecoder [0x03, 0, 3, 0xE8, 0, 0, 1, 8, 1, 0, 0, 0, 0xAA,
        0x43, 0xFF, 0xFF, 0xFF, 0, 0, 2, 9, 0x01, 0, 0, 0, 0xBB, 0xCC] 128)).bind
        (fun r => ReadChunk r.2)).map
        (fun r => (r.1.timeDelta, r.1.Timestamp, r.1.useExtendTimeStamp)) =
      some (0xFFFFFF, 0x01FFFFFF, true) ∧
    ((ReadChunk (freshDecoder [0x03, 0, 3, 0xE8, 0, 0, 1, 8, 1, 0, 0, 0, 0xAA,
        0x43, 0xFF, 0xFF, 0xFF, 0, 0, 2, 9, 0x01, 0, 0, 0, 0xBB, 0xCC] 128)).bind
        (fun r => ReadChunk r.2)).map
        (fun r => (r.1.Length, r.1.TypeID, r.1.StreamID, r.1.Data, r.2.input)) =
      some (2, 9, 1, [0xBB, 0xCC], []) ∧
    ((ReadChunk (freshDecoder [0x03, 0, 3, 0xE8, 0, 0, 1, 8, 1, 0, 0, 0, 0xAA,
        0x43, 0, 0, 5, 0, 0, 2, 9, 0xBB, 0xCC] 128)).bind
        (fun r => ReadChunk r.2)).map
        (fun r => (r.1.timeDelta, r.1.Timestamp, r.1.useExtendTimeStamp, r.1.Data, r.2.input)) =
      some (5, 1005, false, [0xBB, 0xCC], []) := by
  refine ⟨by decide, by decide, by decide, by decide⟩

/-! ## Extended timestamp on format 3 chunks -/

/-- C16, the failing input: a fresh decoder with `readMaxChunkSize = 1` reads
the format 0 chunk `03 FF FF FF 00 00 02 08 01 00 00 00 01 00 00 00 AA` (a
2-byte message in extended-timestamp mode), then the format 3 chunk
`C3 01 00 00 00 BB` on the same CSID while `remain = 1`.  The second call
reads no extended field: it stores `01`, the first byte of the field, into
`Data[1]`, reports the message complete and leaves `00 00 00 BB` unread.
When the chunk starts a new message (`remain = 0`, second input, a 1-byte
message and `readMaxChunkSize = 128`) the four bytes are read as the
timestamp and `Data` is the payload byte. -/
theorem ReadChunk_fmt3_extended_field :
    (ReadChunk (freshDecoder [0x03, 0xFF, 0xFF, 0xFF, 0, 0, 2, 8, 1, 0, 0, 0, 0x01, 0, 0, 0, 0xAA,
        0xC3, 0x01, 0, 0, 0, 0xBB] 1)).map
        (fun r => (r.1.useExtendTimeStamp, r.1.remain, r.1.Data, r.2.input)) =
      some (true, 1, [0xAA, 0], [0xC3, 0x01, 0, 0, 0, 0xBB]) ∧
    ((ReadChunk (freshDecoder [0x03, 0xFF, 0xFF, 0xFF, 0, 0, 2, 8, 1, 0, 0, 0, 0x01, 0, 0, 0, 0xAA,
        0xC3, 0x01, 0, 0, 0, 0xBB] 1)).bind
        (fun r => ReadChunk r.2)).map
        (fun r => (r.1.useExtendTimeStamp, r.1.remain, r.1.finish, r.1.Data, r.2.input)) =
      some (true, 0, true, [0xAA, 0x01], [0, 0, 0, 0xBB]) ∧
    ((ReadChunk (freshDecoder [0x03, 0xFF, 0xFF, 0xFF, 0, 0, 1, 8, 1, 0, 0, 0, 0x01, 0, 0, 0, 0xAA,
        0xC3, 0x02, 0, 0, 0, 0xBB] 128)).bind
        (fun r => ReadChunk r.2)).map
        (fun r => (r.1.useExtendTimeStamp, r.1.Timestamp, r.1.finish, r.1.Data, r.2.input)) =
      some (true, 0x02000000, true, [0xBB], []) := by
  decide

/-! ## The decoder's payload step -/

theorem readData_some (n : Nat) (input d rest : List Nat)
    (h : readData n input = some (d, rest)) : input = d ++ rest ∧ d.length = n := by
  unfold readData at h
  split_ifs at h with hn
  simp only [Option.some.injEq, Prod.mk.injEq] at h
  obtain ⟨rfl, rfl⟩ := h
  exact ⟨(List.take_append_drop n input).symm, List.length_take_of_le hn⟩

/-- A payload step that succeeds, on a chunk stream whose `index` and `remain`
are in the `uint32` range. -/
theorem readPayload_some (rmcs : Nat) (cs cs' : ChunkStream) (input rest : List Nat)
    (hi : cs.index < 2 ^ 32) (hr : cs.remain < 2 ^ 32)
    (h : readPayload rmcs cs input = some (cs', rest)) :
    ∃ bytes, input = bytes ++ rest ∧ bytes.length = min cs.remain rmcs ∧
      cs.index + bytes.length ≤ cs.Data.length ∧
      cs' = { cs with Data := cs.Data.take cs.index ++ bytes ++
                                cs.Data.drop (cs.index + bytes.length),
                      index := cs.index + bytes.length,
                      remain := cs.remain - bytes.length,
                      finish := if cs.remain - bytes.length = 0 then true else cs.finish } := by
  unfold readPayload at h
  have hsize : (if cs.remain > rmcs then rmcs else cs.remain) = min cs.remain rmcs := by
    split_ifs <;> omega
  rw [hsize] at h
  generalize hk : min cs.remain rmcs = k at h
  have hkr : k ≤ cs.remain := by omega
  have hu : u32 k = k := by unfold u32; omega
  have hsub : sub32 cs.remain k = cs.remain - k := sub32_of_le _ _ hkr hr
  simp only [hu, hsub] at h
  by_cases hb : cs.index ≤ u32 (cs.index + k) ∧ u32 (cs.index + k) ≤ cs.Data.length
  · rw [if_pos hb] at h
    obtain ⟨hb1, hb2⟩ := hb
    have hstop : u32 (cs.index + k) = cs.index + k := by
      unfold u32 at hb1 ⊢
      by_cases hlt : cs.index + k < 2 ^ 32
      · omega
      · exfalso
        have : (cs.index + k) % 2 ^ 32 = cs.index + k - 2 ^ 32 := by omega
        omega
    rw [hstop] at h hb2
    rw [Nat.add_sub_cancel_left] at h
    cases hrd : readData k input with
    | none => rw [hrd] at h; exact absurd h (by simp)
    | some r =>
      obtain ⟨buf, rest'⟩ := r
      rw [hrd] at h
      simp only [Option.some.injEq, Prod.mk.injEq] at h
      obtain ⟨h1, rfl⟩ := h
      obtain ⟨hin, hlen⟩ := readData_some k input buf rest' hrd
      refine ⟨buf, hin, hlen, by omega, ?_⟩
      rw [← h1, hlen]
  · rw [if_neg hb] at h
    exact absurd h (by simp)

/-- A `ReadChunk` call that succeeds is a basic header step, a message header
step on the table's chunk stream (a new one when the table has none) and a
payload step, and stores the chunk stream in the table. -/
theorem ReadChunk_some (c c' : RTMPConn) (cs : ChunkStream) (h : ReadChunk c = some (cs, c')) :
    ∃ format csid in1 csh in2,
      readBasicHeader c.input = some (format, csid, in1) ∧
      readMessageHeader format ((c.csidMap.lookup csid).getD { CSID := csid }) in1 =
        some (csh, in2) ∧
      readPayload c.readMaxChunkSize csh in2 = some (cs, c'.input) ∧
      c' = { c with input := c'.input, csidMap := csidMapSet c.csidMap csid cs } := by
  unfold ReadChunk at h
  cases hb : readBasicHeader c.input with
  | none => rw [hb] at h; exact absurd h (by simp)
  | some r =>
    obtain ⟨format, csid, in1⟩ := r
    rw [hb] at h
    simp only at h
    have hm : ∀ cs0 csh c2,
        (match readMessageHeader format cs0 in1 with
          | none => none
          | some (cs, input) =>
            match readPayload c.readMaxChunkSize cs input with
            | none => none
            | some (cs, input) =>
              some (cs, { c with input := input, csidMap := csidMapSet c.csidMap csid cs })) =
          some (csh, c2) →
        ∃ csh' in2', readMessageHeader format cs0 in1 = some (csh', in2') ∧
          readPayload c.readMaxChunkSize csh' in2' = some (csh, c2.input) ∧
          c2 = { c with input := c2.input, csidMap := csidMapSet c.csidMap csid csh } := by
      intro cs0 csh c2 h
      cases hh : readMessageHeader format cs0 in1 with
      | none => rw [hh] at h; exact absurd h (by simp)
      | some r2 =>
        obtain ⟨csh', in2'⟩ := r2
        rw [hh] at h
        simp only at h
        cases hp : readPayload c.readMaxChunkSize csh' in2' with
        | none => rw [hp] at h; exact absurd h (by simp)
        | some r3 =>
          obtain ⟨cs3, in3⟩ := r3
          rw [hp] at h
          simp only [Option.some.injEq, Prod.mk.injEq] at h
          obtain ⟨rfl, rfl⟩ := h
          exact ⟨csh', in2', rfl, hp, rfl⟩
    cases hl : c.csidMap.lookup csid with
    | none =>
      rw [hl] at h
      obtain ⟨csh, in2, h1, h2, h3⟩ := hm _ _ _ h
      exact ⟨format, csid, in1, csh, in2, rfl, by rw [hl]; exact h1, h2, h3⟩
    | some cs0 =>
      rw [hl] at h
      obtain ⟨csh, in2, h1, h2, h3⟩ := hm _ _ _ h
      exact ⟨format, csid, in1, csh, in2, rfl, by rw [hl]; exact h1, h2, h3⟩

/-- C18: the payload step of a `ReadChunk` call that succeeds.  With `csh` the
chunk stream after the header has been processed (`index` and `remain` in the
`uint32` range) and `in2` the bytes the reader holds at that point, the call
takes exactly `k = min(remain, readMaxChunkSize)` bytes off the reader, the
slice `Data[i .. i+k)` is in bounds and holds those bytes afterwards, the rest
of `Data` is as before, `index` is `i + k`, `remain` is `r - k`, `finish` is
true when the new `remain` is 0, and the table holds the chunk stream
returned.  It holds for every `readMaxChunkSize`, 0 included. -/
theorem ReadChunk_payload_step (c c' : RTMPConn) (cs csh : ChunkStream) (format csid : Nat)
    (in1 in2 : List Nat)
    (hb : readBasicHeader c.input = some (format, csid, in1))
    (hh : readMessageHeader format ((c.csidMap.lookup csid).getD { CSID := csid }) in1 =
      some (csh, in2))
    (hi : csh.index < 2 ^ 32) (hr : csh.remain < 2 ^ 32)
    (hok : ReadChunk c = some (cs, c')) :
    ∃ bytes, in2 = bytes ++ c'.input ∧
      bytes.length = min csh.remain c.readMaxChunkSize ∧
      csh.index + bytes.length ≤ csh.Data.length ∧
      cs.Data = csh.Data.take csh.index ++ bytes ++ csh.Data.drop (csh.index + bytes.length) ∧
      (cs.Data.drop csh.index).take bytes.length = bytes ∧
      cs.index = csh.index + bytes.length ∧
      cs.remain = csh.remain - bytes.length ∧
      (cs.remain = 0 → cs.finish = true) ∧
      c'.csidMap.lookup csid = some cs := by
  obtain ⟨format', csid', in1', csh', in2', hb', hh', hp, hc'⟩ := ReadChunk_some c c' cs hok
  rw [hb] at hb'
  simp only [Option.some.injEq, Prod.mk.injEq] at hb'
  obtain ⟨rfl, rfl, rfl⟩ := hb'
  rw [hh] at hh'
  simp only [Option.some.injEq, Prod.mk.injEq] at hh'
  obtain ⟨rfl, rfl⟩ := hh'
  obtain ⟨bytes, hin, hlen, hbound, hcs⟩ :=
    readPayload_some c.readMaxChunkSize csh cs in2 c'.input hi hr hp
  have hD : cs.Data =
      csh.Data.take csh.index ++ bytes ++ csh.Data.drop (csh.index + bytes.length) := by
    rw [hcs]
  have hI : cs.index = csh.index + bytes.length := by rw [hcs]
  have hR : cs.remain = csh.remain - bytes.length := by rw [hcs]
  have hF : cs.finish = if csh.remain - bytes.length = 0 then true else csh.finish := by
    rw [hcs]
  have htake : (csh.Data.take csh.index).length = csh.index :=
    List.length_take_of_le (by omega)
  refine ⟨bytes, hin, hlen, hbound, hD, ?_, hI, hR, ?_, ?_⟩
  · rw [hD, List.append_assoc, List.drop_append_of_le_length (by omega),
      List.drop_of_length_le (by omega), List.nil_append, List.take_left]
  · intro h0
    rw [hF, if_pos (by omega)]
  · rw [hc']
    exact lookup_csidMapSet _ _ _

/-- Witness of C18: a fresh decoder with `readMaxChunkSize = 2` reads the
first chunk of a 3-byte message (two bytes into `Data[0 .. 2)`, `remain = 1`),
and a fresh decoder reads a message declared with `Length = 0`, which
completes at once with an empty payload. -/
theorem ReadChunk_payload_step_witness :
    (∃ bytes, [0xAA, 0xBB, 0xC3, 0xCC] = bytes ++ [0xC3, 0xCC] ∧
      bytes.length = 2 ∧
      (({ CSID := 3, TypeID := 8, StreamID := 1, Length := 3, index := 2, remain := 1,
          Data := [0xAA, 0xBB, 0] } : ChunkStream).Data.drop 0).take bytes.length = bytes) ∧
    (ReadChunk (freshDecoder [0x03, 0, 0, 0, 0, 0, 0, 8, 1, 0, 0, 0] 128)).map
        (fun r => (r.1.finish, r.1.remain, r.1.Data, r.2.input)) = some (true, 0, [], []) ∧
    (∃ bytes : List Nat, [] = bytes ++ [] ∧ bytes.length = 0 ∧
      (0 = 0 → ({ CSID := 3, TypeID := 8, StreamID := 1, finish := true } : ChunkStream).finish =
        true)) := by
  refine ⟨?_, by decide, ?_⟩
  · obtain ⟨bytes, h1, h2, -, -, h5, -, -, -, -⟩ := ReadChunk_payload_step
      (freshDecoder [0x03, 0, 0, 0, 0, 0, 3, 8, 1, 0, 0, 0, 0xAA, 0xBB, 0xC3, 0xCC] 2)
      { freshDecoder [0xC3, 0xCC] 2 with
        csidMap := [(3, { CSID := 3, TypeID := 8, StreamID := 1, Length := 3, index := 2,
                          remain := 1, Data := [0xAA, 0xBB, 0] })] }
      { CSID := 3, TypeID := 8, StreamID := 1, Length := 3, index := 2, remain := 1,
        Data := [0xAA, 0xBB, 0] }
      { CSID := 3, TypeID := 8, StreamID := 1, Length := 3, index := 0, remain := 3,
        Data := [0, 0, 0] }
      0 3 [0, 0, 0, 0, 0, 3, 8, 1, 0, 0, 0, 0xAA, 0xBB, 0xC3, 0xCC] [0xAA, 0xBB, 0xC3, 0xCC]
      (by decide) (by decide) (by decide) (by decide) (by decide)
    exact ⟨bytes, h1, h2, h5⟩
  · obtain ⟨bytes, h1, h2, -, -, -, -, -, h8, -⟩ := ReadChunk_payload_step
      (freshDecoder [0x03, 0, 0, 0, 0, 0, 0, 8, 1, 0, 0, 0] 128)
      { freshDecoder [] 128 with
        csidMap := [(3, { CSID := 3, TypeID := 8, StreamID := 1, finish := true })] }
      { CSID := 3, TypeID := 8, StreamID := 1, finish := true }
      { CSID := 3, TypeID := 8, StreamID := 1 }
      0 3 [0, 0, 0, 0, 0, 0, 8, 1, 0, 0, 0] []
      (by decide) (by decide) (by decide) (by decide) (by decide)
    exact ⟨bytes, h1, h2, h8⟩

/-! ## Format 3 chunks -/

/-- A payload step that succeeds changes `index`, `remain`, `finish` and the
bytes of `Data` from `index` on, and nothing else. -/
theorem readPayload_keeps (rmcs : Nat) (cs cs' : ChunkStream) (input rest : List Nat)
    (h : readPayload rmcs cs input = some (cs', rest)) :
    cs'.Format = cs.Format ∧ cs'.CSID = cs.CSID ∧ cs'.Timestamp = cs.Timestamp ∧
    cs'.timeDelta = cs.timeDelta ∧ cs'.Length = cs.Length ∧ cs'.TypeID = cs.TypeID ∧
    cs'.StreamID = cs.StreamID ∧ cs'.useExtendTimeStamp = cs.useExtendTimeStamp ∧
    cs'.Data.take cs.index = cs.Data.take cs.index ∧ cs'.Data.length = cs.Data.length := by
  unfold readPayload at h
  simp only at h
  generalize hk : (if cs.remain > rmcs then rmcs else cs.remain) = k at h
  generalize hs : u32 (cs.index + u32 k) = stop at h
  by_cases hb : cs.index ≤ stop ∧ stop ≤ cs.Data.length
  · rw [if_pos hb] at h
    obtain ⟨hb1, hb2⟩ := hb
    cases hrd : readData (stop - cs.index) input with
    | none => rw [hrd] at h; exact absurd h (by simp)
    | some r =>
      obtain ⟨buf, rest'⟩ := r
      rw [hrd] at h
      simp only [Option.some.injEq, Prod.mk.injEq] at h
      obtain ⟨h1, -⟩ := h
      obtain ⟨-, hlen⟩ := readData_some _ input buf rest' hrd
      have htake : (cs.Data.take cs.index).length = cs.index :=
        List.length_take_of_le (by omega)
      have hD : cs'.Data = cs.Data.take cs.index ++ buf ++ cs.Data.drop stop := by rw [← h1]
      refine ⟨by rw [← h1], by rw [← h1], by rw [← h1], by rw [← h1], by rw [← h1],
        by rw [← h1], by rw [← h1], by rw [← h1], ?_, ?_⟩
      · rw [hD, List.append_assoc, List.take_append_of_le_length (by omega),
          List.take_take, Nat.min_self]
      · rw [hD, List.length_append, List.length_append, htake, hlen, List.length_drop]
        omega
  · rw [if_neg hb] at h
    exact absurd h (by simp)

/-- C17: a format 3 chunk on a CSID whose chunk stream `cs` is in the table.
If `remain > 0`, the header step reads no byte and changes nothing, and a
call that succeeds returns the same `Timestamp`, `timeDelta`, `Length`,
`TypeID`, `StreamID` and the same prefix `Data[0 .. index)`.  If `remain = 0`,
the format stored is 1 or 2 and `useExtendTimeStamp` is false, the header step
reads no byte, sets `Timestamp` to `(Timestamp + timeDelta) mod 2^32` and
starts a message (`initData`: a buffer of `Length` zero bytes, `index = 0`,
`remain = Length`), and a call that succeeds returns that timestamp and a
`Data` of `Length` bytes. -/
theorem ReadChunk_fmt3_dispatch (c : RTMPConn) (cs : ChunkStream) (csid : Nat) (in1 : List Nat)
    (hb : readBasicHeader c.input = some (3, csid, in1))
    (hl : c.csidMap.lookup csid = some cs) :
    (cs.remain ≠ 0 →
      readMessageHeader 3 cs in1 = some (cs, in1) ∧
      ReadChunk c = (readPayload c.readMaxChunkSize cs in1).map
        (fun r => (r.1, { c with input := r.2, csidMap := csidMapSet c.csidMap csid r.1 })) ∧
      ∀ cs' c', ReadChunk c = some (cs', c') →
        cs'.Timestamp = cs.Timestamp ∧ cs'.timeDelta = cs.timeDelta ∧
        cs'.Length = cs.Length ∧ cs'.TypeID = cs.TypeID ∧ cs'.StreamID = cs.StreamID ∧
        cs'.Data.take cs.index = cs.Data.take cs.index) ∧
    (cs.remain = 0 → (cs.Format = 1 ∨ cs.Format = 2) → cs.useExtendTimeStamp = false →
      readMessageHeader 3 cs in1 =
        some (({ cs with Timestamp := u32 (cs.Timestamp + cs.timeDelta) }).initData, in1) ∧
      (({ cs with Timestamp := u32 (cs.Timestamp + cs.timeDelta) }).initData).index = 0 ∧
      (({ cs with Timestamp := u32 (cs.Timestamp + cs.timeDelta) }).initData).Data =
        List.replicate cs.Length 0 ∧
      ∀ cs' c', ReadChunk c = some (cs', c') →
        cs'.Timestamp = u32 (cs.Timestamp + cs.timeDelta) ∧ cs'.Length = cs.Length ∧
        cs'.Data.length = cs.Length) := by
  have key : ∀ cs' c', ReadChunk c = some (cs', c') → ∀ csh in2,
      readMessageHeader 3 cs in1 = some (csh, in2) →
      readPayload c.readMaxChunkSize csh in2 = some (cs', c'.input) := by
    intro cs' c' hok csh in2 hh
    obtain ⟨format', csid', in1', csh', in2', hb', hh', hp, -⟩ := ReadChunk_some c c' cs' hok
    rw [hb] at hb'
    simp only [Option.some.injEq, Prod.mk.injEq] at hb'
    obtain ⟨rfl, rfl, rfl⟩ := hb'
    rw [hl, Option.getD_some, hh] at hh'
    simp only [Option.some.injEq, Prod.mk.injEq] at hh'
    obtain ⟨rfl, rfl⟩ := hh'
    exact hp
  constructor
  · intro hrem
    have hh : readMessageHeader 3 cs in1 = some (cs, in1) := by
      simp only [readMessageHeader, hrem, if_false]
    refine ⟨hh, ?_, ?_⟩
    · unfold ReadChunk
      rw [hb]
      simp only [hl, hh]
      cases readPayload c.readMaxChunkSize cs in1 <;> rfl
    · intro cs' c' hok
      obtain ⟨-, -, h3, h4, h5, h6, h7, -, h9, -⟩ :=
        readPayload_keeps _ _ _ _ _ (key cs' c' hok cs in1 hh)
      exact ⟨h3, h4, h5, h6, h7, h9⟩
  · intro hrem hfmt hext
    have hf0 : cs.Format ≠ 0 := by omega
    have hh : readMessageHeader 3 cs in1 =
        some (({ cs with Timestamp := u32 (cs.Timestamp + cs.timeDelta) }).initData, in1) := by
      simp only [readMessageHeader, hrem, if_true, hf0, if_false, hfmt, hext]
      rfl
    refine ⟨hh, rfl, rfl, ?_⟩
    intro cs' c' hok
    obtain ⟨-, -, h3, -, h5, -, -, -, -, h10⟩ :=
      readPayload_keeps _ _ _ _ _ (key cs' c' hok _ in1 hh)
    refine ⟨h3, h5, ?_⟩
    rw [h10]
    exact List.length_replicate _ _

/-- Witness of C17: CSID 3 holds a 2-byte message with one byte received
(`remain = 1`) and the chunk `C3 BB` arrives; and CSID 3 holds a complete
1-byte message that came with a format 1 header and delta 40, and the chunk
`C3 CC` arrives: the timestamp goes from 1000 to 1040. -/
theorem ReadChunk_fmt3_dispatch_witness :
    (readMessageHeader 3 { Format := 0, CSID := 3, Timestamp := 1000, Length := 2, TypeID := 8, StreamID := 1, index := 1, remain := 1, Data := [0xAA, 0] } [0xBB] =
      some ({ Format := 0, CSID := 3, Timestamp := 1000, Length := 2, TypeID := 8, StreamID := 1, index := 1, remain := 1, Data := [0xAA, 0] }, [0xBB])) ∧
    (ReadChunk { freshDecoder [0xC3, 0xBB] 128 with csidMap := [(3, { Format := 0, CSID := 3, Timestamp := 1000, Length := 2, TypeID := 8, StreamID := 1, index := 1, remain := 1, Data := [0xAA, 0] })] }).map
      (fun r => (r.1.Timestamp, r.1.Length, r.1.Data, r.1.finish)) = some (1000, 2, [0xAA, 0xBB], true) ∧
    (readMessageHeader 3 { Format := 1, CSID := 3, Timestamp := 1000, timeDelta := 40, Length := 1, TypeID := 8, StreamID := 1, index := 1, remain := 0, finish := true, Data := [0xAA] } [0xCC] =
      some (({ Format := 1, CSID := 3, Timestamp := u32 (1000 + 40), timeDelta := 40, Length := 1, TypeID := 8, StreamID := 1, index := 1, remain := 0, finish := true, Data := [0xAA] } : ChunkStream).initData, [0xCC])) ∧
    (ReadChunk { freshDecoder [0xC3, 0xCC] 128 with csidMap := [(3, { Format := 1, CSID := 3, Timestamp := 1000, timeDelta := 40, Length := 1, TypeID := 8, StreamID := 1, index := 1, remain := 0, finish := true, Data := [0xAA] })] }).map
      (fun r => (r.1.Timestamp, r.1.Length, r.1.Data, r.1.finish)) = some (1040, 1, [0xCC], true) :=
  ⟨((ReadChunk_fmt3_dispatch
      { freshDecoder [0xC3, 0xBB] 128 with csidMap := [(3, { Format := 0, CSID := 3, Timestamp := 1000, Length := 2, TypeID := 8, StreamID := 1, index := 1, remain := 1, Data := [0xAA, 0] })] }
      { Format := 0, CSID := 3, Timestamp := 1000, Length := 2, TypeID := 8, StreamID := 1, index := 1, remain := 1, Data := [0xAA, 0] }
      3 [0xBB] (by decide) (by decide)).1 (by decide)).1,
   by decide,
   ((ReadChunk_fmt3_dispatch
      { freshDecoder [0xC3, 0xCC] 128 with csidMap := [(3, { Format := 1, CSID := 3, Timestamp := 1000, timeDelta := 40, Length := 1, TypeID := 8, StreamID := 1, index := 1, remain := 0, finish := true, Data := [0xAA] })] }
      { Format := 1, CSID := 3, Timestamp := 1000, timeDelta := 40, Length := 1, TypeID := 8, StreamID := 1, index := 1, remain := 0, finish := true, Data := [0xAA] }
      3 [0xCC] (by decide) (by decide)).2 (by decide) (by decide) (by decide)).1,
   by decide⟩

/-! ## The reassembly invariant -/

theorem UBE_foldl_lt (l : List Nat) (hb : ∀ b ∈ l, b < 256) (acc : Nat) :
    l.foldl (fun acc x => acc * 256 + x) acc < (acc + 1) * 256 ^ l.length := by
  induction l generalizing acc with
  | nil => simp
  | cons x xs ih =>
    have hx : x < 256 := hb x (List.mem_cons_self _ _)
    have h1 := ih (fun b hb' => hb b (List.mem_cons_of_mem _ hb')) (acc * 256 + x)
    rw [List.foldl_cons, List.length_cons, pow_succ]
    calc List.foldl (fun acc x => acc * 256 + x) (acc * 256 + x) xs
        < (acc * 256 + x + 1) * 256 ^ xs.length := h1
      _ ≤ ((acc + 1) * 256) * 256 ^ xs.length := Nat.mul_le_mul_right _ (by omega)
      _ = (acc + 1) * (256 ^ xs.length * 256) := by ring

/-- A 3-byte big-endian field is below `2^24`. -/
theorem U24BE_lt (l : List Nat) (hb : ∀ b ∈ l, b < 256) : U24BE l < 2 ^ 24 := by
  unfold U24BE UBE
  have h := UBE_foldl_lt (l.take 3) (fun b hb' => hb b (List.mem_of_mem_take hb')) 0
  have hlen : (l.take 3).length ≤ 3 := by rw [List.length_take]; omega
  have hpow : 256 ^ (l.take 3).length ≤ 256 ^ 3 := Nat.pow_le_pow_right (by decide) hlen
  have h256 : (256 : Nat) ^ 3 = 2 ^ 24 := by norm_num
  omega

theorem readData_suffix (n : Nat) (input d rest : List Nat)
    (h : readData n input = some (d, rest)) :
    List.IsSuffix rest input ∧ (∀ b ∈ d, b ∈ input) := by
  obtain ⟨hin, -⟩ := readData_some n input d rest h
  subst hin
  exact ⟨List.suffix_append _ _, fun b hb => List.mem_append_left _ hb⟩

theorem getRealCSID_suffix (csid : Nat) (input : List Nat) (csid' : Nat) (in1 : List Nat)
    (h : getRealCSID csid input = some (csid', in1)) : List.IsSuffix in1 input := by
  unfold getRealCSID at h
  by_cases h0 : csid = 0
  · rw [if_pos h0] at h
    cases hrd : readData 1 input with
    | none => rw [hrd] at h; exact absurd h (by simp)
    | some r =>
      obtain ⟨d, rest⟩ := r
      rw [hrd] at h
      simp only [Option.some.injEq, Prod.mk.injEq] at h
      obtain ⟨-, rfl⟩ := h
      exact (readData_suffix _ _ _ _ hrd).1
  · rw [if_neg h0] at h
    by_cases h1 : csid = 1
    · rw [if_pos h1] at h
      cases hrd : readData 2 input with
      | none => rw [hrd] at h; exact absurd h (by simp)
      | some r =>
        obtain ⟨d, rest⟩ := r
        rw [hrd] at h
        simp only [Option.some.injEq, Prod.mk.injEq] at h
        obtain ⟨-, rfl⟩ := h
        exact (readData_suffix _ _ _ _ hrd).1
    · rw [if_neg h1] at h
      simp only [Option.some.injEq, Prod.mk.injEq] at h
      obtain ⟨-, rfl⟩ := h
      exact List.suffix_refl _

theorem readBasicHeader_suffix (input : List Nat) (format csid : Nat) (in1 : List Nat)
    (h : readBasicHeader input = some (format, csid, in1)) : List.IsSuffix in1 input := by
  unfold readBasicHeader at h
  cases hrd : readData 1 input with
  | none => rw [hrd] at h; exact absurd h (by simp)
  | some r =>
    obtain ⟨d, rest⟩ := r
    rw [hrd] at h
    simp only at h
    cases hg : getRealCSID (u32 (d.getD 0 0) &&& 0x3f) rest with
    | none => rw [hg] at h; exact absurd h (by simp)
    | some r2 =>
      obtain ⟨csid2, in2⟩ := r2
      rw [hg] at h
      simp only [Option.some.injEq, Prod.mk.injEq] at h
      obtain ⟨-, -, rfl⟩ := h
      exact (getRealCSID_suffix _ _ _ _ hg).trans (readData_suffix _ _ _ _ hrd).1

theorem initData_inv (cs : ChunkStream) (hL : cs.Length < 2 ^ 24) :
    cs.initData.index + cs.initData.remain = cs.initData.Length ∧
    cs.initData.Data.length = cs.initData.Length ∧ cs.initData.Length < 2 ^ 24 := by
  refine ⟨?_, ?_, hL⟩
  · show 0 + cs.Length = cs.Length
    omega
  · show (List.replicate cs.Length 0).length = cs.Length
    exact List.length_replicate _ _

/-- The header step keeps the reassembly invariant, for input bytes below
256, and leaves a suffix of its input. -/
theorem readMessageHeader_inv (format : Nat) (cs csh : ChunkStream) (input in2 : List Nat)
    (hb : ∀ b ∈ input, b < 256)
    (hinv : cs.index + cs.remain = cs.Length ∧ cs.Data.length = cs.Length ∧ cs.Length < 2 ^ 24)
    (h : readMessageHeader format cs input = some (csh, in2)) :
    (csh.index + csh.remain = csh.Length ∧ csh.Data.length = csh.Length ∧
      csh.Length < 2 ^ 24) ∧
    List.IsSuffix in2 input := by
  have hfin : ∀ (X : ChunkStream) (r : List Nat), some (X.initData, r) = some (csh, in2) →
      X.Length < 2 ^ 24 → List.IsSuffix r input →
      (csh.index + csh.remain = csh.Length ∧ csh.Data.length = csh.Length ∧
        csh.Length < 2 ^ 24) ∧ List.IsSuffix in2 input := by
    intro X r he hX hr
    simp only [Option.some.injEq, Prod.mk.injEq] at he
    obtain ⟨rfl, rfl⟩ := he
    exact ⟨initData_inv X hX, hr⟩
  have hext : ∀ (rest : List Nat) (f : List Nat → ChunkStream),
      (match readData 4 rest with
        | none => none
        | some (data, input) => some ((f data).initData, input)) = some (csh, in2) →
      List.IsSuffix rest input → (∀ d, (f d).Length < 2 ^ 24) →
      (csh.index + csh.remain = csh.Length ∧ csh.Data.length = csh.Length ∧
        csh.Length < 2 ^ 24) ∧ List.IsSuffix in2 input := by
    intro rest f he hr hf
    cases hrd : readData 4 rest with
    | none => rw [hrd] at he; exact absurd he (by simp)
    | some r =>
      obtain ⟨d, rest'⟩ := r
      rw [hrd] at he
      exact hfin _ _ he (hf d) ((readData_suffix _ _ _ _ hrd).1.trans hr)
  unfold readMessageHeader at h
  split at h
  · cases hrd : readData 11 input with
    | none => rw [hrd] at h; exact absurd h (by simp)
    | some r =>
      obtain ⟨mh, rest⟩ := r
      rw [hrd] at h
      simp only at h
      obtain ⟨hsuf, hmem⟩ := readData_suffix _ _ _ _ hrd
      have hL : U24BE ((mh.drop 3).take 3) < 2 ^ 24 :=
        U24BE_lt _ (fun b hb' => hb b (hmem b (List.mem_of_mem_drop (List.mem_of_mem_take hb'))))
      by_cases ht : U24BE (mh.take 3) = 0xffffff
      · rw [if_pos ht] at h
        exact hext rest _ h hsuf (fun _ => hL)
      · rw [if_neg ht] at h
        exact hfin _ _ h hL hsuf
  · cases hrd : readData 7 input with
    | none => rw [hrd] at h; exact absurd h (by simp)
    | some r =>
      obtain ⟨mh, rest⟩ := r
      rw [hrd] at h
      simp only at h
      obtain ⟨hsuf, hmem⟩ := readData_suffix _ _ _ _ hrd
      have hL : U24BE ((mh.drop 3).take 3) < 2 ^ 24 :=
        U24BE_lt _ (fun b hb' => hb b (hmem b (List.mem_of_mem_drop (List.mem_of_mem_take hb'))))
      by_cases ht : U24BE (mh.take 3) = 0xffffff
      · rw [if_pos ht] at h
        exact hext rest _ h hsuf (fun _ => hL)
      · rw [if_neg ht] at h
        exact hfin _ _ h hL hsuf
  · cases hrd : readData 3 input with
    | none => rw [hrd] at h; exact absurd h (by simp)
    | some r =>
      obtain ⟨mh, rest⟩ := r
      rw [hrd] at h
      simp only at h
      obtain ⟨hsuf, hmem⟩ := readData_suffix _ _ _ _ hrd
      by_cases ht : U24BE (mh.take 3) = 0xffffff
      · rw [if_pos ht] at h
        exact hext rest _ h hsuf (fun _ => hinv.2.2)
      · rw [if_neg ht] at h
        exact hfin _ _ h hinv.2.2 hsuf
  · by_cases hrem : cs.remain = 0
    · rw [if_pos hrem] at h
      by_cases hf0 : cs.Format = 0
      · rw [if_pos hf0] at h
        cases hx : cs.useExtendTimeStamp with
        | true =>
          rw [hx] at h
          simp only [if_true] at h
          exact hext input _ h (List.suffix_refl _) (fun _ => hinv.2.2)
        | false =>
          rw [hx] at h
          simp only [Bool.false_eq_true, if_false] at h
          exact hfin _ _ h hinv.2.2 (List.suffix_refl _)
      · rw [if_neg hf0] at h
        by_cases hf12 : cs.Format = 1 ∨ cs.Format = 2
        · rw [if_pos hf12] at h
          cases hx : cs.useExtendTimeStamp with
          | true =>
            rw [hx] at h
            simp only [if_true] at h
            exact hext input _ h (List.suffix_refl _) (fun _ => hinv.2.2)
          | false =>
            rw [hx] at h
            simp only [Bool.false_eq_true, if_false] at h
            exact hfin _ _ h hinv.2.2 (List.suffix_refl _)
        · rw [if_neg hf12] at h
          exact hfin _ _ h hinv.2.2 (List.suffix_refl _)
    · rw [if_neg hrem] at h
      simp only [Option.some.injEq, Prod.mk.injEq] at h
      obtain ⟨rfl, rfl⟩ := h
      exact ⟨hinv, List.suffix_refl _⟩
  · exact absurd h (by simp)

/-- The payload step keeps the reassembly invariant and leaves a suffix of its
input; under the invariant its slice is in bounds. -/
theorem readPayload_inv (rmcs : Nat) (cs cs' : ChunkStream) (input rest : List Nat)
    (hinv : cs.index + cs.remain = cs.Length ∧ cs.Data.length = cs.Length ∧ cs.Length < 2 ^ 24)
    (h : readPayload rmcs cs input = some (cs', rest)) :
    (cs'.index + cs'.remain = cs'.Length ∧ cs'.Data.length = cs'.Length ∧
      cs'.Length < 2 ^ 24) ∧
    List.IsSuffix rest input := by
  obtain ⟨h1, h2, h3⟩ := hinv
  have hi : cs.index < 2 ^ 32 := by omega
  have hr : cs.remain < 2 ^ 32 := by omega
  obtain ⟨-, -, -, -, hL, -, -, -, -, hD⟩ := readPayload_keeps rmcs cs cs' input rest h
  obtain ⟨bytes, hin, hlen, -, hcs⟩ := readPayload_some rmcs cs cs' input rest hi hr h
  have hI : cs'.index = cs.index + bytes.length := by rw [hcs]
  have hR : cs'.remain = cs.remain - bytes.length := by rw [hcs]
  refine ⟨⟨?_, ?_, ?_⟩, ?_⟩
  · rw [hI, hR, hL]; omega
  · rw [hD, hL]; exact h2
  · rw [hL]; exact h3
  · rw [hin]; exact List.suffix_append _ _

theorem mem_csidMapSet (m : List (Nat × ChunkStream)) (k : Nat) (v : ChunkStream)
    (e : Nat × ChunkStream) (h : e ∈ csidMapSet m k v) : e = (k, v) ∨ e ∈ m := by
  unfold csidMapSet at h
  rcases List.mem_cons.mp h with h | h
  · exact Or.inl h
  · exact Or.inr (List.mem_of_mem_filter h)

theorem lookup_mem (m : List (Nat × ChunkStream)) (k : Nat) (v : ChunkStream)
    (h : m.lookup k = some v) : (k, v) ∈ m := by
  induction m with
  | nil => simp [List.lookup] at h
  | cons x xs ih =>
    obtain ⟨a, b⟩ := x
    by_cases hk : k = a
    · subst hk
      simp only [List.lookup, beq_self_eq_true, Option.some.injEq] at h
      subst h
      exact List.mem_cons_self _ _
    · have hne : (k == a) = false := by simpa using hk
      simp only [List.lookup, hne] at h
      exact List.mem_cons_of_mem _ (ih h)

/-- The chunk stream a `ReadChunk` call works on satisfies the invariant when
every table entry does. -/
theorem lookup_getD_inv (m : List (Nat × ChunkStream)) (csid : Nat)
    (hinv : ∀ e ∈ m, e.2.index + e.2.remain = e.2.Length ∧ e.2.Data.length = e.2.Length ∧
      e.2.Length < 2 ^ 24) :
    ((m.lookup csid).getD { CSID := csid }).index + ((m.lookup csid).getD { CSID := csid }).remain =
        ((m.lookup csid).getD { CSID := csid }).Length ∧
    ((m.lookup csid).getD { CSID := csid }).Data.length =
        ((m.lookup csid).getD { CSID := csid }).Length ∧
    ((m.lookup csid).getD { CSID := csid }).Length < 2 ^ 24 := by
  cases hl : m.lookup csid with
  | none => exact ⟨rfl, rfl, show (0 : Nat) < 2 ^ 24 by decide⟩
  | some cs => exact hinv _ (lookup_mem m csid cs hl)

/-- One `ReadChunk` call that succeeds keeps the invariant of the table. -/
theorem ReadChunk_inv (c c' : RTMPConn) (cs : ChunkStream)
    (hb : ∀ b ∈ c.input, b < 256)
    (hinv : ∀ e ∈ c.csidMap, e.2.index + e.2.remain = e.2.Length ∧
      e.2.Data.length = e.2.Length ∧ e.2.Length < 2 ^ 24)
    (h : ReadChunk c = some (cs, c')) :
    (∀ b ∈ c'.input, b < 256) ∧
    (∀ e ∈ c'.csidMap, e.2.index + e.2.remain = e.2.Length ∧
      e.2.Data.length = e.2.Length ∧ e.2.Length < 2 ^ 24) ∧
    c'.readMaxChunkSize = c.readMaxChunkSize ∧
    (cs.index + cs.remain = cs.Length ∧ cs.Data.length = cs.Length ∧ cs.Length < 2 ^ 24) := by
  obtain ⟨format, csid, in1, csh, in2, hbh, hh, hp, hc'⟩ := ReadChunk_some c c' cs h
  have hs1 := readBasicHeader_suffix _ _ _ _ hbh
  have hb1 : ∀ b ∈ in1, b < 256 := fun b hb' => hb b (hs1.subset hb')
  obtain ⟨hinvh, hs2⟩ := readMessageHeader_inv _ _ _ _ _ hb1
    (lookup_getD_inv c.csidMap csid hinv) hh
  obtain ⟨hinvp, hs3⟩ := readPayload_inv _ _ _ _ _ hinvh hp
  refine ⟨fun b hb' => hb1 b (hs2.subset (hs3.subset hb')), ?_, by rw [hc'], hinvp⟩
  intro e he
  rw [hc'] at he
  rcases mem_csidMapSet _ _ _ _ he with rfl | he
  · exact hinvp
  · exact hinv e he

/-- C19: the reassembly invariant.  A fresh decoder (empty table) with any
`readMaxChunkSize = n` makes `k` successful `ReadChunk` calls on input bytes
(values below 256).  Then every chunk stream in the table, and every chunk
stream returned, has `index + remain = Length` and `len(Data) = Length` (and
`Length <= 0xFFFFFF`); and in the next call, once the header has been
processed, the slice `Data[index .. index+size)` with
`size = min(remain, readMaxChunkSize)` is in bounds, without wrap-around of
the `uint32` sum. -/
theorem ReadChunks_reassembly_invariant (input : List Nat) (n k : Nat)
    (css : List ChunkStream) (c : RTMPConn)
    (hbytes : ∀ b ∈ input, b < 256)
    (h : ReadChunks k (freshDecoder input n) = some (css, c)) :
    (∀ e ∈ c.csidMap, e.2.index + e.2.remain = e.2.Length ∧ e.2.Data.length = e.2.Length ∧
      e.2.Length ≤ 0xFFFFFF) ∧
    (∀ cs ∈ css, cs.index + cs.remain = cs.Length ∧ cs.Data.length = cs.Length) ∧
    c.readMaxChunkSize = n ∧
    (∀ format csid in1 csh in2,
      readBasicHeader c.input = some (format, csid, in1) →
      readMessageHeader format ((c.csidMap.lookup csid).getD { CSID := csid }) in1 =
        some (csh, in2) →
      csh.index + min csh.remain c.readMaxChunkSize ≤ csh.Data.length ∧
      u32 (csh.index + u32 (min csh.remain c.readMaxChunkSize)) =
        csh.index + min csh.remain c.readMaxChunkSize) := by
  have gen : ∀ (k : Nat) (c0 c : RTMPConn) (css : List ChunkStream),
      (∀ b ∈ c0.input, b < 256) →
      (∀ e ∈ c0.csidMap, e.2.index + e.2.remain = e.2.Length ∧
        e.2.Data.length = e.2.Length ∧ e.2.Length < 2 ^ 24) →
      ReadChunks k c0 = some (css, c) →
      (∀ b ∈ c.input, b < 256) ∧
      (∀ e ∈ c.csidMap, e.2.index + e.2.remain = e.2.Length ∧
        e.2.Data.length = e.2.Length ∧ e.2.Length < 2 ^ 24) ∧
      c.readMaxChunkSize = c0.readMaxChunkSize ∧
      (∀ cs ∈ css, cs.index + cs.remain = cs.Length ∧ cs.Data.length = cs.Length) := by
    intro k
    induction k with
    | zero =>
      intro c0 c css hb hinv h
      simp only [ReadChunks, Option.some.injEq, Prod.mk.injEq] at h
      obtain ⟨rfl, rfl⟩ := h
      exact ⟨hb, hinv, rfl, fun cs hcs => absurd hcs (List.not_mem_nil _)⟩
    | succ k ih =>
      intro c0 c css hb hinv h
      rw [ReadChunks] at h
      cases h1 : ReadChunk c0 with
      | none => rw [h1] at h; exact absurd h (by simp)
      | some r =>
        obtain ⟨cs1, c1⟩ := r
        rw [h1] at h
        simp only at h
        cases h2 : ReadChunks k c1 with
        | none => rw [h2] at h; exact absurd h (by simp)
        | some r2 =>
          obtain ⟨css2, c2⟩ := r2
          rw [h2] at h
          simp only [Option.some.injEq, Prod.mk.injEq] at h
          obtain ⟨rfl, rfl⟩ := h
          obtain ⟨hb1, hinv1, hr1, hcs1⟩ := ReadChunk_inv c0 c1 cs1 hb hinv h1
          obtain ⟨hb2, hinv2, hr2, hcss2⟩ := ih c1 c2 css2 hb1 hinv1 h2
          refine ⟨hb2, hinv2, hr2.trans hr1, ?_⟩
          intro cs hcs
          rcases List.mem_cons.mp hcs with rfl | hcs
          · exact ⟨hcs1.1, hcs1.2.1⟩
          · exact hcss2 cs hcs
  obtain ⟨hb, hinv, hr, hcss⟩ := gen k (freshDecoder input n) c css hbytes
    (fun e he => absurd he (List.not_mem_nil _)) h
  refine ⟨?_, hcss, hr, ?_⟩
  · intro e he
    obtain ⟨h1, h2, h3⟩ := hinv e he
    exact ⟨h1, h2, by omega⟩
  · intro format csid in1 csh in2 hbh hh
    have hs1 := readBasicHeader_suffix _ _ _ _ hbh
    have hb1 : ∀ b ∈ in1, b < 256 := fun b hb' => hb b (hs1.subset hb')
    obtain ⟨⟨h1, h2, h3⟩, -⟩ := readMessageHeader_inv _ _ _ _ _ hb1
      (lookup_getD_inv c.csidMap csid hinv) hh
    generalize hm : min csh.remain c.readMaxChunkSize = m
    have hmr : m ≤ csh.remain := by omega
    have hu : u32 m = m := by unfold u32; omega
    refine ⟨by omega, ?_⟩
    rw [hu]
    unfold u32
    omega

/-- Witness of C19: a fresh decoder with `readMaxChunkSize = 2` reads the two
chunks of a 3-byte message on CSID 3. -/
theorem ReadChunks_reassembly_invariant_witness :
    (∀ b ∈ [0x03, 0, 3, 0xE8, 0, 0, 3, 8, 1, 0, 0, 0, 0xAA, 0xBB, 0xC3, 0xCC], b < 256) ∧
    ReadChunks 1 (freshDecoder [0x03, 0, 3, 0xE8, 0, 0, 3, 8, 1, 0, 0, 0, 0xAA, 0xBB, 0xC3, 0xCC] 2) =
      some ([{ CSID := 3, Timestamp := 1000, Length := 3, TypeID := 8, StreamID := 1, index := 2, remain := 1, Data := [0xAA, 0xBB, 0] }],
        { freshDecoder [0xC3, 0xCC] 2 with csidMap := [(3, { CSID := 3, Timestamp := 1000, Length := 3, TypeID := 8, StreamID := 1, index := 2, remain := 1, Data := [0xAA, 0xBB, 0] })] }) ∧
    (∀ e ∈ [((3 : Nat), ({ CSID := 3, Timestamp := 1000, Length := 3, TypeID := 8, StreamID := 1, index := 2, remain := 1, Data := [0xAA, 0xBB, 0] } : ChunkStream))],
      e.2.index + e.2.remain = e.2.Length ∧ e.2.Data.length = e.2.Length ∧
      e.2.Length ≤ 0xFFFFFF) :=
  ⟨by decide, by decide,
   (ReadChunks_reassembly_invariant
      [0x03, 0, 3, 0xE8, 0, 0, 3, 8, 1, 0, 0, 0, 0xAA, 0xBB, 0xC3, 0xCC] 2 1
      [{ CSID := 3, Timestamp := 1000, Length := 3, TypeID := 8, StreamID := 1, index := 2, remain := 1, Data := [0xAA, 0xBB, 0] }]
      { freshDecoder [0xC3, 0xCC] 2 with csidMap := [(3, { CSID := 3, Timestamp := 1000, Length := 3, TypeID := 8, StreamID := 1, index := 2, remain := 1, Data := [0xAA, 0xBB, 0] })] }
      (by decide) (by decide)).1⟩

/-! ## Command framing -/

/-- With a decoder that consumes at least one byte for every value it yields,
the loop of `DecodeBatch` ends within `len(r) + 1` calls. -/
theorem DecodeBatchLoop_total (decode : List Nat → Option (AMFValue × List Nat))
    (hdec : ∀ r v r', decode r = some (v, r') → r'.length < r.length) :
    ∀ (fuel : Nat) (r : List Nat), r.length < fuel → DecodeBatchLoop decode fuel r ≠ none := by
  intro fuel
  induction fuel with
  | zero => intro r h; omega
  | succ fuel ih =>
    intro r h
    rw [DecodeBatchLoop]
    cases hd : decode r with
    | none => simp
    | some p =>
      obtain ⟨v, r'⟩ := p
      have hlt := hdec r v r' hd
      have hne := ih r' (by omega)
      simp only
      cases hl : DecodeBatchLoop decode fuel r' with
      | none => exact absurd hl hne
      | some ret => simp

/-- C14: `handleCommandMsgAMF0` on a payload that `DecodeBatch` decodes to the
values `vs`, at least three of them, the first a string `s` and the second a
number `x`: it returns (no panic; its error result is always nil) the command
with `CommandName = s`, `CommandTransId = x`, `CommandObj` the object `vs[2]`
or nil when `vs[2]` is not an object, and `CommandParams = vs[3:]`, which is
empty when there are three values.  `DecodeBatch` returns for every decoder
that consumes at least one byte per value. -/
theorem handleCommandMsgAMF0_framing (decode : List Nat → Option (AMFValue × List Nat))
    (b : List Nat) :
    (∀ (vs : List AMFValue) (s : String) (x : Nat) (v2 : AMFValue),
      DecodeBatch decode b = some vs → 3 ≤ vs.length →
      vs[0]? = some (AMFValue.str s) → vs[1]? = some (AMFValue.num x) → vs[2]? = some v2 →
      ∃ cmd, handleCommandMsgAMF0 decode b = some cmd ∧
        cmd.CommandName = s ∧ cmd.CommandTransId = x ∧
        (∀ o, v2 = AMFValue.obj o → cmd.CommandObj = some o) ∧
        ((∀ o, v2 ≠ AMFValue.obj o) → cmd.CommandObj = none) ∧
        cmd.CommandParams = vs.drop 3 ∧
        (vs.length = 3 → cmd.CommandParams = [])) ∧
    ((∀ r v r', decode r = some (v, r') → r'.length < r.length) →
      ∃ vs, DecodeBatch decode b = some vs) := by
  constructor
  · intro vs s x v2 hvs hlen h0 h1 h2
    have hP : (if vs.length > 3 then vs.drop 3 else []) = vs.drop 3 := by
      split_ifs with h
      · rfl
      · exact (List.drop_of_length_le (by omega)).symm
    refine ⟨_, by simp only [handleCommandMsgAMF0, hvs, h0, h1, h2]; rfl, rfl, rfl, ?_, ?_, hP, ?_⟩
    · intro o ho
      subst ho
      rfl
    · intro hno
      cases v2 with
      | obj o => exact absurd rfl (hno o)
      | str _ => rfl
      | num _ => rfl
      | other _ => rfl
    · intro h3
      show (if vs.length > 3 then vs.drop 3 else []) = []
      rw [if_neg (by omega)]
  · intro hdec
    have hne := DecodeBatchLoop_total decode hdec (b.length + 1) b (by omega)
    cases hd : DecodeBatch decode b with
    | none => exact absurd hd hne
    | some vs => exact ⟨vs, rfl⟩

/-- Witness of C14, with a decoder that reads one value from two bytes (a tag
and a content byte): a "connect"-like command with name, transaction id,
object and one parameter, and a command whose third value is not an object. -/
theorem handleCommandMsgAMF0_framing_witness :
    (∃ cmd, handleCommandMsgAMF0
        (fun r => match r with
          | 2 :: _ :: rest => some (AMFValue.str "connect", rest)
          | 0 :: n :: rest => some (AMFValue.num n, rest)
          | 3 :: _ :: rest => some (AMFValue.obj [("app", AMFValue.str "movie")], rest)
          | 5 :: _ :: rest => some (AMFValue.other 5, rest)
          | _ => none)
        [2, 0, 0, 1, 3, 0, 5, 0] = some cmd ∧
      cmd.CommandName = "connect" ∧ cmd.CommandTransId = 1 ∧
      cmd.CommandParams = [AMFValue.other 5]) ∧
    (∃ cmd, handleCommandMsgAMF0
        (fun r => match r with
          | 2 :: _ :: rest => some (AMFValue.str "connect", rest)
          | 0 :: n :: rest => some (AMFValue.num n, rest)
          | 3 :: _ :: rest => some (AMFValue.obj [("app", AMFValue.str "movie")], rest)
          | 5 :: _ :: rest => some (AMFValue.other 5, rest)
          | _ => none)
        [2, 0, 0, 1, 5, 0] = some cmd ∧
      cmd.CommandObj = none ∧ cmd.CommandParams = []) := by
  constructor
  · obtain ⟨cmd, h, hn, ht, -, -, hp, -⟩ := (handleCommandMsgAMF0_framing
      (fun r => match r with
          | 2 :: _ :: rest => some (AMFValue.str "connect", rest)
          | 0 :: n :: rest => some (AMFValue.num n, rest)
          | 3 :: _ :: rest => some (AMFValue.obj [("app", AMFValue.str "movie")], rest)
          | 5 :: _ :: rest => some (AMFValue.other 5, rest)
          | _ => none)
      [2, 0, 0, 1, 3, 0, 5, 0]).1
      [AMFValue.str "connect", AMFValue.num 1, AMFValue.obj [("app", AMFValue.str "movie")],
       AMFValue.other 5] "connect" 1 (AMFValue.obj [("app", AMFValue.str "movie")])
      rfl (by decide) rfl rfl rfl
    exact ⟨cmd, h, hn, ht, hp⟩
  · obtain ⟨cmd, h, -, -, -, ho, -, hp⟩ := (handleCommandMsgAMF0_framing
      (fun r => match r with
          | 2 :: _ :: rest => some (AMFValue.str "connect", rest)
          | 0 :: n :: rest => some (AMFValue.num n, rest)
          | 3 :: _ :: rest => some (AMFValue.obj [("app", AMFValue.str "movie")], rest)
          | 5 :: _ :: rest => some (AMFValue.other 5, rest)
          | _ => none)
      [2, 0, 0, 1, 5, 0]).1
      [AMFValue.str "connect", AMFValue.num 1, AMFValue.other 5] "connect" 1 (AMFValue.other 5)
      rfl (by decide) rfl rfl rfl
    exact ⟨cmd, h, ho (fun o => AMFValue.noConfusion), hp rfl⟩

end EasyLive
